import Mathlib

/-!
# darktable: the blend compositor, the darkroom view and the export job

Shallow embedding of `dt_develop_blend_process` and of the `_blend_*` operator
family (`src/develop/blend.c`), of `expose`, `try_enter`, `dt_dev_change_image`,
`film_strip_activated`, `dt_dev_jump_image`, `enter` and `leave`
(`src/views/darkroom.c`) and of the export, merge, duplicate, flip, remove and
delete jobs (`src/control/jobs/control_jobs.c`), followed by theorems about
them.

## Arithmetic model

The C code computes on `float`/`double`.  The embedding uses the type `FVal`:
a finite value carries an exact rational, and the IEEE-754 special values
`+inf`, `-inf` and `NaN` are explicit, with the IEEE rules for every operation
that meets them (`x/0`, `inf*0`, `inf-inf`, comparisons with `NaN`, `fmax`/`fmin`
of a `NaN`).  Rounding, overflow and underflow of finite results are not
modelled (finite arithmetic is exact), and zero carries no sign: a division of
a non-zero finite value by zero takes the sign of the numerator, as IEEE does
for a `+0` divisor.  A finite operation of the model is the operation of the
machine wherever the operands and the exact result are values of `float`
(`is_binary32`); the examples of the operator substract are stated on such
operands, a decimal such as `0.6` being taken at the `float` nearest to it.

## Memory model

A pixel buffer is a total map from element offsets (`Int`) to values; `in` is
only read, `out` is read and written, and the two do not overlap.  C `int`
arithmetic on offsets is unbounded `Int` arithmetic.  The loops over the region
run in sequence, rows first; the OpenMP pragma of the source is not modelled.
-/

namespace Darktable

/-! ## Floating-point values -/

/-- Value of a C `float`/`double`: an exact finite rational or an IEEE special. -/
inductive FVal where
  | fin (q : ℚ)
  | pinf
  | ninf
  | nan
  deriving DecidableEq

namespace FVal

/-- Unary minus. -/
def fneg : FVal → FVal
  | fin q => fin (-q)
  | pinf => ninf
  | ninf => pinf
  | nan => nan

/-- The C operator `+`, exact on finite operands: the sum is not rounded. -/
def fadd : FVal → FVal → FVal
  | fin a, fin b => fin (a + b)
  | fin _, pinf => pinf
  | fin _, ninf => ninf
  | pinf, fin _ => pinf
  | pinf, pinf => pinf
  | ninf, fin _ => ninf
  | ninf, ninf => ninf
  | _, _ => nan

/-- The C operator `-`. -/
def fsub (a b : FVal) : FVal := fadd a (fneg b)

/-- Infinity of the given sign (`true` is negative). -/
def signedInf (neg : Bool) : FVal := if neg then ninf else pinf

/-- The C operator `*`. -/
def fmul : FVal → FVal → FVal
  | fin a, fin b => fin (a * b)
  | fin a, pinf => if a = 0 then nan else signedInf (decide (a < 0))
  | fin a, ninf => if a = 0 then nan else signedInf (decide (0 < a))
  | pinf, fin b => if b = 0 then nan else signedInf (decide (b < 0))
  | ninf, fin b => if b = 0 then nan else signedInf (decide (0 < b))
  | pinf, pinf => pinf
  | ninf, ninf => pinf
  | pinf, ninf => ninf
  | ninf, pinf => ninf
  | _, _ => nan

/-- The C operator `/`: a finite non-zero value over zero is an infinity,
`0/0` and `inf/inf` are `NaN`. -/
def fdiv : FVal → FVal → FVal
  | fin a, fin b =>
      if b = 0 then (if a = 0 then nan else signedInf (decide (a < 0))) else fin (a / b)
  | fin _, pinf => fin 0
  | fin _, ninf => fin 0
  | pinf, fin b => signedInf (decide (b < 0))
  | ninf, fin b => signedInf (decide (0 ≤ b))
  | _, _ => nan

/-- The C operator `<` (false as soon as one side is `NaN`). -/
def flt : FVal → FVal → Bool
  | fin a, fin b => decide (a < b)
  | fin _, pinf => true
  | ninf, fin _ => true
  | ninf, pinf => true
  | _, _ => false

/-- The C operator `>`. -/
def fgt (a b : FVal) : Bool := flt b a

/-- C99 `fmax`: the larger argument; a `NaN` argument is ignored. -/
def fmax : FVal → FVal → FVal
  | nan, b => b
  | a, nan => a
  | a, b => if flt a b then b else a

/-- C99 `fmin`: the smaller argument; a `NaN` argument is ignored. -/
def fmin : FVal → FVal → FVal
  | nan, b => b
  | a, nan => a
  | a, b => if flt b a then b else a

/-- C99 `fabs`. -/
def fabs : FVal → FVal
  | fin q => fin |q|
  | pinf => pinf
  | ninf => pinf
  | nan => nan

/-- Whether the value is a finite number. -/
def isFinite : FVal → Bool
  | fin _ => true
  | _ => false

end FVal

open FVal

/-! ## The blend operators (`blend.c`, lines 21-117) -/

/-- The macro `CLIP_MAX(x)`: `fmax(0,fmin(max,x))`, with `max` taken from the
scope of the expansion. -/
def CLIP_MAX (max x : FVal) : FVal := fmax (fin 0) (fmin max x)

/-- The type `_blend_func`: `float (float max, float a, float b)`. -/
abbrev blend_func := FVal → FVal → FVal → FVal

/-- Normal blend. -/
def _blend_normal : blend_func := fun _max _a b => b

/-- Lighten. -/
def _blend_lighten : blend_func := fun _max a b => fmax a b

/-- Darken. -/
def _blend_darken : blend_func := fun _max a b => fmin a b

/-- Multiply. -/
def _blend_multiply : blend_func := fun _max a b => fmul a b

/-- Average. -/
def _blend_average : blend_func := fun _max a b => fdiv (fadd a b) (fin 2)

/-- Add. -/
def _blend_add : blend_func := fun max a b => CLIP_MAX max (fadd a b)

/-- Substract. -/
def _blend_substract : blend_func := fun max a b =>
  if flt (fadd a b) max then fin 0 else fsub (fadd b a) max

/-- Difference. -/
def _blend_difference : blend_func := fun _max a b => fabs (fsub a b)

/-- Screen. -/
def _blend_screen : blend_func := fun max a b =>
  fsub max (fmul (fsub max a) (fsub max b))

/-- Overlay. -/
def _blend_overlay : blend_func := fun max a b =>
  let halfmax := fdiv max (fin 2)
  let doublemax := fmul max (fin 2)
  if fgt a halfmax then
    fsub max (fmul (fsub max (fmul doublemax (fsub a halfmax))) (fsub max b))
  else fmul (fmul doublemax a) b

/-- Softlight. -/
def _blend_softlight : blend_func := fun max a b =>
  let halfmax := fdiv max (fin 2)
  if fgt a halfmax then
    fsub max (fmul (fsub max a) (fsub max (fsub b halfmax)))
  else fmul a (fadd b halfmax)

/-- Hardlight. -/
def _blend_hardlight : blend_func := fun max a b =>
  let halfmax := fdiv max (fin 2)
  let doublemax := fmul max (fin 2)
  if fgt a halfmax then
    fsub max (fmul (fsub max a) (fsub max (fmul doublemax (fsub b halfmax))))
  else fmul a (fadd b halfmax)

/-- Vividlight. -/
def _blend_vividlight : blend_func := fun max a b =>
  let halfmax := fdiv max (fin 2)
  let doublemax := fmul max (fin 2)
  if fgt a halfmax then
    fsub max (fdiv (fsub max a) (fmul doublemax (fsub b halfmax)))
  else fdiv a (fsub max (fmul doublemax b))

/-- Linearlight. -/
def _blend_linearlight : blend_func := fun max a b =>
  let halfmax := fdiv max (fin 2)
  let doublemax := fmul max (fin 2)
  if fgt a halfmax then fadd a (fmul doublemax (fsub b halfmax))
  else fsub (fadd a (fmul doublemax b)) max

/-- Pinlight. -/
def _blend_pinlight : blend_func := fun max a b =>
  let halfmax := fdiv max (fin 2)
  let doublemax := fmul max (fin 2)
  if fgt a halfmax then fmax a (fmul doublemax (fsub b halfmax))
  else fmin a (fmul doublemax b)

/-! ## The declarations of `blend.h` and `imageop.h` used by `blend.c` -/

/-- The mode constants of `blend.h`.  That header is not among the sources, so
its constants are a parameter of the embedding. -/
structure BlendH where
  DEVELOP_BLEND_MASK_FLAG : Nat
  DEVELOP_BLEND_NORMAL : Nat
  DEVELOP_BLEND_LIGHTEN : Nat
  DEVELOP_BLEND_DARKEN : Nat
  DEVELOP_BLEND_MULTIPLY : Nat
  DEVELOP_BLEND_AVERAGE : Nat
  DEVELOP_BLEND_ADD : Nat
  DEVELOP_BLEND_SUBSTRACT : Nat
  DEVELOP_BLEND_DIFFERENCE : Nat
  DEVELOP_BLEND_SCREEN : Nat
  DEVELOP_BLEND_OVERLAY : Nat
  DEVELOP_BLEND_SOFTLIGHT : Nat
  DEVELOP_BLEND_HARDLIGHT : Nat
  DEVELOP_BLEND_VIVIDLIGHT : Nat
  DEVELOP_BLEND_LINEARLIGHT : Nat
  DEVELOP_BLEND_PINLIGHT : Nat

/-- The constants as darktable's `blend.h` declares them: the mask flag is
`0x80`, the modes are numbered from `1` (normal) to `15` (pinlight), and `0`
is the disabled mode.  Used for concrete evaluations. -/
def blendH : BlendH where
  DEVELOP_BLEND_MASK_FLAG := 0x80
  DEVELOP_BLEND_NORMAL := 1
  DEVELOP_BLEND_LIGHTEN := 2
  DEVELOP_BLEND_DARKEN := 3
  DEVELOP_BLEND_MULTIPLY := 4
  DEVELOP_BLEND_AVERAGE := 5
  DEVELOP_BLEND_ADD := 6
  DEVELOP_BLEND_SUBSTRACT := 7
  DEVELOP_BLEND_DIFFERENCE := 8
  DEVELOP_BLEND_SCREEN := 9
  DEVELOP_BLEND_OVERLAY := 10
  DEVELOP_BLEND_SOFTLIGHT := 11
  DEVELOP_BLEND_HARDLIGHT := 12
  DEVELOP_BLEND_VIVIDLIGHT := 13
  DEVELOP_BLEND_LINEARLIGHT := 14
  DEVELOP_BLEND_PINLIGHT := 15

/-- The fields of `dt_develop_blend_params_t` that `blend.c` reads or writes. -/
structure dt_develop_blend_params_t where
  mode : Nat
  opacity : FVal
  deriving DecidableEq

/-- The colourspace a module works in, as returned by
`dt_iop_module_colorspace`. -/
inductive dt_iop_colorspace_type_t where
  | iop_cs_RAW
  | iop_cs_Lab
  | iop_cs_rgb
  deriving DecidableEq

open dt_iop_colorspace_type_t

/-- The fields of `dt_iop_roi_t` that `blend.c` reads. -/
structure dt_iop_roi_t where
  width : Int
  height : Int

/-- A buffer of `float`, addressed by element offset from its base pointer. -/
abbrev Buf := Int → FVal

/-- The assignment `buf[i] = v`. -/
def Buf.set (buf : Buf) (i : Int) (v : FVal) : Buf :=
  fun j => if j = i then v else buf j

/-! ## `dt_develop_blend_process` (`blend.c`, lines 119-245) -/

/-- The expression `m & ~f` on unsigned values: the bits of `m` that are not
bits of `f`. -/
def andNot (m f : Nat) : Nat := m ^^^ (m &&& f)

/-- The `switch (mode)` of lines 131-184, which selects the blend operator. -/
def select_blend (H : BlendH) (mode : Nat) : blend_func :=
  if mode = H.DEVELOP_BLEND_LIGHTEN then _blend_lighten
  else if mode = H.DEVELOP_BLEND_DARKEN then _blend_darken
  else if mode = H.DEVELOP_BLEND_MULTIPLY then _blend_multiply
  else if mode = H.DEVELOP_BLEND_AVERAGE then _blend_average
  else if mode = H.DEVELOP_BLEND_ADD then _blend_add
  else if mode = H.DEVELOP_BLEND_SUBSTRACT then _blend_substract
  else if mode = H.DEVELOP_BLEND_DIFFERENCE then _blend_difference
  else if mode = H.DEVELOP_BLEND_SCREEN then _blend_screen
  else if mode = H.DEVELOP_BLEND_OVERLAY then _blend_overlay
  else if mode = H.DEVELOP_BLEND_SOFTLIGHT then _blend_softlight
  else if mode = H.DEVELOP_BLEND_HARDLIGHT then _blend_hardlight
  else if mode = H.DEVELOP_BLEND_VIVIDLIGHT then _blend_vividlight
  else if mode = H.DEVELOP_BLEND_LINEARLIGHT then _blend_linearlight
  else if mode = H.DEVELOP_BLEND_PINLIGHT then _blend_pinlight
  else _blend_normal

/-- Line 194: the clipped opacity, `fmin(fmax(0,(d->opacity/100.0)),1.0)`. -/
def clipped_opacity (opacity : FVal) : FVal :=
  fmin (fmax (fin 0) (fdiv opacity (fin 100))) (fin 1)

/-- Lines 197-203: the array `max[4]`, all `1.0`, with `max[0] = 100.0` in Lab. -/
def max_array (cst : dt_iop_colorspace_type_t) (i : Int) : FVal :=
  if cst = iop_cs_Lab ∧ i = 0 then fin 100 else fin 1

/-- Lines 191-207: the variable `channels`. -/
def channels_of (cst : dt_iop_colorspace_type_t) : Nat :=
  if cst = iop_cs_Lab then 1 else if cst = iop_cs_RAW then 1 else 3

/-- The right-hand side of the assignments of lines 221, 228 and 235:
`(in[k] * (1.0-local_opacity)) + (blend(max, in[k], out[k]) * local_opacity)`. -/
def blend_value (blend : blend_func) (max local_opacity a b : FVal) : FVal :=
  fadd (fmul a (fsub (fin 1) local_opacity)) (fmul (blend max a b) local_opacity)

/-- Lines 215-236: the body of the loop over `x`, for the pixel whose
`index` is `y*roi_out->width+x`. -/
def blend_pixel (cst : dt_iop_colorspace_type_t) (ch : Int) (blend : blend_func)
    (use_mask : Bool) (opacity : FVal) (inb : Buf) (out : Buf) (index : Int) : Buf :=
  let local_opacity := if use_mask then fmul opacity (out (4 * index + 3)) else opacity
  match cst with
  | iop_cs_Lab =>
    let index := index * ch
    let out := out.set index
      (blend_value blend (max_array cst 0) local_opacity (inb index) (out index))
    let out := out.set (index + 1) (inb (index + 1))
    out.set (index + 2) (inb (index + 2))
  | iop_cs_RAW =>
    out.set index (blend_value blend (max_array cst 0) local_opacity (inb index) (out index))
  | iop_cs_rgb =>
    let index := index * ch
    (List.range (channels_of cst)).foldl
      (fun (out : Buf) (c : Nat) =>
        let k := index + (c : Int)
        out.set k (blend_value blend (max_array cst (k - index)) local_opacity (inb k) (out k)))
      out

/-- Lines 211-237: the loops over the rows and columns of `roi_out`. -/
def blend_loops (cst : dt_iop_colorspace_type_t) (ch : Int) (blend : blend_func)
    (use_mask : Bool) (opacity : FVal) (roi_out : dt_iop_roi_t) (inb : Buf) (out : Buf) : Buf :=
  (List.range roi_out.height.toNat).foldl
    (fun (out : Buf) (y : Nat) =>
      (List.range roi_out.width.toNat).foldl
        (fun (out : Buf) (x : Nat) => blend_pixel cst ch blend use_mask opacity inb out
          ((y : Int) * roi_out.width + (x : Int)))
        out)
    out

/-- What a call of `dt_develop_blend_process` leaves behind: the two buffers,
the blend parameters of the piece (`none` for a null `blendop_data`), and the
messages handed to `dt_control_log`. -/
structure BlendResult where
  inb : Buf
  out : Buf
  blendop_data : Option dt_develop_blend_params_t
  log : List String

/-- The function `dt_develop_blend_process`.  `cst` is the value of
`dt_iop_module_colorspace(self)`, `ch` is `piece->colors`. -/
def dt_develop_blend_process (H : BlendH) (cst : dt_iop_colorspace_type_t) (ch : Int)
    (blendop_data : Option dt_develop_blend_params_t) (inb out : Buf)
    (roi_out : dt_iop_roi_t) : BlendResult :=
  match blendop_data with
  | none => ⟨inb, out, none, []⟩
  | some d =>
    if d.mode = 0 then ⟨inb, out, some d, []⟩
    else
      -- `const int mode = (d->mode&=~DEVELOP_BLEND_MASK_FLAG);`
      let d : dt_develop_blend_params_t :=
        ⟨andNot d.mode H.DEVELOP_BLEND_MASK_FLAG, d.opacity⟩
      let mode := d.mode
      let blend := select_blend H mode
      if d.mode ≠ 0 then
        let use_mask := decide (d.mode &&& H.DEVELOP_BLEND_MASK_FLAG ≠ 0)
        let opacity := clipped_opacity d.opacity
        ⟨inb, blend_loops cst ch blend use_mask opacity roi_out inb out, some d, []⟩
      else
        ⟨inb, out, some d, ["blending using masks is not yet implemented."]⟩

/-! ## Reference definitions, following the words of the specification -/

/-- The elements of `out` that the loop body writes for the pixel `index`: the
single element `index` in a raw stage, the elements `index*ch`, `index*ch+1`
and `index*ch+2` in a Lab or RGB stage. -/
def footprint (cst : dt_iop_colorspace_type_t) (ch index j : Int) : Prop :=
  match cst with
  | iop_cs_RAW => j = index
  | _ => index * ch ≤ j ∧ j < index * ch + 3

/-- The compositing rule of the specification,
`in*(1-opacity_local) + blend(max,in,out)*opacity_local`. -/
def composite (blend : blend_func) (max o a b : FVal) : FVal :=
  fadd (fmul a (fsub (fin 1) o)) (fmul (blend max a b) o)

/-- The channel ceiling of the specification: `100` for the lightness channel
of a Lab stage, `1` for every other channel. -/
def channel_max (cst : dt_iop_colorspace_type_t) (c : Int) : FVal :=
  match cst with
  | iop_cs_Lab => if c = 0 then fin 100 else fin 1
  | _ => fin 1

/-- The value the specification gives to element `j` of the pixel `index`:
the composite of the input and raw output elements, except for the two
chrominance channels of a Lab pixel, which are the input elements. -/
def written (cst : dt_iop_colorspace_type_t) (ch : Int) (blend : blend_func) (o : FVal)
    (inb out : Buf) (index j : Int) : FVal :=
  match cst with
  | iop_cs_Lab =>
    if j = index * ch then composite blend (fin 100) o (inb j) (out j) else inb j
  | _ => composite blend (fin 1) o (inb j) (out j)

/-- The reference clamp of the specification, `clamp(x, lo, hi)`. -/
def clamp (x lo hi : ℚ) : ℚ := max lo (min hi x)

/-- The reference subtract of the specification: `0` if `a+b < max`, else
`a+b-max`. -/
def subtract_ref (mx a b : ℚ) : ℚ := if a + b < mx then 0 else a + b - mx

/-- The number held by a C `float` (IEEE-754 binary32) with the integer
significand `m` and the exponent `e`: `m * 2^e`. -/
def binary32 (m e : Int) : ℚ := (m : ℚ) * (2 : ℚ) ^ e

/-- A rational number is a value of the C type `float`: `m * 2^e` with a
significand of at most 24 bits and an exponent of the normal or subnormal
range.  On such operands an operation of the arithmetic model whose exact
result is again such a value is the operation the machine performs. -/
def is_binary32 (q : ℚ) : Prop :=
  ∃ m e : Int, |m| < 2 ^ 24 ∧ -149 ≤ e ∧ e ≤ 104 ∧ q = binary32 m e

/-- The value of the C literal `0.6f`, the `float` nearest to `6/10`:
`0x3f19999a`. -/
def float_0_6 : ℚ := binary32 10066330 (-24)

/-- The value of the C literal `0.3f`, the `float` nearest to `3/10`:
`0x3e99999a`. -/
def float_0_3 : ℚ := binary32 10066330 (-25)

/-- The value of the C literal `0.1f`, the `float` nearest to `1/10`:
`0x3dcccccd`. -/
def float_0_1 : ℚ := binary32 13421773 (-27)

/-- The reference opacity of the specification: the percentage over `100`,
kept within `[0,1]`. -/
def opacity_ref (p : ℚ) : ℚ := if p < 0 then 0 else if 100 < p then 1 else p / 100

/-- The mode enumerators of `blend.h`, in the order of their declaration. -/
def BlendH.modes (H : BlendH) : List Nat :=
  [H.DEVELOP_BLEND_NORMAL, H.DEVELOP_BLEND_LIGHTEN, H.DEVELOP_BLEND_DARKEN,
   H.DEVELOP_BLEND_MULTIPLY, H.DEVELOP_BLEND_AVERAGE, H.DEVELOP_BLEND_ADD,
   H.DEVELOP_BLEND_SUBSTRACT, H.DEVELOP_BLEND_DIFFERENCE, H.DEVELOP_BLEND_SCREEN,
   H.DEVELOP_BLEND_OVERLAY, H.DEVELOP_BLEND_SOFTLIGHT, H.DEVELOP_BLEND_HARDLIGHT,
   H.DEVELOP_BLEND_VIVIDLIGHT, H.DEVELOP_BLEND_LINEARLIGHT, H.DEVELOP_BLEND_PINLIGHT]

/-- What `blend.c` needs of the constants of `blend.h`: the mode enumerators
are pairwise distinct (they are the labels of one `switch`), none of them is
the disabled mode `0`, and none of them has a bit of the mask flag. -/
def BlendH.WF (H : BlendH) : Prop :=
  H.modes.Nodup ∧ ∀ m ∈ H.modes, m ≠ 0 ∧ m &&& H.DEVELOP_BLEND_MASK_FLAG = 0

instance (H : BlendH) : Decidable H.WF := by
  unfold BlendH.WF
  exact inferInstance

/-- The blend operator is finite wherever the loop body evaluates it for the
element `j` of the pixel `index`. -/
def blend_finite_at (cst : dt_iop_colorspace_type_t) (ch : Int) (blend : blend_func)
    (inb out : Buf) (index j : Int) : Prop :=
  match cst with
  | iop_cs_Lab => j = index * ch → (blend (fin 100) (inb j) (out j)).isFinite = true
  | _ => (blend (fin 1) (inb j) (out j)).isFinite = true

/-- The elements of the pixel `index`: the single element `index` in a raw
stage, the `ch` elements from `index*ch` on in a Lab or RGB stage. -/
def pixel_element (cst : dt_iop_colorspace_type_t) (ch index j : Int) : Prop :=
  match cst with
  | iop_cs_RAW => j = index
  | _ => index * ch ≤ j ∧ j < index * ch + ch

/-- The dividend of the division in `_blend_vividlight` (line 100): `max-a` on
the branch `a>halfmax`, `a` on the other. -/
def vividlight_dividend (max a : FVal) : FVal :=
  let halfmax := fdiv max (fin 2)
  if fgt a halfmax then fsub max a else a

/-- The divisor of the division in `_blend_vividlight` (line 100):
`doublemax*(b-halfmax)` on the branch `a>halfmax`, `max-doublemax*b` on the
other. -/
def vividlight_divisor (max a b : FVal) : FVal :=
  let halfmax := fdiv max (fin 2)
  let doublemax := fmul max (fin 2)
  if fgt a halfmax then fmul doublemax (fsub b halfmax) else fsub max (fmul doublemax b)

/-! ## The darkroom view (`src/views/darkroom.c`): state and actions

The functions of `darkroom.c` are embedded as transformers of a run: the state
they work on, and the trace of what they do that is visible outside them (the
calls of functions of other files, the assignments to `darktable.gui->reset`,
the mutex operations and the reads of the back buffers), each entry with the
state in which it happens.  The functions called are not among the sources:
what a call does to the state is the parameter `ext`.  Calls of cairo, of the
C library and of the glib list functions are not recorded.  One thread runs;
what other threads do to the state in between is not modelled.
-/

/-- The two pixel pipelines of a develop session, `dev->pipe` and
`dev->preview_pipe`. -/
inductive Pipe where
  | pipe
  | preview_pipe
  deriving DecidableEq

/-- The functions of other files that `darkroom.c` calls in the functions
embedded here. -/
inductive Fn where
  | dt_iop_gui_update
  | dt_dev_process_image
  | dt_dev_process_preview
  | dt_dev_check_zoom_bounds
  | dt_view_set_scrollbar
  | dt_dev_get_zoom_scale
  | gui_post_expose
  | dt_dev_modulegroups_get
  | dt_dev_modulegroups_set
  | dt_conf_set_int
  | dt_conf_set_string
  | dt_conf_set_bool
  | dt_conf_get_int
  | dt_conf_get_bool
  | dt_conf_get_string
  | dt_dev_write_history
  | dt_dev_get_processed_size
  | dt_image_release
  | dt_image_cache_flush
  | dt_image_cache_get
  | dt_image_cache_release
  | gtk_expander_get_expanded
  | g_object_get
  | gui_cleanup
  | dt_dev_cleanup_module_accels
  | gtk_widget_destroy
  | dt_iop_reload_defaults
  | gui_init
  | connect_key_accels
  | dt_iop_connect_common_accels
  | gtk_container_add
  | gtk_widget_show_all
  | dtgtk_tristatebutton_set_state
  | gtk_expander_set_expanded
  | gtk_widget_hide_all
  | dt_dev_read_history
  | dt_dev_pop_history_items
  | dt_dev_raw_reload
  | dt_iop_request_focus
  | dt_control_signal_connect
  | dt_control_signal_raise
  | dt_control_signal_disconnect
  | dt_print
  | select_this_image
  | dt_dev_load_image
  | dt_iop_gui_get_expander
  | dt_ui_container_add_widget
  | dt_view_filmstrip_scroll_to_image
  | dt_view_filmstrip_prefetch
  | dt_control_queue_redraw
  | dt_control_log
  | dt_image_full_path
  | g_file_test
  | sqlite3
  | dt_tag_new
  | dt_tag_attach
  | dt_dev_pixelpipe_cleanup_nodes
  | dt_iop_cleanup_module
  deriving DecidableEq

/-- What a function of `darkroom.c` does that is visible outside it. -/
inductive Action where
  /-- A call `fn(...)`. -/
  | call (fn : Fn)
  /-- A call on the module whose `op` is given: `fn(module)` or `module->fn(module)`. -/
  | module_call (fn : Fn) (op : String)
  /-- A call on the image whose id is given. -/
  | image_call (fn : Fn) (id : Int)
  /-- The assignment `darktable.gui->reset = v`. -/
  | assign_gui_reset (v : Int)
  /-- The call `dt_pthread_mutex_lock(&p->backbuf_mutex)`. -/
  | mutex_lock (p : Pipe)
  /-- The call `dt_pthread_mutex_unlock(&p->backbuf_mutex)`. -/
  | mutex_unlock (p : Pipe)
  /-- A read of `p->backbuf_width`. -/
  | read_backbuf_width (p : Pipe)
  /-- A read of `p->backbuf_height`. -/
  | read_backbuf_height (p : Pipe)
  /-- A read of the pixels `p->backbuf`. -/
  | read_backbuf (p : Pipe)
  deriving DecidableEq

/-- An entry of the history stack, `dt_dev_history_item_t`: the module it
targets and its parameters. -/
structure dt_dev_history_item_t where
  op : String
  params : Nat
  deriving DecidableEq

/-- The fields of `dt_image_t` that `darkroom.c` reads: the id, and whether
`pixels` is non-null. -/
structure dt_image_t where
  id : Int
  pixels : Bool
  deriving DecidableEq

/-- The fields of `dt_iop_module_t` that `darkroom.c` reads: the name `op`,
whether the callbacks `connect_key_accels` and `gui_post_expose` and the widget
`showhide` are non-null, and the flag `request_color_pick`. -/
structure dt_iop_module_t where
  op : String
  connect_key_accels : Bool
  showhide : Bool
  request_color_pick : Int
  gui_post_expose : Bool
  deriving DecidableEq

/-- The field of `dt_dev_pixelpipe_t` that `darkroom.c` compares. -/
structure dt_dev_pixelpipe_t where
  input_timestamp : Int
  deriving DecidableEq

/-- The fields of `dt_develop_t` that `darkroom.c` reads or writes. -/
structure dt_develop_t where
  image : Option dt_image_t
  history : List dt_dev_history_item_t
  history_end : Int
  iop : List dt_iop_module_t
  gui_module : Option dt_iop_module_t
  gui_synch : Int
  gui_leaving : Int
  image_dirty : Int
  preview_dirty : Int
  pipe : dt_dev_pixelpipe_t
  preview_pipe : dt_dev_pixelpipe_t
  deriving DecidableEq

/-- The state `darkroom.c` works on: `darktable.gui->reset`, the develop
session, the control global `dev_closeup`, and of the colour picker proxy the
length of the list `live_samples` and the flag `display_samples`. -/
structure World where
  gui_reset : Int
  dev : dt_develop_t
  dev_closeup : Int
  live_samples : Nat
  display_samples : Int
  deriving DecidableEq

/-- A run: the current state and the trace so far, each action with the state
in which it happened. -/
structure Run where
  world : World
  trace : List (Action × World)

/-- The effect of the called functions on the state. -/
abbrev Ext := Action → World → World

/-- Callees that leave the state alone. -/
def ext_none : Ext := fun _ w => w

/-- The actions of a run, in order. -/
def Run.actions (r : Run) : List Action := r.trace.map Prod.fst

/-- A call of a function of another file. -/
def Run.call (ext : Ext) (a : Action) (r : Run) : Run :=
  ⟨ext a r.world, r.trace ++ [(a, r.world)]⟩

/-- A mutex operation or a read of a back buffer by the function itself. -/
def Run.access (a : Action) (r : Run) : Run :=
  ⟨r.world, r.trace ++ [(a, r.world)]⟩

/-- The assignment `darktable.gui->reset = v`. -/
def Run.assign_gui_reset (v : Int) (r : Run) : Run :=
  ⟨{ r.world with gui_reset := v }, r.trace ++ [(Action.assign_gui_reset v, r.world)]⟩

/-- An assignment to a field of `dev`. -/
def Run.assign_dev (f : dt_develop_t → dt_develop_t) (r : Run) : Run :=
  ⟨{ r.world with dev := f r.world.dev }, r.trace⟩

/-- A sequence of calls. -/
def Run.calls (ext : Ext) (as : List Action) (r : Run) : Run :=
  as.foldl (fun r a => r.call ext a) r

/-- A sequence of accesses. -/
def Run.accesses (as : List Action) (r : Run) : Run :=
  as.foldl (fun r a => r.access a) r

/-! ## `expose` (`darkroom.c`, lines 94-387) -/

/-- Lines 112-125: the synchronisation of the module guis. -/
def expose_gui_synch (ext : Ext) (r : Run) : Run :=
  if r.world.dev.gui_synch ≠ 0 then
    let r := r.assign_gui_reset 1
    let r := r.calls ext
      (r.world.dev.iop.map fun m => Action.module_call Fn.dt_iop_gui_update m.op)
    let r := r.assign_gui_reset 0
    r.assign_dev fun d => { d with gui_synch := 0 }
  else r

/-- Lines 127-128: the two recompute triggers. -/
def expose_process (ext : Ext) (r : Run) : Run :=
  let r :=
    if r.world.dev.image_dirty ≠ 0
        ∨ r.world.dev.pipe.input_timestamp < r.world.dev.preview_pipe.input_timestamp then
      r.call ext (Action.call Fn.dt_dev_process_image)
    else r
  if r.world.dev.preview_dirty ≠ 0 then r.call ext (Action.call Fn.dt_dev_process_preview)
  else r

/-- Lines 152-157: the adjustment of the scroll bars. -/
def expose_scrollbars (ext : Ext) (r : Run) : Run :=
  r.calls ext [Action.call Fn.dt_dev_check_zoom_bounds, Action.call Fn.dt_view_set_scrollbar]

/-- Lines 159-220: the drawing of the image from the back buffer of the full
pipeline, or else of the preview pipeline, or of neither.  `closeup` is the
value of the control global read at line 136. -/
def expose_draw (ext : Ext) (closeup : Int) (r : Run) : Run :=
  if r.world.dev.image_dirty = 0
      ∧ r.world.dev.pipe.input_timestamp ≥ r.world.dev.preview_pipe.input_timestamp then
    let r := r.access (Action.mutex_lock Pipe.pipe)
    let r := r.access (Action.read_backbuf_width Pipe.pipe)
    let r := r.access (Action.read_backbuf_height Pipe.pipe)
    let r := r.access (Action.read_backbuf Pipe.pipe)
    let r :=
      if closeup ≠ 0 then
        r.calls ext [Action.call Fn.dt_dev_check_zoom_bounds,
          Action.call Fn.dt_dev_check_zoom_bounds, Action.call Fn.dt_dev_check_zoom_bounds]
      else r
    r.access (Action.mutex_unlock Pipe.pipe)
  else if r.world.dev.preview_dirty = 0 then
    let r := r.access (Action.mutex_lock Pipe.preview_pipe)
    let r := r.access (Action.read_backbuf_width Pipe.preview_pipe)
    let r := r.access (Action.read_backbuf_height Pipe.preview_pipe)
    let r := r.call ext (Action.call Fn.dt_dev_get_zoom_scale)
    let r := r.access (Action.read_backbuf Pipe.preview_pipe)
    r.access (Action.mutex_unlock Pipe.preview_pipe)
  else r

/-- Lines 245-324: the display of the live samples of the colour picker. -/
def expose_samples (ext : Ext) (r : Run) : Run :=
  if r.world.live_samples ≠ 0 ∧ r.world.display_samples ≠ 0 then
    let r := r.access (Action.read_backbuf_width Pipe.preview_pipe)
    let r := r.access (Action.read_backbuf_height Pipe.preview_pipe)
    r.call ext (Action.call Fn.dt_dev_get_zoom_scale)
  else r

/-- Lines 325-386: the hook of the module that has the focus. -/
def expose_module_hook (ext : Ext) (r : Run) : Run :=
  match r.world.dev.gui_module with
  | none => r
  | some m =>
    if m.request_color_pick ≠ 0 then
      let r := r.access (Action.read_backbuf_width Pipe.preview_pipe)
      let r := r.access (Action.read_backbuf_height Pipe.preview_pipe)
      r.call ext (Action.call Fn.dt_dev_get_zoom_scale)
    else if m.gui_post_expose then r.call ext (Action.module_call Fn.gui_post_expose m.op)
    else r

/-- The function `expose`, from the test of `dev->gui_synch` on. -/
def expose (ext : Ext) (r : Run) : Run :=
  let r := expose_gui_synch ext r
  let r := expose_process ext r
  let closeup := r.world.dev_closeup
  let r := expose_scrollbars ext r
  let r := expose_draw ext closeup r
  let r := expose_samples ext r
  expose_module_hook ext r

/-- The dirty flags and the input timestamps of the two pipelines. -/
def dirty_state (w : World) : Int × Int × Int × Int :=
  (w.dev.image_dirty, w.dev.preview_dirty, w.dev.pipe.input_timestamp,
    w.dev.preview_pipe.input_timestamp)

/-- The lock discipline of the specification on a sequence of actions: every
read of the width, the height or the pixels of a back buffer happens while the
mutex of that pipeline is held.  `held` lists the pipelines whose mutex is
held at the start. -/
def reads_under_lock : List Pipe → List Action → Bool
  | _, [] => true
  | held, Action.mutex_lock p :: rest => reads_under_lock (p :: held) rest
  | held, Action.mutex_unlock p :: rest => reads_under_lock (held.erase p) rest
  | held, Action.read_backbuf_width p :: rest => decide (p ∈ held) && reads_under_lock held rest
  | held, Action.read_backbuf_height p :: rest => decide (p ∈ held) && reads_under_lock held rest
  | held, Action.read_backbuf p :: rest => decide (p ∈ held) && reads_under_lock held rest
  | held, _ :: rest => reads_under_lock held rest

/-- A develop session with one module, an image and nothing dirty. -/
def example_dev : dt_develop_t where
  image := some ⟨1, false⟩
  history := []
  history_end := 0
  iop := [⟨"exposure", false, true, 0, false⟩]
  gui_module := none
  gui_synch := 0
  gui_leaving := 0
  image_dirty := 0
  preview_dirty := 0
  pipe := ⟨5⟩
  preview_pipe := ⟨5⟩

/-! ## `dt_dev_change_image` (`darkroom.c`, lines 464-599) and `enter` (lines 758-848) -/

/-- The id of `dev->image`, for the functions that dereference it. -/
def image_id (w : World) : Int :=
  match w.dev.image with
  | some i => i.id
  | none => 0

/-- Lines 494-500 of `dt_dev_change_image`: the loop that deletes the first
link of `dev->history` until the list is empty. -/
def clear_history : List dt_dev_history_item_t → List dt_dev_history_item_t
  | [] => []
  | _ :: rest => clear_history rest

/-- Lines 467-478 of `dt_dev_change_image`: the groups and the active plugin
are stored and the history is committed.  The assertion of line 475 is taken
to hold. -/
def change_image_commit (ext : Ext) (r : Run) : Run :=
  r.calls ext [Action.call Fn.dt_dev_modulegroups_get, Action.call Fn.dt_conf_set_int,
    Action.call Fn.dt_conf_set_string, Action.call Fn.dt_dev_write_history]

/-- Lines 480-485: the processed size of the old image is stored. -/
def change_image_thumbnail (ext : Ext) (r : Run) : Run :=
  match r.world.dev.image with
  | some i => r.call ext (Action.image_call Fn.dt_dev_get_processed_size i.id)
  | none => r

/-- Lines 486-488: the full buffer of the old image is released. -/
def change_image_release (ext : Ext) (r : Run) : Run :=
  match r.world.dev.image with
  | some i => if i.pixels then r.call ext (Action.image_call Fn.dt_image_release i.id) else r
  | none => r

/-- Lines 490-491: the old image is flushed. -/
def change_image_flush (ext : Ext) (r : Run) : Run :=
  match r.world.dev.image with
  | some i => r.call ext (Action.image_call Fn.dt_image_cache_flush i.id)
  | none => r.call ext (Action.call Fn.dt_image_cache_flush)

/-- Lines 467-491: what `dt_dev_change_image` does for the old image. -/
def change_image_store (ext : Ext) (r : Run) : Run :=
  change_image_flush ext (change_image_release ext
    (change_image_thumbnail ext (change_image_commit ext r)))

/-- Lines 507-535: the body of the loop that re-initialises the modules, for
one module. -/
def change_image_reinit_module (ext : Ext) (r : Run) (m : dt_iop_module_t) : Run :=
  if m.op ≠ "gamma" then
    let r := r.calls ext [Action.module_call Fn.gtk_expander_get_expanded m.op,
      Action.call Fn.dt_conf_set_bool, Action.module_call Fn.g_object_get m.op,
      Action.module_call Fn.gui_cleanup m.op,
      Action.module_call Fn.dt_dev_cleanup_module_accels m.op,
      Action.module_call Fn.gtk_widget_destroy m.op,
      Action.module_call Fn.dt_iop_reload_defaults m.op,
      Action.module_call Fn.gui_init m.op]
    let r :=
      if m.connect_key_accels then r.call ext (Action.module_call Fn.connect_key_accels m.op)
      else r
    r.calls ext [Action.module_call Fn.dt_iop_connect_common_accels m.op,
      Action.module_call Fn.gtk_container_add m.op,
      Action.module_call Fn.gtk_widget_show_all m.op]
  else r

/-- Lines 542-568: the body of the loop that hides the expander widgets, for
one module. -/
def change_image_hide_module (ext : Ext) (r : Run) (m : dt_iop_module_t) : Run :=
  if m.op ≠ "gamma" then
    let r := r.calls ext [Action.call Fn.dt_conf_get_bool, Action.call Fn.dt_conf_get_bool]
    let r :=
      if m.showhide then r.call ext (Action.module_call Fn.dtgtk_tristatebutton_set_state m.op)
      else r
    r.calls ext [Action.call Fn.dt_conf_get_bool,
      Action.module_call Fn.gtk_expander_set_expanded m.op]
  else r.call ext (Action.module_call Fn.gtk_widget_hide_all m.op)

/-- Lines 503-579: what `dt_dev_change_image` does between the two assignments
to `darktable.gui->reset`. -/
def change_image_reload (ext : Ext) (r : Run) : Run :=
  let r := r.world.dev.iop.reverse.foldl (change_image_reinit_module ext) r
  let r := r.world.dev.iop.foldl (change_image_hide_module ext) r
  r.calls ext [Action.call Fn.dt_conf_get_int, Action.call Fn.dt_dev_modulegroups_set,
    Action.call Fn.dt_dev_read_history, Action.call Fn.dt_dev_pop_history_items,
    Action.call Fn.dt_dev_raw_reload]

/-- Lines 584-598 of `dt_dev_change_image` and 822-835 of `enter`: the module
that was active last gets the focus.  `active_plugin` is what
`dt_conf_get_string` returns. -/
def request_focus_active (ext : Ext) (active_plugin : Option String) (r : Run) : Run :=
  let r := r.call ext (Action.call Fn.dt_conf_get_string)
  match active_plugin with
  | none => r
  | some name =>
    r.calls ext (((r.world.dev.iop.filter fun m => m.op = name).map
      fun m => Action.module_call Fn.dt_iop_request_focus m.op))

/-- The function `dt_dev_change_image`. -/
def dt_dev_change_image (ext : Ext) (image : dt_image_t) (active_plugin : Option String)
    (r : Run) : Run :=
  let r := change_image_store ext r
  let r := r.assign_dev fun d => { d with image := some image }
  let r := r.assign_dev fun d => { d with history := clear_history d.history }
  let r := r.assign_gui_reset 1
  let r := change_image_reload ext r
  let r := r.assign_gui_reset 0
  request_focus_active ext active_plugin r

/-- Lines 785-801 of `enter`: the body of the loop that sets up the gui of the
modules, for one module. -/
def enter_init_module (ext : Ext) (r : Run) (m : dt_iop_module_t) : Run :=
  let r := r.calls ext [Action.module_call Fn.gui_init m.op,
    Action.module_call Fn.dt_iop_gui_get_expander m.op]
  let r :=
    if m.connect_key_accels then r.call ext (Action.module_call Fn.connect_key_accels m.op)
    else r
  r.calls ext [Action.module_call Fn.dt_iop_connect_common_accels m.op,
    Action.module_call Fn.dt_ui_container_add_widget m.op]

/-- The function `enter`. -/
def enter (ext : Ext) (active_plugin : Option String) (r : Run) : Run :=
  let r := r.calls ext [Action.call Fn.dt_control_signal_connect, Action.call Fn.dt_print]
  let r := r.call ext (Action.image_call Fn.select_this_image (image_id r.world))
  let r : Run := ⟨{ r.world with dev_closeup := 0 }, r.trace⟩
  let r := r.assign_dev fun d => { d with gui_leaving := 0 }
  let r := r.assign_dev fun d => { d with gui_module := none }
  let r := r.call ext (Action.image_call Fn.dt_dev_load_image (image_id r.world))
  let r := r.assign_gui_reset 1
  let r := r.world.dev.iop.reverse.foldl (enter_init_module ext) r
  let r := r.assign_gui_reset 0
  let r := r.calls ext [Action.call Fn.dt_control_signal_raise,
    Action.call Fn.dt_dev_pop_history_items]
  let r := r.call ext (Action.image_call Fn.dt_view_filmstrip_scroll_to_image (image_id r.world))
  let r := r.calls ext [Action.call Fn.dt_conf_get_int, Action.call Fn.dt_dev_modulegroups_set]
  let r := r.assign_gui_reset 0
  let r := request_focus_active ext active_plugin r
  r.calls ext [Action.call Fn.dt_dev_check_zoom_bounds, Action.call Fn.dt_control_signal_connect]

/-- The calls that the guard `darktable.gui->reset` is to cover on an image
switch: the re-initialisation of a module (lines 520-534), `dt_dev_read_history`,
`dt_dev_pop_history_items` and `dt_dev_raw_reload`. -/
def guarded_call : Action → Bool
  | Action.module_call fn _ =>
    decide (fn ∈ [Fn.gui_cleanup, Fn.dt_dev_cleanup_module_accels, Fn.gtk_widget_destroy,
      Fn.dt_iop_reload_defaults, Fn.gui_init, Fn.connect_key_accels,
      Fn.dt_iop_connect_common_accels, Fn.gtk_container_add, Fn.gtk_widget_show_all])
  | Action.call fn =>
    decide (fn ∈ [Fn.dt_dev_read_history, Fn.dt_dev_pop_history_items, Fn.dt_dev_raw_reload])
  | _ => false

/-- A step of a run keeps a property `I` of the state and a property `P` of
the entries of the trace. -/
def Keeps (I : World → Prop) (P : Action × World → Prop) (f : Run → Run) : Prop :=
  ∀ r : Run, I r.world → (∀ e ∈ r.trace, P e) → I (f r).world ∧ ∀ e ∈ (f r).trace, P e

/-- The guard is set at an entry of the trace, if the entry is one of the calls
the guard is to cover. -/
def guard_set_at (e : Action × World) : Prop :=
  guarded_call e.1 = true → e.2.gui_reset = 1

/-- The history is whole (`h0`) at an entry of the trace that hands it to
persistence, and empty at an entry that reads the history of the new image. -/
def history_at (h0 : List dt_dev_history_item_t) (e : Action × World) : Prop :=
  (e.1 = Action.call Fn.dt_dev_write_history → e.2.dev.history = h0)
    ∧ (e.1 = Action.call Fn.dt_dev_read_history → e.2.dev.history = [])

/-! ## The export job (`src/control/jobs/control_jobs.c`, lines 473-587)

The job runs in sequence; the OpenMP pragmas of the source are not modelled.
-/

/-- What the loop of the export job does that is visible outside it. -/
inductive ExportAction where
  /-- The call `dt_control_job_get_state(job)` of the loop condition. -/
  | get_state
  /-- The call `dt_tag_detach(tagid, imgid)`. -/
  | tag_detach (imgid : Int)
  /-- The call `dt_image_cache_get(imgid, 'r')`. -/
  | cache_get (imgid : Int)
  /-- The calls `dt_image_full_path` and `g_file_test` on the image. -/
  | file_test (imgid : Int)
  /-- The call of `dt_control_log` for an image that is unavailable. -/
  | log_unavailable (imgid : Int)
  /-- The call `dt_image_cache_release(image, 'r')`. -/
  | cache_release (imgid : Int)
  /-- The call `mstorage->store(sdata, imgid, mformat, fdata, num, total)`. -/
  | store (imgid : Int) (num total : Int)
  /-- The call `dt_gui_background_jobs_set_progress(j, fraction)`. -/
  | set_progress (fraction : FVal)
  deriving DecidableEq

/-- What the export job finds outside it: whether the `n`-th call of
`dt_control_job_get_state` returns `DT_JOB_STATE_CANCELLED`, whether
`dt_image_cache_get` returns an image for an id, and whether `g_file_test`
finds a regular file for it. -/
structure ExportEnv where
  cancelled : Nat → Bool
  image_exists : Int → Bool
  is_regular : Int → Bool

/-- Lines 532-575: the loop `while(t && dt_control_job_get_state(job) !=
DT_JOB_STATE_CANCELLED)`.  `n` counts the tests of the job state made so far,
`t` is the list of the ids still to export, `fraction` the progress. -/
def export_loop (env : ExportEnv) (total : Int) : Nat → List Int → FVal → List ExportAction
  | _, [], _ => []
  | n, imgid :: t, fraction =>
    if env.cancelled n then [ExportAction.get_state]
    else
      let num := total - (t.length : Int)
      let fraction := fadd fraction (fdiv (fin 1) (fin total))
      [ExportAction.get_state, ExportAction.tag_detach imgid, ExportAction.cache_get imgid]
        ++ (if env.image_exists imgid then
              [ExportAction.file_test imgid]
                ++ (if !env.is_regular imgid then
                      [ExportAction.log_unavailable imgid, ExportAction.cache_release imgid]
                    else
                      [ExportAction.cache_release imgid, ExportAction.store imgid num total])
            else [])
        ++ [ExportAction.set_progress fraction]
        ++ export_loop env total (n + 1) t fraction

/-- The function `dt_control_export_job_run`, from the call of `get_params` of
the storage on: the return value and what the loop does.  `sdata` tells
whether the storage returned parameters. -/
def dt_control_export_job_run (env : ExportEnv) (sdata : Bool) (index : List Int) :
    Int × List ExportAction :=
  let total : Int := index.length
  if !sdata then (1, [])
  else (0, export_loop env total 0 index (fin 0))

/-- The ids the loop takes from the list, in order. -/
def images_taken : List ExportAction → List Int
  | [] => []
  | ExportAction.tag_detach imgid :: rest => imgid :: images_taken rest
  | _ :: rest => images_taken rest

/-- The ids handed to the `store` of the storage, in order. -/
def images_stored : List ExportAction → List Int
  | [] => []
  | ExportAction.store imgid _ _ :: rest => imgid :: images_stored rest
  | _ :: rest => images_stored rest

/-- Every image is taken right after a test of the job state: no
`tag_detach` follows anything but a `get_state`.  `prev` is the action before
the list. -/
def taken_after_test : ExportAction → List ExportAction → Bool
  | _, [] => true
  | prev, ExportAction.tag_detach imgid :: rest =>
    decide (prev = ExportAction.get_state)
      && taken_after_test (ExportAction.tag_detach imgid) rest
  | _, a :: rest => taken_after_test a rest

/-- An environment in which nothing is cancelled and the image `1` has no
regular file. -/
def example_env : ExportEnv where
  cancelled := fun _ => false
  image_exists := fun _ => true
  is_regular := fun imgid => decide (imgid ≠ 1)

/-- Lines 489-493 of `dt_control_export_job_run`: the size limit `w` (and
likewise `h`) that the export job computes from the limit `s` of the storage
and the limit `f` of the format:
`if( sw==0 || fw==0) w=sw>fw?sw:fw; else w=sw<fw?sw:fw;`. -/
def export_size_limit (s f : Nat) : Nat :=
  if s = 0 ∨ f = 0 then (if s > f then s else f) else (if s < f then s else f)

/-- A value is a finite number of `[0,1]`. -/
def in_unit_range (v : FVal) : Prop :=
  ∃ q : ℚ, v = fin q ∧ 0 ≤ q ∧ q ≤ 1

/-! ## The other batch jobs (`src/control/jobs/control_jobs.c`, lines 73-360)

Each runner receives the job, and with it the job's state, as its argument
`job`; the argument `env` of the models below stands for it.
-/

/-- What the batch jobs other than the export do that is visible outside
them. -/
inductive BatchAction where
  /-- A call `dt_control_job_get_state(job)`. -/
  | get_state
  /-- The call `dt_gui_background_jobs_new(DT_JOB_PROGRESS, message)`. -/
  | jobs_new
  /-- The call `dt_image_duplicate(imgid)`. -/
  | image_duplicate (imgid : Int)
  /-- The call `dt_image_flip(imgid, cw)`. -/
  | image_flip (imgid : Int) (cw : Int)
  /-- The call `dt_image_remove(imgid)`. -/
  | image_remove (imgid : Int)
  /-- The statement that flags the selected images as removed, with
  `dt_collection_update` and `dt_control_gui_queue_draw`. -/
  | flag_removed
  /-- The query for the file names of the selected images. -/
  | query_names
  /-- The call `dt_image_full_path(imgid, filename, 512)`. -/
  | full_path (imgid : Int)
  /-- The query that counts the images sharing the file of `imgid`. -/
  | count_duplicates (imgid : Int)
  /-- The call `g_unlink(filename)` on the file of the image itself. -/
  | unlink_data (imgid : Int)
  /-- The calls `g_unlink(filename)` on the `.xmp`, `.dt` and `.dttags` files. -/
  | unlink_sidecars (imgid : Int)
  /-- The call `dt_image_synch_all_xmp(imgname)`. -/
  | synch_all_xmp
  /-- The call `dt_image_cache_get(imgid, 'r')`. -/
  | cache_get (imgid : Int)
  /-- The call `dt_image_get_blocking(img, DT_IMAGE_FULL, 'r')`. -/
  | get_blocking (imgid : Int)
  /-- A call of `dt_control_log`. -/
  | log (message : String)
  /-- The call `dt_image_release(img, DT_IMAGE_FULL, 'r')`. -/
  | image_release (imgid : Int)
  /-- The call `dt_image_cache_release(img, 'r')`. -/
  | cache_release (imgid : Int)
  /-- The loop over the pixels of an image that adds it to the merged one. -/
  | accumulate (imgid : Int)
  /-- The call `dt_imageio_write_dng`. -/
  | write_dng (first_imgid : Int)
  /-- The calls `dt_film_new` and `dt_image_import`. -/
  | image_import
  /-- The call `dt_gui_background_jobs_set_progress(j, fraction)`. -/
  | set_progress (fraction : FVal)
  /-- The call `dt_gui_background_jobs_destroy(j)`. -/
  | jobs_destroy
  /-- The call `dt_film_remove_empty()`. -/
  | film_remove_empty
  deriving DecidableEq

/-- What the merge and delete jobs find outside them: whether an image is a
raw image (`img->filters != 0` and `img->bpp == sizeof(uint16_t)`), whether
`dt_image_get_blocking` returns `DT_IMAGE_FULL` for it, its width and height,
the count of images sharing its file (`none`: the query has no row), and
whether the query for the file names has a row. -/
structure BatchEnv where
  is_raw : Int → Bool
  full_buffer : Int → Bool
  width : Int → Int
  height : Int → Int
  duplicates : Int → Option Int
  names_row : Bool

/-- Lines 197-204: the loop `while(t)` of `dt_control_duplicate_images_job_run`. -/
def duplicate_loop (total : Int) : List Int → List BatchAction
  | [] => []
  | imgid :: t =>
    let fraction := fdiv (fin 1) (fin total)
    [BatchAction.image_duplicate imgid, BatchAction.set_progress fraction]
      ++ duplicate_loop total t

/-- The function `dt_control_duplicate_images_job_run`: the return value and
what it does. -/
def dt_control_duplicate_images_job_run (_env : ExportEnv) (index : List Int) :
    Int × List BatchAction :=
  let total : Int := index.length
  (0, [BatchAction.jobs_new] ++ duplicate_loop total index ++ [BatchAction.jobs_destroy])

/-- Lines 220-227: the loop `while(t)` of `dt_control_flip_images_job_run`. -/
def flip_loop (cw : Int) (total : Int) : List Int → List BatchAction
  | [] => []
  | imgid :: t =>
    let fraction := fdiv (fin 1) (fin total)
    [BatchAction.image_flip imgid cw, BatchAction.set_progress fraction]
      ++ flip_loop cw total t

/-- The function `dt_control_flip_images_job_run`; `flag` is `t1->flag`. -/
def dt_control_flip_images_job_run (_env : ExportEnv) (flag : Int) (index : List Int) :
    Int × List BatchAction :=
  let cw := flag
  let total : Int := index.length
  (0, [BatchAction.jobs_new] ++ flip_loop cw total index ++ [BatchAction.jobs_destroy])

/-- Lines 261-268: the loop `while(t)` of `dt_control_remove_images_job_run`. -/
def remove_loop (total : Int) : List Int → List BatchAction
  | [] => []
  | imgid :: t =>
    let fraction := fdiv (fin 1) (fin total)
    [BatchAction.image_remove imgid, BatchAction.set_progress fraction]
      ++ remove_loop total t

/-- Lines 271-276 and 350-355: the loop `while(list)` over the file names, of
which the query gives at most one. -/
def synch_loop (benv : BatchEnv) : List BatchAction :=
  if benv.names_row then [BatchAction.synch_all_xmp] else []

/-- The function `dt_control_remove_images_job_run`. -/
def dt_control_remove_images_job_run (_env : ExportEnv) (benv : BatchEnv)
    (index : List Int) : Int × List BatchAction :=
  let total : Int := index.length
  (0, [BatchAction.jobs_new, BatchAction.flag_removed, BatchAction.query_names]
      ++ remove_loop total index ++ synch_loop benv
      ++ [BatchAction.jobs_destroy, BatchAction.film_remove_empty])

/-- Lines 316-346: the loop `while(t)` of `dt_control_delete_images_job_run`. -/
def delete_loop (benv : BatchEnv) (total : Int) : List Int → List BatchAction
  | [] => []
  | imgid :: t =>
    let duplicates : Int := match benv.duplicates imgid with
      | some n => n
      | none => 0
    let fraction := fdiv (fin 1) (fin total)
    [BatchAction.full_path imgid, BatchAction.count_duplicates imgid]
      ++ (if duplicates = 1 then [BatchAction.unlink_data imgid] else [])
      ++ [BatchAction.unlink_sidecars imgid, BatchAction.image_remove imgid,
          BatchAction.set_progress fraction]
      ++ delete_loop benv total t

/-- The function `dt_control_delete_images_job_run`. -/
def dt_control_delete_images_job_run (_env : ExportEnv) (benv : BatchEnv)
    (index : List Int) : Int × List BatchAction :=
  let total : Int := index.length
  (0, [BatchAction.jobs_new, BatchAction.flag_removed, BatchAction.query_names]
      ++ delete_loop benv total index ++ synch_loop benv
      ++ [BatchAction.jobs_destroy, BatchAction.film_remove_empty])

/-- Lines 89-153: the loop `while(t)` of `dt_control_merge_hdr_job_run`.
`size` is `none` while `pixels` is `NULL` and then holds `wd` and `ht`;
`first_imgid` and `fraction` are the variables of the source.  The result is
what the loop does, whether it left by `goto error`, and `first_imgid`. -/
def merge_loop (benv : BatchEnv) (total : Int) :
    Option (Int × Int) → Int → List Int → FVal → List BatchAction × Bool × Int
  | _, first_imgid, [], _ => ([], false, first_imgid)
  | size, first_imgid, imgid :: t, fraction =>
    if !benv.is_raw imgid then
      ([BatchAction.cache_get imgid,
        BatchAction.log "exposure bracketing only works on raw images",
        BatchAction.cache_release imgid], true, first_imgid)
    else if !benv.full_buffer imgid then
      ([BatchAction.cache_get imgid, BatchAction.get_blocking imgid,
        BatchAction.log "failed to get raw buffer from image",
        BatchAction.cache_release imgid], true, first_imgid)
    else
      let turn (size : Option (Int × Int)) (first_imgid : Int) :=
        let fraction := fadd fraction (fdiv (fin 1) (fin total))
        let rest := merge_loop benv total size first_imgid t fraction
        ([BatchAction.cache_get imgid, BatchAction.get_blocking imgid,
          BatchAction.accumulate imgid, BatchAction.set_progress fraction,
          BatchAction.image_release imgid, BatchAction.cache_release imgid] ++ rest.1,
         rest.2.1, rest.2.2)
      match size with
      | none => turn (some (benv.width imgid, benv.height imgid)) imgid
      | some (wd, ht) =>
        if benv.width imgid ≠ wd ∨ benv.height imgid ≠ ht then
          ([BatchAction.cache_get imgid, BatchAction.get_blocking imgid,
            BatchAction.log "images have to be of same size!",
            BatchAction.image_release imgid, BatchAction.cache_release imgid],
           true, first_imgid)
        else turn (some (wd, ht)) first_imgid

/-- The function `dt_control_merge_hdr_job_run`. -/
def dt_control_merge_hdr_job_run (_env : ExportEnv) (benv : BatchEnv) (index : List Int) :
    Int × List BatchAction :=
  let total : Int := index.length
  let total := total + 1
  let loop := merge_loop benv total none (-1) index (fin 0)
  (0, [BatchAction.jobs_new] ++ loop.1
      ++ (if loop.2.1 then []
          else [BatchAction.write_dng loop.2.2, BatchAction.set_progress (fin 1),
                BatchAction.log "wrote merged hdr", BatchAction.image_import])
      ++ [BatchAction.jobs_destroy])

/-- The ids of the images a batch job works on (duplicates, flips, removes or
adds to the merged image), in order. -/
def images_processed : List BatchAction → List Int
  | [] => []
  | BatchAction.image_duplicate imgid :: rest => imgid :: images_processed rest
  | BatchAction.image_flip imgid _ :: rest => imgid :: images_processed rest
  | BatchAction.image_remove imgid :: rest => imgid :: images_processed rest
  | BatchAction.accumulate imgid :: rest => imgid :: images_processed rest
  | _ :: rest => images_processed rest

/-- The progress values a batch job reports from inside its loop over the
images: the arguments of `dt_gui_background_jobs_set_progress`, in order. -/
def progress_values : List BatchAction → List FVal
  | [] => []
  | BatchAction.set_progress fraction :: rest => fraction :: progress_values rest
  | _ :: rest => progress_values rest

/-- The progress values the export job reports, in order. -/
def export_progress : List ExportAction → List FVal
  | [] => []
  | ExportAction.set_progress fraction :: rest => fraction :: export_progress rest
  | _ :: rest => export_progress rest

/-- A job whose state is `DT_JOB_STATE_CANCELLED` from the start. -/
def cancelled_env : ExportEnv where
  cancelled := fun _ => true
  image_exists := fun _ => true
  is_regular := fun _ => true

/-- An environment in which every image is a raw image of size 4 x 3 that has
one file of its own. -/
def example_benv : BatchEnv where
  is_raw := fun _ => true
  full_buffer := fun _ => true
  width := fun _ => 4
  height := fun _ => 3
  duplicates := fun _ => some 1
  names_row := true

/-! ## `try_enter`, the image switches and `leave` (`darkroom.c`, lines 398-434, 601-672 and 850-928) -/

/-- What the functions of the view find outside them: the control global
`lib_image_mouse_over_id`, the first column of the first row of the table
`selected_images` (`none`: the table has no row), the image that
`dt_image_cache_get` returns for an id (taken to be non-null, the source
dereferencing it unchecked), whether `g_file_test` finds a regular file for
the image with an id, whether `dt_collection_get_query` returns a query, the
row id in the collection of the image with an id, and the id of the image at
an offset of the collection. -/
structure ViewEnv where
  lib_image_mouse_over_id : Int
  selected_images : Option Int
  image_cache : Int → dt_image_t
  is_regular : Int → Bool
  collection_query : Bool
  collection_rowid : Int → Option Int
  collection_image : Int → Option Int

/-- Lines 402-412 of `try_enter`: the image under the mouse, or else the one
of the first row of `selected_images`. -/
def try_enter_selected (ext : Ext) (env : ViewEnv) (r : Run) : Int × Run :=
  let selected := env.lib_image_mouse_over_id
  if selected < 0 then
    let r := r.call ext (Action.call Fn.sqlite3)
    match env.selected_images with
    | some v => (v, r)
    | none => (selected, r)
  else (selected, r)

/-- Lines 414-433 of `try_enter`: the image `selected` is opened, if there is
one and it has a regular file. -/
def try_enter_open (ext : Ext) (env : ViewEnv) (selected : Int) (r : Run) : Int × Run :=
  if selected < 0 then
    (1, r.call ext (Action.call Fn.dt_control_log))
  else
    let r := r.call ext (Action.image_call Fn.dt_image_cache_get selected)
    let r := r.assign_dev fun d => { d with image := some (env.image_cache selected) }
    let regular := env.is_regular (image_id r.world)
    let r := r.calls ext [Action.image_call Fn.dt_image_full_path (image_id r.world),
      Action.call Fn.g_file_test]
    if !regular then
      let r := r.call ext (Action.call Fn.dt_control_log)
      let r := r.call ext (Action.image_call Fn.dt_image_cache_release (image_id r.world))
      let r := r.assign_dev fun d => { d with image := none }
      (1, r)
    else (0, r)

/-- The function `try_enter`: the return value and the run. -/
def try_enter (ext : Ext) (env : ViewEnv) (r : Run) : Int × Run :=
  let sr := try_enter_selected ext env r
  try_enter_open ext env sr.1 sr.2

/-- Lines 606-615: what `film_strip_activated` and `dt_dev_jump_image` do to
switch to the image `imgid`, up to the selection of the new image. -/
def switch_image (ext : Ext) (env : ViewEnv) (active_plugin : Option String) (imgid : Int)
    (r : Run) : Run :=
  let r := r.call ext (Action.image_call Fn.dt_image_cache_get imgid)
  let image := env.image_cache imgid
  let r := dt_dev_change_image ext image active_plugin r
  let r := r.call ext (Action.image_call Fn.dt_image_cache_release (image_id r.world))
  r.call ext (Action.image_call Fn.select_this_image (image_id r.world))

/-- The function `film_strip_activated`. -/
def film_strip_activated (ext : Ext) (env : ViewEnv) (active_plugin : Option String)
    (imgid : Int) (r : Run) : Run :=
  let r := switch_image ext env active_plugin imgid r
  r.calls ext [Action.call Fn.dt_control_queue_redraw,
    Action.call Fn.dt_view_filmstrip_prefetch]

/-- The function `dt_dev_jump_image`. -/
def dt_dev_jump_image (ext : Ext) (env : ViewEnv) (active_plugin : Option String)
    (diff : Int) (r : Run) : Run :=
  if env.collection_query then
    let orig_imgid : Int := match env.selected_images with
      | some v => v
      | none => -1
    let r := r.call ext (Action.call Fn.sqlite3)
    let offset : Int := match env.collection_rowid orig_imgid with
      | some v => v - 1
      | none => 0
    let r := r.call ext (Action.call Fn.sqlite3)
    let r := r.call ext (Action.call Fn.sqlite3)
    match env.collection_image (offset + diff) with
    | some imgid =>
      if orig_imgid = imgid then r
      else
        let r := switch_image ext env active_plugin imgid r
        r.call ext
          (Action.image_call Fn.dt_view_filmstrip_scroll_to_image (image_id r.world))
    | none => r
  else r

/-- Lines 853-877 of `leave`: the signals are disconnected, the groups and the
active plugin stored, the image tagged and the history committed. -/
def leave_commit (ext : Ext) (r : Run) : Run :=
  let r := r.calls ext [Action.call Fn.dt_control_signal_disconnect,
    Action.call Fn.dt_control_signal_disconnect, Action.call Fn.dt_dev_modulegroups_get,
    Action.call Fn.dt_conf_set_int, Action.call Fn.dt_conf_set_string,
    Action.call Fn.dt_tag_new]
  let r := r.call ext (Action.image_call Fn.dt_tag_attach (image_id r.world))
  r.call ext (Action.call Fn.dt_dev_write_history)

/-- Lines 903-916 of `leave`: the body of the loop that removes the modules,
for one module. -/
def leave_cleanup_module (ext : Ext) (r : Run) (m : dt_iop_module_t) : Run :=
  r.calls ext [Action.module_call Fn.gtk_expander_get_expanded m.op,
    Action.call Fn.dt_conf_set_bool, Action.module_call Fn.gui_cleanup m.op,
    Action.module_call Fn.dt_dev_cleanup_module_accels m.op,
    Action.module_call Fn.dt_iop_cleanup_module m.op]

/-- Lines 886-918 of `leave`: the gui is cleared; the lock of the history is
not modelled. -/
def leave_clear (ext : Ext) (r : Run) : Run :=
  let r := r.assign_dev fun d => { d with gui_leaving := 1 }
  let r := r.calls ext [Action.call Fn.dt_dev_pixelpipe_cleanup_nodes,
    Action.call Fn.dt_dev_pixelpipe_cleanup_nodes]
  let r := r.assign_dev fun d => { d with history := clear_history d.history }
  let r := r.world.dev.iop.foldl (leave_cleanup_module ext) r
  r.assign_dev fun d => { d with iop := [] }

/-- Lines 920-928 of `leave`: the full buffer and the image are released. -/
def leave_release (ext : Ext) (r : Run) : Run :=
  let r := change_image_release ext r
  let r := r.call ext (Action.image_call Fn.dt_image_cache_flush (image_id r.world))
  let r := r.call ext (Action.image_call Fn.dt_image_cache_release (image_id r.world))
  r.call ext (Action.call Fn.dt_print)

/-- The function `leave`. -/
def leave (ext : Ext) (r : Run) : Run :=
  let r := leave_commit ext r
  let r := change_image_thumbnail ext r
  let r := leave_clear ext r
  leave_release ext r

/-- The image a call of `try_enter` is to open, in the words of the
specification: the one under the mouse, or else the one of the first row of
`selected_images`, or none. -/
def selected_image (env : ViewEnv) : Option Int :=
  if 0 ≤ env.lib_image_mouse_over_id then some env.lib_image_mouse_over_id
  else env.selected_images

/-- The calls of `dt_image_cache_get` and `dt_image_cache_release` among the
actions, in order. -/
def cache_calls (as : List Action) : List Action :=
  as.filter fun a =>
    match a with
    | Action.image_call Fn.dt_image_cache_get _ => true
    | Action.image_call Fn.dt_image_cache_release _ => true
    | _ => false

/-- How many more times the image `id` is checked out than released. -/
def cache_references (id : Int) (as : List Action) : Int :=
  (as.count (Action.image_call Fn.dt_image_cache_get id) : Int)
    - (as.count (Action.image_call Fn.dt_image_cache_release id) : Int)

/-- An environment in which the image `1` is under the mouse and every image
has a regular file. -/
def example_view_env : ViewEnv where
  lib_image_mouse_over_id := 1
  selected_images := some 1
  image_cache := fun id => ⟨id, false⟩
  is_regular := fun _ => true
  collection_query := true
  collection_rowid := fun id => some id
  collection_image := fun offset => some (offset + 1)

/-- The state before a session: no image is open. -/
def example_world : World := ⟨0, { example_dev with image := none }, 0, 0, 0⟩

/-! ## Lemmas on loops over buffers -/

theorem foldl_product {α β γ : Type} (g : γ → α → β → γ) (l₂ : List β) :
    ∀ (l₁ : List α) (b : γ),
      l₁.foldl (fun o y => l₂.foldl (fun o x => g o y x) o) b
        = (List.product l₁ l₂).foldl (fun o p => g o p.1 p.2) b := by
  intro l₁
  induction l₁ with
  | nil => intro b; rfl
  | cons y ys ih =>
    intro b
    have hp : List.product (y :: ys) l₂ = l₂.map (Prod.mk y) ++ List.product ys l₂ := rfl
    rw [hp, List.foldl_append, List.foldl_map, List.foldl_cons, ih]

/-- A loop whose steps each write inside their own footprint leaves every
element outside all the footprints unchanged. -/
theorem foldl_frame {α : Type} (f : Buf → α → Buf) (fp : α → Int → Prop)
    (hframe : ∀ b a j, ¬ fp a j → f b a j = b j) :
    ∀ (l : List α) (b : Buf) (j : Int), (∀ a ∈ l, ¬ fp a j) → l.foldl f b j = b j := by
  intro l
  induction l with
  | nil => intro b j _; rfl
  | cons a as ih =>
    intro b j h
    rw [List.foldl_cons, ih (f b a) j (fun a' ha' => h a' (List.mem_cons_of_mem _ ha'))]
    exact hframe b a j (h a (List.mem_cons_self _ _))

/-- A loop whose steps have pairwise disjoint footprints, and each read only
inside their own footprint, gives each footprint the value its own step
computes from the initial buffer. -/
theorem foldl_local {α : Type} (f : Buf → α → Buf) (fp : α → Int → Prop)
    (hframe : ∀ b a j, ¬ fp a j → f b a j = b j)
    (hlocal : ∀ b b2 a, (∀ i, fp a i → b i = b2 i) → ∀ j, fp a j → f b a j = f b2 a j) :
    ∀ (l : List α) (b : Buf), l.Pairwise (fun a a2 => ∀ i, fp a i → ¬ fp a2 i) →
      ∀ a ∈ l, ∀ j, fp a j → l.foldl f b j = f b a j := by
  intro l
  induction l with
  | nil => intro b _ a ha; cases ha
  | cons a0 as ih =>
    intro b hpw a ha j hj
    rw [List.pairwise_cons] at hpw
    rw [List.foldl_cons]
    rcases List.mem_cons.mp ha with h0 | hmem
    · subst h0
      exact foldl_frame f fp hframe as (f b a) j (fun a2 h2 => hpw.1 a2 h2 j hj)
    · rw [ih (f b a0) hpw.2 a hmem j hj]
      apply hlocal
      · intro i hi
        exact hframe b a0 i (fun h0 => hpw.1 a hmem i h0 hi)
      · exact hj

/-! ## The loop body -/

theorem range_three : List.range 3 = [0, 1, 2] := by decide

/-- The loop body writes only inside the footprint of its pixel. -/
theorem blend_pixel_frame (cst : dt_iop_colorspace_type_t) (ch : Int) (blend : blend_func)
    (o : FVal) (inb out : Buf) (index j : Int) (hj : ¬ footprint cst ch index j) :
    blend_pixel cst ch blend false o inb out index j = out j := by
  cases cst
  · simp only [footprint] at hj
    simp [blend_pixel, Buf.set, hj]
  · simp only [footprint, not_and, not_lt] at hj
    have h0 : j ≠ index * ch := fun h => by have := hj (le_of_eq h.symm); omega
    have h1 : j ≠ index * ch + 1 := fun h => by have := hj (by omega); omega
    have h2 : j ≠ index * ch + 2 := fun h => by have := hj (by omega); omega
    simp [blend_pixel, Buf.set, h0, h1, h2]
  · simp only [footprint, not_and, not_lt] at hj
    have h0 : j ≠ index * ch := fun h => by have := hj (le_of_eq h.symm); omega
    have h1 : j ≠ index * ch + 1 := fun h => by have := hj (by omega); omega
    have h2 : j ≠ index * ch + 2 := fun h => by have := hj (by omega); omega
    simp [blend_pixel, channels_of, range_three, Buf.set, h0, h1, h2]

/-- Inside the footprint of its pixel the loop body writes the value of the
specification, computed from the elements at the same offset. -/
theorem blend_pixel_at (cst : dt_iop_colorspace_type_t) (ch : Int) (blend : blend_func)
    (o : FVal) (inb out : Buf) (index j : Int) (hj : footprint cst ch index j) :
    blend_pixel cst ch blend false o inb out index j
      = written cst ch blend o inb out index j := by
  cases cst
  · simp only [footprint] at hj
    subst hj
    simp [blend_pixel, Buf.set, written, composite, blend_value, max_array]
  · simp only [footprint] at hj
    obtain ⟨hlo, hhi⟩ := hj
    have hcases : j = index * ch ∨ j = index * ch + 1 ∨ j = index * ch + 2 := by omega
    rcases hcases with h | h | h <;> subst h <;>
      simp [blend_pixel, Buf.set, written, composite, blend_value, max_array]
  · simp only [footprint] at hj
    obtain ⟨hlo, hhi⟩ := hj
    have hcases : j = index * ch ∨ j = index * ch + 1 ∨ j = index * ch + 2 := by omega
    rcases hcases with h | h | h <;> subst h <;>
      simp [blend_pixel, channels_of, range_three, Buf.set, written, composite, blend_value,
        max_array]

/-! ## The loops over the region -/

/-- Row-major pixel indices of distinct positions of a region are distinct. -/
theorem index_inj (w : Int) (y x y2 x2 : Nat) (hx : x < w.toNat) (hx2 : x2 < w.toNat)
    (h : (y : Int) * w + (x : Int) = (y2 : Int) * w + (x2 : Int)) : y = y2 ∧ x = x2 := by
  have hw : (0 : Int) < w := by omega
  have hxw : (x : Int) < w := by omega
  have hx2w : (x2 : Int) < w := by omega
  rcases lt_trichotomy y y2 with hlt | heq | hgt
  · exfalso
    have h1 : ((y : Int) + 1) * w ≤ (y2 : Int) * w :=
      Int.mul_le_mul_of_nonneg_right (by omega) (le_of_lt hw)
    have h2 : ((y : Int) + 1) * w = (y : Int) * w + w := by ring
    omega
  · subst heq
    exact ⟨rfl, by omega⟩
  · exfalso
    have h1 : ((y2 : Int) + 1) * w ≤ (y : Int) * w :=
      Int.mul_le_mul_of_nonneg_right (by omega) (le_of_lt hw)
    have h2 : ((y2 : Int) + 1) * w = (y2 : Int) * w + w := by ring
    omega

/-- Footprints of distinct pixels are disjoint, provided a Lab or RGB pixel
has at least three channels. -/
theorem footprint_disjoint (cst : dt_iop_colorspace_type_t) (ch p q i : Int)
    (hch : cst ≠ iop_cs_RAW → 3 ≤ ch) (hpq : p ≠ q) (hp : footprint cst ch p i) :
    ¬ footprint cst ch q i := by
  have key : ∀ a b : Int, 3 ≤ ch → a < b → a * ch + 3 ≤ b * ch := by
    intro a b h3 hab
    have h1 : (a + 1) * ch ≤ b * ch := Int.mul_le_mul_of_nonneg_right (by omega) (by omega)
    have h2 : (a + 1) * ch = a * ch + ch := by ring
    omega
  cases cst
  · simp only [footprint] at hp ⊢
    omega
  · have h3 : 3 ≤ ch := hch (by decide)
    simp only [footprint] at hp ⊢
    rcases lt_or_gt_of_ne hpq with hlt | hgt
    · have := key p q h3 hlt
      omega
    · have := key q p h3 hgt
      omega
  · have h3 : 3 ≤ ch := hch (by decide)
    simp only [footprint] at hp ⊢
    rcases lt_or_gt_of_ne hpq with hlt | hgt
    · have := key p q h3 hlt
      omega
    · have := key q p h3 hgt
      omega

/-- The two nested loops as one loop over the positions of the region. -/
theorem blend_loops_eq (cst : dt_iop_colorspace_type_t) (ch : Int) (blend : blend_func)
    (um : Bool) (o : FVal) (roi_out : dt_iop_roi_t) (inb out : Buf) :
    blend_loops cst ch blend um o roi_out inb out
      = (List.product (List.range roi_out.height.toNat) (List.range roi_out.width.toNat)).foldl
          (fun out (p : Nat × Nat) =>
            blend_pixel cst ch blend um o inb out ((p.1 : Int) * roi_out.width + (p.2 : Int)))
          out := by
  unfold blend_loops
  exact foldl_product
    (fun out (y x : Nat) =>
      blend_pixel cst ch blend um o inb out ((y : Int) * roi_out.width + (x : Int))) _ _ out

/-- An element outside the footprint of every pixel of the region is left as
it was. -/
theorem blend_loops_frame (cst : dt_iop_colorspace_type_t) (ch : Int) (blend : blend_func)
    (o : FVal) (roi_out : dt_iop_roi_t) (inb out : Buf) (j : Int)
    (hj : ∀ y x : Nat, y < roi_out.height.toNat → x < roi_out.width.toNat →
      ¬ footprint cst ch ((y : Int) * roi_out.width + (x : Int)) j) :
    blend_loops cst ch blend false o roi_out inb out j = out j := by
  rw [blend_loops_eq]
  apply foldl_frame _
    (fun (p : Nat × Nat) j => footprint cst ch ((p.1 : Int) * roi_out.width + (p.2 : Int)) j)
  · intro b a i hi
    exact blend_pixel_frame cst ch blend o inb b _ i hi
  · rintro ⟨y, x⟩ hmem
    have hm := List.mem_product.mp hmem
    exact hj y x (List.mem_range.mp hm.1) (List.mem_range.mp hm.2)

/-- An element of the footprint of a pixel of the region ends with the value
of the specification, computed from the buffers as they were on entry. -/
theorem blend_loops_at (cst : dt_iop_colorspace_type_t) (ch : Int) (blend : blend_func)
    (o : FVal) (roi_out : dt_iop_roi_t) (inb out : Buf) (y x : Nat) (j : Int)
    (hch : cst ≠ iop_cs_RAW → 3 ≤ ch)
    (hy : y < roi_out.height.toNat) (hx : x < roi_out.width.toNat)
    (hj : footprint cst ch ((y : Int) * roi_out.width + (x : Int)) j) :
    blend_loops cst ch blend false o roi_out inb out j
      = written cst ch blend o inb out ((y : Int) * roi_out.width + (x : Int)) j := by
  rw [blend_loops_eq]
  have hmain := foldl_local
    (fun out (p : Nat × Nat) =>
      blend_pixel cst ch blend false o inb out ((p.1 : Int) * roi_out.width + (p.2 : Int)))
    (fun (p : Nat × Nat) j => footprint cst ch ((p.1 : Int) * roi_out.width + (p.2 : Int)) j)
    (fun b a i hi => blend_pixel_frame cst ch blend o inb b _ i hi)
    (by
      intro b b2 a hb i hi
      simp only []
      rw [blend_pixel_at cst ch blend o inb b _ i hi, blend_pixel_at cst ch blend o inb b2 _ i hi]
      have hbi := hb i hi
      cases cst <;> simp [written, hbi])
    (List.product (List.range roi_out.height.toNat) (List.range roi_out.width.toNat)) out
    (by
      apply List.Nodup.pairwise_of_forall_ne
        (List.Nodup.product (List.nodup_range _) (List.nodup_range _))
      rintro ⟨y1, x1⟩ h1 ⟨y2, x2⟩ h2 hne i hi
      have hm1 := List.mem_product.mp h1
      have hm2 := List.mem_product.mp h2
      apply footprint_disjoint cst ch _ _ i hch _ hi
      intro heq
      have := index_inj roi_out.width y1 x1 y2 x2 (List.mem_range.mp hm1.2)
        (List.mem_range.mp hm2.2) heq
      exact hne (by rw [this.1, this.2]))
    (y, x) (List.mem_product.mpr ⟨List.mem_range.mpr hy, List.mem_range.mpr hx⟩) j hj
  rw [hmain]
  exact blend_pixel_at cst ch blend o inb out _ j hj

/-- The loops of `blend_loops`, at a position given by integers. -/
theorem blend_loops_at_pos (cst : dt_iop_colorspace_type_t) (ch : Int) (blend : blend_func)
    (o : FVal) (roi_out : dt_iop_roi_t) (inb out : Buf) (y x j : Int)
    (hch : cst ≠ iop_cs_RAW → 3 ≤ ch)
    (hy0 : 0 ≤ y) (hy : y < roi_out.height) (hx0 : 0 ≤ x) (hx : x < roi_out.width)
    (hj : footprint cst ch (y * roi_out.width + x) j) :
    blend_loops cst ch blend false o roi_out inb out j
      = written cst ch blend o inb out (y * roi_out.width + x) j := by
  have hyc : ((y.toNat : Nat) : Int) = y := Int.toNat_of_nonneg hy0
  have hxc : ((x.toNat : Nat) : Int) = x := Int.toNat_of_nonneg hx0
  have h := blend_loops_at cst ch blend o roi_out inb out y.toNat x.toNat j hch
    (by omega) (by omega) (by rw [hyc, hxc]; exact hj)
  rw [hyc, hxc] at h
  exact h

/-- In a Lab or RGB stage the channels of a pixel from the fourth on lie
outside the footprint of every pixel of the region. -/
theorem footprint_beyond (cst : dt_iop_colorspace_type_t) (ch p q c : Int)
    (hcst : cst ≠ iop_cs_RAW) (hc : 3 ≤ c) (hcc : c < ch) :
    ¬ footprint cst ch q (p * ch + c) := by
  have key : ∀ a b : Int, a < b → a * ch + ch ≤ b * ch := by
    intro a b hab
    have h1 : (a + 1) * ch ≤ b * ch := Int.mul_le_mul_of_nonneg_right (by omega) (by omega)
    have h2 : (a + 1) * ch = a * ch + ch := by ring
    omega
  have main : ¬ (q * ch ≤ p * ch + c ∧ p * ch + c < q * ch + 3) := by
    rintro ⟨h1, h2⟩
    rcases lt_trichotomy p q with hlt | heq | hgt
    · have := key p q hlt
      omega
    · subst heq
      omega
    · have := key q p hgt
      omega
  cases cst
  · exact absurd rfl hcst
  · simpa only [footprint] using main
  · simpa only [footprint] using main

/-! ## The call as a whole -/

/-- After `d->mode &= ~DEVELOP_BLEND_MASK_FLAG` the mode has no bit of the flag. -/
theorem andNot_land (m f : Nat) : andNot m f &&& f = 0 := by
  apply Nat.eq_of_testBit_eq
  intro i
  simp only [andNot, Nat.testBit_land, Nat.testBit_xor, Nat.zero_testBit]
  cases m.testBit i <;> cases f.testBit i <;> rfl

/-- A mode that has a bit beside the mask flag is not the disabled mode. -/
theorem mode_ne_zero_of_enabled (m f : Nat) (h : andNot m f ≠ 0) : m ≠ 0 := by
  intro hm
  apply h
  subst hm
  simp [andNot]

/-- A call with blending enabled: the output buffer is the result of the loops
run with the selected operator, the clipped opacity and no mask; the stored
mode loses the mask flag; nothing is logged. -/
theorem process_enabled (H : BlendH) (cst : dt_iop_colorspace_type_t) (ch : Int)
    (d : dt_develop_blend_params_t) (inb out : Buf) (roi_out : dt_iop_roi_t)
    (hen : andNot d.mode H.DEVELOP_BLEND_MASK_FLAG ≠ 0) :
    dt_develop_blend_process H cst ch (some d) inb out roi_out
      = ⟨inb,
         blend_loops cst ch (select_blend H (andNot d.mode H.DEVELOP_BLEND_MASK_FLAG)) false
           (clipped_opacity d.opacity) roi_out inb out,
         some ⟨andNot d.mode H.DEVELOP_BLEND_MASK_FLAG, d.opacity⟩, []⟩ := by
  have hm : d.mode ≠ 0 := mode_ne_zero_of_enabled _ _ hen
  simp [dt_develop_blend_process, hm, hen, andNot_land]

/-- A call whose mode is non-zero and has no bit outside the mask flag: the
test `if (d->mode)` of line 186 fails, the call logs the message of the `else`
branch and writes no element; the stored mode becomes `0`. -/
theorem process_bare_flag (H : BlendH) (cst : dt_iop_colorspace_type_t) (ch : Int)
    (d : dt_develop_blend_params_t) (inb out : Buf) (roi_out : dt_iop_roi_t)
    (hm : d.mode ≠ 0) (hz : andNot d.mode H.DEVELOP_BLEND_MASK_FLAG = 0) :
    dt_develop_blend_process H cst ch (some d) inb out roi_out
      = ⟨inb, out, some ⟨0, d.opacity⟩, ["blending using masks is not yet implemented."]⟩ := by
  simp [dt_develop_blend_process, hm, hz]

/-- With blending enabled, an element of the footprint of a pixel of the region
ends with the value of the specification. -/
theorem process_at (H : BlendH) (cst : dt_iop_colorspace_type_t) (ch : Int)
    (d : dt_develop_blend_params_t) (inb out : Buf) (roi_out : dt_iop_roi_t) (y x j : Int)
    (hen : andNot d.mode H.DEVELOP_BLEND_MASK_FLAG ≠ 0)
    (hch : cst ≠ iop_cs_RAW → 3 ≤ ch)
    (hy0 : 0 ≤ y) (hy : y < roi_out.height) (hx0 : 0 ≤ x) (hx : x < roi_out.width)
    (hj : footprint cst ch (y * roi_out.width + x) j) :
    (dt_develop_blend_process H cst ch (some d) inb out roi_out).out j
      = written cst ch (select_blend H (andNot d.mode H.DEVELOP_BLEND_MASK_FLAG))
          (clipped_opacity d.opacity) inb out (y * roi_out.width + x) j := by
  rw [process_enabled H cst ch d inb out roi_out hen]
  exact blend_loops_at_pos cst ch _ _ roi_out inb out y x j hch hy0 hy hx0 hx hj

/-! ## Arithmetic of the compositing rule -/

theorem fmul_one (a : FVal) : fmul a (fin 1) = a := by
  cases a <;> simp [fmul, signedInf]

theorem fadd_zero (a : FVal) : fadd a (fin 0) = a := by
  cases a <;> simp [fadd]

theorem zero_fadd (a : FVal) : fadd (fin 0) a = a := by
  cases a <;> simp [fadd]

theorem fmul_zero_of_finite (v : FVal) (h : v.isFinite = true) : fmul v (fin 0) = fin 0 := by
  cases v <;> simp [fmul, isFinite] at h ⊢

theorem clipped_opacity_zero : clipped_opacity (fin 0) = fin 0 := by
  simp [clipped_opacity, fdiv, fmax, fmin, flt]

theorem clipped_opacity_hundred : clipped_opacity (fin 100) = fin 1 := by
  norm_num [clipped_opacity, fdiv, fmax, fmin, flt]

/-- A finite value over zero is an infinity or `NaN`. -/
theorem fdiv_zero_not_finite (x : ℚ) : (fdiv (fin x) (fin 0)).isFinite = false := by
  by_cases hz : x = 0
  · simp [fdiv, hz, isFinite]
  · by_cases hneg : x < 0 <;> simp [fdiv, hz, hneg, signedInf, isFinite]

/-- A finite value minus an infinity or `NaN` is an infinity or `NaN`. -/
theorem fsub_not_finite (m : ℚ) (v : FVal) (h : v.isFinite = false) :
    (fsub (fin m) v).isFinite = false := by
  cases v <;> simp [fsub, fneg, fadd, isFinite] at h ⊢

/-- At opacity `0` the composite of a finite blend value is the input value. -/
theorem composite_zero (blend : blend_func) (mx a b : FVal)
    (h : (blend mx a b).isFinite = true) : composite blend mx (fin 0) a b = a := by
  simp only [composite, fmul_zero_of_finite _ h, fadd_zero]
  have h1 : fsub (fin 1) (fin 0) = fin 1 := by simp [fsub, fneg, fadd]
  rw [h1, fmul_one]

/-- A value that is not finite times zero is `NaN`. -/
theorem fmul_zero_of_not_finite (v : FVal) (h : v.isFinite = false) :
    fmul v (fin 0) = nan := by
  cases v <;> simp [fmul, isFinite] at h ⊢

theorem fadd_nan (a : FVal) : fadd a nan = nan := by
  cases a <;> simp [fadd]

/-- At opacity `0` the composite of a blend value that is not finite is `NaN`,
whatever the input value. -/
theorem composite_zero_not_finite (blend : blend_func) (mx a b : FVal)
    (h : (blend mx a b).isFinite = false) : composite blend mx (fin 0) a b = nan := by
  simp only [composite, fmul_zero_of_not_finite _ h, fadd_nan]

/-- At opacity `1` the composite of a finite input value is the blend value. -/
theorem composite_one (blend : blend_func) (mx : FVal) (a : ℚ) (b : FVal) :
    composite blend mx (fin 1) (fin a) b = blend mx (fin a) b := by
  have h1 : fsub (fin 1) (fin 1) = fin 0 := by simp [fsub, fneg, fadd]
  simp only [composite, h1, fmul_one]
  simp [fmul, zero_fadd]

/-! ## The constants of `blend.h` -/

theorem andNot_of_land_eq_zero (m f : Nat) (h : m &&& f = 0) : andNot m f = m := by
  simp [andNot, h]

/-- The constants of darktable's `blend.h` are well formed. -/
theorem blendH_WF : blendH.WF := by decide

/-- For well-formed constants, the mode normal is enabled and carries no mask
flag. -/
theorem normal_enabled (H : BlendH) (hwf : H.WF) :
    andNot H.DEVELOP_BLEND_NORMAL H.DEVELOP_BLEND_MASK_FLAG = H.DEVELOP_BLEND_NORMAL
      ∧ H.DEVELOP_BLEND_NORMAL ≠ 0 := by
  have h := hwf.2 H.DEVELOP_BLEND_NORMAL (by simp [BlendH.modes])
  exact ⟨andNot_of_land_eq_zero _ _ h.2, h.1⟩

/-- For well-formed constants, the `switch` selects `_blend_normal` for the
mode normal. -/
theorem select_blend_normal (H : BlendH) (hwf : H.WF) :
    select_blend H H.DEVELOP_BLEND_NORMAL = _blend_normal := by
  have hnd := hwf.1
  simp only [BlendH.modes, List.nodup_cons, List.mem_cons, not_or] at hnd
  obtain ⟨⟨h1, h2, h3, h4, h5, h6, h7, h8, h9, h10, h11, h12, h13, h14, _⟩, _⟩ := hnd
  simp only [select_blend, h1, h2, h3, h4, h5, h6, h7, h8, h9, h10, h11, h12, h13, h14,
    if_false]

/-! ## The compositing rule -/

/-- C1: with blending enabled (the mode has a bit beside the mask flag), for
every colourspace and every pixel `(x, y)` of the output region, each element
the call blends ends as `in*(1-o) + blend(max, in, out)*o`, with `in` and `out`
the elements of the input and of the raw output at the same offset, `o` the
clipped opacity of the stage, and `max` equal to `100` for the lightness
channel of a Lab stage and to `1` for every other blended channel.  A Lab or
RGB pixel has at least three channels. -/
theorem blend_process_composite_rule (H : BlendH) (cst : dt_iop_colorspace_type_t) (ch : Int)
    (d : dt_develop_blend_params_t) (inb out : Buf) (roi_out : dt_iop_roi_t) (y x : Int)
    (hen : andNot d.mode H.DEVELOP_BLEND_MASK_FLAG ≠ 0)
    (hch : cst ≠ iop_cs_RAW → 3 ≤ ch)
    (hy0 : 0 ≤ y) (hy : y < roi_out.height) (hx0 : 0 ≤ x) (hx : x < roi_out.width) :
    let blend := select_blend H (andNot d.mode H.DEVELOP_BLEND_MASK_FLAG)
    let o := clipped_opacity d.opacity
    let res := (dt_develop_blend_process H cst ch (some d) inb out roi_out).out
    let index := y * roi_out.width + x
    match cst with
    | iop_cs_RAW =>
      res index = composite blend (fin 1) o (inb index) (out index)
    | iop_cs_Lab =>
      res (index * ch) = composite blend (fin 100) o (inb (index * ch)) (out (index * ch))
    | iop_cs_rgb =>
      ∀ c : Int, 0 ≤ c → c < 3 →
        res (index * ch + c)
          = composite blend (fin 1) o (inb (index * ch + c)) (out (index * ch + c)) := by
  intro blend o res index
  have hres : res = blend_loops cst ch blend false o roi_out inb out := by
    simp only [res, process_enabled H cst ch d inb out roi_out hen]
  cases cst
  · simp only []
    rw [hres, blend_loops_at_pos iop_cs_RAW ch blend o roi_out inb out y x index hch hy0 hy hx0 hx
      (by simp [footprint, index])]
    simp [written]
  · simp only []
    rw [hres, blend_loops_at_pos iop_cs_Lab ch blend o roi_out inb out y x (index * ch) hch
      hy0 hy hx0 hx (by simp [footprint, index])]
    simp [written, index]
  · simp only []
    intro c hc0 hc3
    rw [hres, blend_loops_at_pos iop_cs_rgb ch blend o roi_out inb out y x (index * ch + c) hch
      hy0 hy hx0 hx (by simp only [footprint, index]; omega)]
    simp [written]

/-- Witness of C1: an RGB stage of four channels per pixel, mode lighten
(`2`), opacity 50, on a region of 2 by 2, at the pixel `x = 1`, `y = 1`. -/
theorem blend_process_composite_rule_witness :
    (andNot 2 blendH.DEVELOP_BLEND_MASK_FLAG ≠ 0 ∧ (0 : Int) ≤ 1 ∧ (1 : Int) < 2) ∧
    ∀ c : Int, 0 ≤ c → c < 3 →
      (dt_develop_blend_process blendH iop_cs_rgb 4 (some ⟨2, fin 50⟩)
          (fun _ => fin (1 / 4)) (fun _ => fin (3 / 4)) ⟨2, 2⟩).out ((1 * 2 + 1) * 4 + c)
        = composite (select_blend blendH (andNot 2 blendH.DEVELOP_BLEND_MASK_FLAG)) (fin 1)
            (clipped_opacity (fin 50)) (fin (1 / 4)) (fin (3 / 4)) :=
  ⟨⟨by decide, by decide, by decide⟩,
   blend_process_composite_rule blendH iop_cs_rgb 4 ⟨2, fin 50⟩
     (fun _ => fin (1 / 4)) (fun _ => fin (3 / 4)) ⟨2, 2⟩ 1 1
     (by decide) (by intro _; decide) (by decide) (by decide) (by decide) (by decide)⟩

/-! ## Channel selection in a Lab stage -/

/-- C10, counterexample: a Lab stage of four channels per pixel whose mode is
the bare mask flag `0x80`, a non-zero mode, at opacity 50, with input elements
`10` and raw output elements `20`.  The call only logs the message of the
`else` branch: channel 1 of the output stays `20` and is not set to the
channel 1 of the input, `10`. -/
theorem blend_process_lab_channels_counterexample :
    (0x80 : Nat) ≠ 0
    ∧ (dt_develop_blend_process blendH iop_cs_Lab 4 (some ⟨0x80, fin 50⟩)
        (fun _ => fin 10) (fun _ => fin 20) ⟨1, 1⟩).out 1 = fin 20
    ∧ (dt_develop_blend_process blendH iop_cs_Lab 4 (some ⟨0x80, fin 50⟩)
        (fun _ => fin 10) (fun _ => fin 20) ⟨1, 1⟩).out 1 ≠ (fun _ => fin 10 : Buf) 1
    ∧ (dt_develop_blend_process blendH iop_cs_Lab 4 (some ⟨0x80, fin 50⟩)
        (fun _ => fin 10) (fun _ => fin 20) ⟨1, 1⟩).log
      = ["blending using masks is not yet implemented."] := by
  have h := process_bare_flag blendH iop_cs_Lab 4 ⟨0x80, fin 50⟩
    (fun _ => fin 10) (fun _ => fin 20) ⟨1, 1⟩ (by decide) (by decide)
  rw [h]
  refine ⟨by decide, rfl, ?_, rfl⟩
  simp

/-- C10, amended: in a Lab stage of at least three channels per pixel, for
every pixel of the region, every opacity and every non-zero mode: if the mode
is non-zero without the mask flag, the call blends channel 0 with `max = 100`,
sets channels 1 and 2 to the channels 1 and 2 of the input, and leaves every
further channel of the pixel as it was; if the mode is the bare mask flag, zero
without the flag, the call writes no element and only logs the message of the
`else` branch. -/
theorem blend_process_lab_channels (H : BlendH) (ch : Int)
    (d : dt_develop_blend_params_t) (inb out : Buf) (roi_out : dt_iop_roi_t) (y x : Int)
    (hm : d.mode ≠ 0) (hch : 3 ≤ ch)
    (hy0 : 0 ≤ y) (hy : y < roi_out.height) (hx0 : 0 ≤ x) (hx : x < roi_out.width) :
    let blend := select_blend H (andNot d.mode H.DEVELOP_BLEND_MASK_FLAG)
    let o := clipped_opacity d.opacity
    let res := (dt_develop_blend_process H iop_cs_Lab ch (some d) inb out roi_out).out
    let index := (y * roi_out.width + x) * ch
    (andNot d.mode H.DEVELOP_BLEND_MASK_FLAG ≠ 0 →
      res index = fadd (fmul (inb index) (fsub (fin 1) o))
          (fmul (blend (fin 100) (inb index) (out index)) o)
        ∧ res (index + 1) = inb (index + 1)
        ∧ res (index + 2) = inb (index + 2)
        ∧ ∀ c : Int, 3 ≤ c → c < ch → res (index + c) = out (index + c))
    ∧ (andNot d.mode H.DEVELOP_BLEND_MASK_FLAG = 0 →
      res = out
        ∧ (dt_develop_blend_process H iop_cs_Lab ch (some d) inb out roi_out).log
          = ["blending using masks is not yet implemented."]) := by
  intro blend o res index
  constructor
  · intro hen
    have hres : res = blend_loops iop_cs_Lab ch blend false o roi_out inb out := by
      simp only [res, process_enabled H iop_cs_Lab ch d inb out roi_out hen]
    have hat : ∀ j, footprint iop_cs_Lab ch (y * roi_out.width + x) j →
        res j = written iop_cs_Lab ch blend o inb out (y * roi_out.width + x) j := by
      intro j hj
      rw [hres]
      exact blend_loops_at_pos iop_cs_Lab ch blend o roi_out inb out y x j (fun _ => hch)
        hy0 hy hx0 hx hj
    refine ⟨?_, ?_, ?_, ?_⟩
    · rw [hat index (by simp [footprint, index])]
      simp [written, composite, index]
    · rw [hat (index + 1) (by simp [footprint, index])]
      simp [written, index]
    · rw [hat (index + 2) (by simp [footprint, index])]
      simp [written, index]
    · intro c hc3 hcc
      rw [hres]
      apply blend_loops_frame
      intro y2 x2 _ _
      exact footprint_beyond iop_cs_Lab ch _ _ c (by decide) hc3 hcc
  · intro hz
    simp only [res, process_bare_flag H iop_cs_Lab ch d inb out roi_out hm hz]
    exact ⟨trivial, trivial⟩

/-- Witness of the amended C10: a Lab stage of four channels per pixel, mode
multiply (`4`), opacity 30, on a region of 2 by 2, at the pixel `x = 0`,
`y = 1`, whose channel 1 has offset `9`. -/
theorem blend_process_lab_channels_witness :
    ((4 : Nat) ≠ 0 ∧ andNot 4 blendH.DEVELOP_BLEND_MASK_FLAG ≠ 0 ∧ (3 : Int) ≤ 4
      ∧ (0 : Int) ≤ 1 ∧ (1 : Int) < 2) ∧
    (dt_develop_blend_process blendH iop_cs_Lab 4 (some ⟨4, fin 30⟩)
        (fun _ => fin 10) (fun _ => fin 20) ⟨2, 2⟩).out 9 = fin 10 :=
  ⟨⟨by decide, by decide, by decide, by decide, by decide⟩,
   ((blend_process_lab_channels blendH 4 ⟨4, fin 30⟩ (fun _ => fin 10) (fun _ => fin 20)
     ⟨2, 2⟩ 1 0 (by decide) (by decide) (by decide) (by decide) (by decide) (by decide)).1
       (by decide)).2.1⟩

/-! ## Compositing identities -/

/-- C2, counterexample: an RGB stage in mode vivid-light (`13`) at opacity `0`, input
element `1/4` and raw output element `1/2`.  The operator divides `1/4` by
`1 - 2*(1/2) = 0`, the quotient is `+inf`, `+inf * 0` is `NaN`, and the element
written is `NaN`, not the input element. -/
theorem blend_process_opacity_zero_counterexample :
    (dt_develop_blend_process blendH iop_cs_rgb 4 (some ⟨13, fin 0⟩)
        (fun _ => fin (1 / 4)) (fun _ => fin (1 / 2)) ⟨1, 1⟩).out 0 = nan
    ∧ (dt_develop_blend_process blendH iop_cs_rgb 4 (some ⟨13, fin 0⟩)
        (fun _ => fin (1 / 4)) (fun _ => fin (1 / 2)) ⟨1, 1⟩).out 0
      ≠ (fun _ => fin (1 / 4) : Buf) 0 := by
  have h13 : andNot 13 blendH.DEVELOP_BLEND_MASK_FLAG = blendH.DEVELOP_BLEND_VIVIDLIGHT := by decide
  have h := process_at blendH iop_cs_rgb 4 ⟨13, fin 0⟩
    (fun _ => fin (1 / 4)) (fun _ => fin (1 / 2)) ⟨1, 1⟩ 0 0 0
    (by decide) (by intro _; decide) (by decide) (by decide) (by decide) (by decide)
    (by simp [footprint])
  have hv : (dt_develop_blend_process blendH iop_cs_rgb 4 (some ⟨13, fin 0⟩)
        (fun _ => fin (1 / 4)) (fun _ => fin (1 / 2)) ⟨1, 1⟩).out 0 = nan := by
    rw [h]
    simp only [h13, written, composite, clipped_opacity_zero]
    norm_num [select_blend, blendH, _blend_vividlight, fdiv, fmul, fsub, fadd, fneg, fgt, flt,
      signedInf]
  exact ⟨hv, by rw [hv]; simp⟩

/-- C2, amended: at an opacity percentage of `0`, for every non-zero mode,
every colourspace and every pixel of the region: if the mode is non-zero
without the mask flag, each element the call writes is the input element at
the same offset, provided the blend operator is finite where it is evaluated
for that element, and where the blend operator is evaluated for the element
and is not finite, the element written is `NaN`, whatever the input element;
if the mode is the bare mask flag, the call writes no element. -/
theorem blend_process_opacity_zero (H : BlendH) (cst : dt_iop_colorspace_type_t) (ch : Int)
    (mode : Nat) (inb out : Buf) (roi_out : dt_iop_roi_t) (y x j : Int)
    (hm : mode ≠ 0)
    (hch : cst ≠ iop_cs_RAW → 3 ≤ ch)
    (hy0 : 0 ≤ y) (hy : y < roi_out.height) (hx0 : 0 ≤ x) (hx : x < roi_out.width)
    (hj : footprint cst ch (y * roi_out.width + x) j) :
    (andNot mode H.DEVELOP_BLEND_MASK_FLAG ≠ 0 →
      (blend_finite_at cst ch (select_blend H (andNot mode H.DEVELOP_BLEND_MASK_FLAG))
          inb out (y * roi_out.width + x) j →
        (dt_develop_blend_process H cst ch (some ⟨mode, fin 0⟩) inb out roi_out).out j
          = inb j)
      ∧ (¬ blend_finite_at cst ch (select_blend H (andNot mode H.DEVELOP_BLEND_MASK_FLAG))
          inb out (y * roi_out.width + x) j →
        (dt_develop_blend_process H cst ch (some ⟨mode, fin 0⟩) inb out roi_out).out j
          = nan))
    ∧ (andNot mode H.DEVELOP_BLEND_MASK_FLAG = 0 →
      (dt_develop_blend_process H cst ch (some ⟨mode, fin 0⟩) inb out roi_out).out = out) := by
  constructor
  · intro hen
    rw [process_at H cst ch ⟨mode, fin 0⟩ inb out roi_out y x j hen hch hy0 hy hx0 hx hj]
    simp only [clipped_opacity_zero]
    cases cst
    · simp only [written, blend_finite_at]
      exact ⟨fun hfin => composite_zero _ _ _ _ hfin,
        fun hnot => composite_zero_not_finite _ _ _ _ (Bool.not_eq_true _ ▸ hnot)⟩
    · simp only [written, blend_finite_at]
      constructor
      · intro hfin
        split
        · rename_i hidx
          exact composite_zero _ _ _ _ (hfin hidx)
        · rfl
      · intro hnot
        obtain ⟨hidx, hnf⟩ := Classical.not_imp.mp hnot
        rw [if_pos hidx]
        exact composite_zero_not_finite _ _ _ _ (Bool.not_eq_true _ ▸ hnf)
    · simp only [written, blend_finite_at]
      exact ⟨fun hfin => composite_zero _ _ _ _ hfin,
        fun hnot => composite_zero_not_finite _ _ _ _ (Bool.not_eq_true _ ▸ hnot)⟩
  · intro hz
    rw [process_bare_flag H cst ch ⟨mode, fin 0⟩ inb out roi_out hm hz]

/-- Witness of the amended C2: an RGB stage in mode vivid-light at opacity `0`,
input element `1/4` and raw output element `3/4`, where the operator is
`(1/4) / (1 - 2*(3/4)) = -1/2`. -/
theorem blend_process_opacity_zero_witness :
    (andNot 13 blendH.DEVELOP_BLEND_MASK_FLAG ≠ 0 ∧
      footprint iop_cs_rgb 4 (0 * 1 + 0) 0 ∧
      blend_finite_at iop_cs_rgb 4 (select_blend blendH (andNot 13 blendH.DEVELOP_BLEND_MASK_FLAG))
        (fun _ => fin (1 / 4)) (fun _ => fin (3 / 4)) (0 * 1 + 0) 0) ∧
    (dt_develop_blend_process blendH iop_cs_rgb 4 (some ⟨13, fin 0⟩)
        (fun _ => fin (1 / 4)) (fun _ => fin (3 / 4)) ⟨1, 1⟩).out 0 = fin (1 / 4) := by
  have h13 : andNot 13 blendH.DEVELOP_BLEND_MASK_FLAG = blendH.DEVELOP_BLEND_VIVIDLIGHT := by decide
  have hfp : footprint iop_cs_rgb 4 (0 * 1 + 0) 0 := by simp [footprint]
  have hfin : blend_finite_at iop_cs_rgb 4
      (select_blend blendH (andNot 13 blendH.DEVELOP_BLEND_MASK_FLAG))
      (fun _ => fin (1 / 4)) (fun _ => fin (3 / 4)) (0 * 1 + 0) 0 := by
    rw [h13]
    norm_num [blend_finite_at, select_blend, blendH, _blend_vividlight, fdiv, fmul, fsub, fadd,
      fneg, fgt, flt, signedInf, isFinite]
  exact ⟨⟨by decide, hfp, hfin⟩,
    ((blend_process_opacity_zero blendH iop_cs_rgb 4 13 (fun _ => fin (1 / 4))
      (fun _ => fin (3 / 4)) ⟨1, 1⟩ 0 0 0 (by decide) (by intro _; decide) (by decide)
      (by decide) (by decide) (by decide) hfp).1 (by decide)).1 hfin⟩

/-- C3, counterexample: in mode normal at opacity `100`, a Lab stage sets
channel 1 of a pixel to the input element (`5`), not to the raw output element
(`7`); and an RGB stage whose input element is `+inf` writes `NaN`
(`+inf * (1 - 1)`), not the raw output element. -/
theorem blend_process_normal_full_counterexample :
    (dt_develop_blend_process blendH iop_cs_Lab 4 (some ⟨1, fin 100⟩)
        (fun _ => fin 5) (fun _ => fin 7) ⟨1, 1⟩).out 1 = fin 5
    ∧ (dt_develop_blend_process blendH iop_cs_Lab 4 (some ⟨1, fin 100⟩)
        (fun _ => fin 5) (fun _ => fin 7) ⟨1, 1⟩).out 1 ≠ (fun _ => fin 7 : Buf) 1
    ∧ (dt_develop_blend_process blendH iop_cs_rgb 4 (some ⟨1, fin 100⟩)
        (fun _ => pinf) (fun _ => fin 7) ⟨1, 1⟩).out 0 = nan := by
  have h1 : andNot 1 blendH.DEVELOP_BLEND_MASK_FLAG = 1 := by decide
  have hlab := process_at blendH iop_cs_Lab 4 ⟨1, fin 100⟩
    (fun _ => fin 5) (fun _ => fin 7) ⟨1, 1⟩ 0 0 1
    (by decide) (by intro _; decide) (by decide) (by decide) (by decide) (by decide)
    (by simp [footprint])
  have hrgb := process_at blendH iop_cs_rgb 4 ⟨1, fin 100⟩
    (fun _ => pinf) (fun _ => fin 7) ⟨1, 1⟩ 0 0 0
    (by decide) (by intro _; decide) (by decide) (by decide) (by decide) (by decide)
    (by simp [footprint])
  have hv : (dt_develop_blend_process blendH iop_cs_Lab 4 (some ⟨1, fin 100⟩)
        (fun _ => fin 5) (fun _ => fin 7) ⟨1, 1⟩).out 1 = fin 5 := by
    rw [hlab]
    simp [written]
  refine ⟨hv, ?_, ?_⟩
  · rw [hv]
    norm_num
  · rw [hrgb]
    simp only [h1, written, composite, clipped_opacity_hundred]
    simp [fsub, fneg, fadd, fmul]

/-- C3, amended: for well-formed constants, in mode normal at an opacity
percentage of `100`, for every colourspace, every finite input buffer, every
raw output buffer and every pixel of the region, each element the call writes
is the raw output element at the same offset, except channels 1 and 2 of a Lab
pixel, which are the input elements. -/
theorem blend_process_normal_full (H : BlendH) (cst : dt_iop_colorspace_type_t) (ch : Int)
    (inq : Int → ℚ) (out : Buf) (roi_out : dt_iop_roi_t) (y x j : Int)
    (hwf : H.WF) (hch : cst ≠ iop_cs_RAW → 3 ≤ ch)
    (hy0 : 0 ≤ y) (hy : y < roi_out.height) (hx0 : 0 ≤ x) (hx : x < roi_out.width)
    (hj : footprint cst ch (y * roi_out.width + x) j) :
    (dt_develop_blend_process H cst ch (some ⟨H.DEVELOP_BLEND_NORMAL, fin 100⟩)
        (fun i => fin (inq i)) out roi_out).out j
      = if cst = iop_cs_Lab ∧ j ≠ (y * roi_out.width + x) * ch then fin (inq j) else out j := by
  obtain ⟨hclear, hnz⟩ := normal_enabled H hwf
  rw [process_at H cst ch ⟨H.DEVELOP_BLEND_NORMAL, fin 100⟩ (fun i => fin (inq i)) out roi_out
    y x j (by simpa only [hclear] using hnz) hch hy0 hy hx0 hx hj]
  simp only [hclear, select_blend_normal H hwf, clipped_opacity_hundred]
  cases cst
  · simp [written, composite_one, _blend_normal]
  · by_cases hidx : j = (y * roi_out.width + x) * ch
    · simp [written, hidx, composite_one, _blend_normal]
    · simp [written, hidx]
  · simp [written, composite_one, _blend_normal]

/-- Witness of the amended C3: a raw stage in mode normal at opacity `100`, on
a region of 2 by 2, at the pixel `(1, 1)`, whose element has offset `3`. -/
theorem blend_process_normal_full_witness :
    (blendH.WF ∧ (1 : Int) < 2 ∧ footprint iop_cs_RAW 1 (1 * 2 + 1) 3) ∧
    (dt_develop_blend_process blendH iop_cs_RAW 1 (some ⟨1, fin 100⟩)
        (fun i => fin ((fun _ => 1 / 4 : Int → ℚ) i)) (fun _ => fin (3 / 4)) ⟨2, 2⟩).out 3
      = fin (3 / 4) :=
  ⟨⟨blendH_WF, by decide, by simp [footprint]⟩,
   blend_process_normal_full blendH iop_cs_RAW 1 (fun _ => 1 / 4) (fun _ => fin (3 / 4)) ⟨2, 2⟩
     1 1 3 blendH_WF (by intro h; exact absurd rfl h) (by decide) (by decide) (by decide)
     (by decide) (by simp [footprint])⟩

/-! ## The blend operators -/

/-- C4: for all finite `max`, `a` and `b`, the operators normal, lighten,
darken, multiply, average, add, difference and screen return the values of
their reference definitions. -/
theorem blend_operators_reference (mx a b : ℚ) :
    _blend_normal (fin mx) (fin a) (fin b) = fin b
    ∧ _blend_lighten (fin mx) (fin a) (fin b) = fin (max a b)
    ∧ _blend_darken (fin mx) (fin a) (fin b) = fin (min a b)
    ∧ _blend_multiply (fin mx) (fin a) (fin b) = fin (a * b)
    ∧ _blend_average (fin mx) (fin a) (fin b) = fin ((a + b) / 2)
    ∧ _blend_add (fin mx) (fin a) (fin b) = fin (clamp (a + b) 0 mx)
    ∧ _blend_difference (fin mx) (fin a) (fin b) = fin |a - b|
    ∧ _blend_screen (fin mx) (fin a) (fin b) = fin (mx - (mx - a) * (mx - b)) := by
  refine ⟨rfl, ?_, ?_, rfl, ?_, ?_, ?_, ?_⟩
  · simp only [_blend_lighten, fmax, flt]
    rcases lt_or_le a b with h | h
    · simp [h, max_eq_right (le_of_lt h)]
    · simp [not_lt.mpr h, max_eq_left h]
  · simp only [_blend_darken, fmin, flt]
    rcases lt_or_le b a with h | h
    · simp [h, min_eq_right (le_of_lt h)]
    · simp [not_lt.mpr h, min_eq_left h]
  · simp [_blend_average, fadd, fdiv]
  · simp only [_blend_add, CLIP_MAX, fadd, fmin, flt, clamp]
    rcases lt_or_le (a + b) mx with h | h
    · simp only [h, decide_True, if_true, fmax, flt, min_eq_right (le_of_lt h)]
      rcases lt_or_le 0 (a + b) with h0 | h0
      · simp [h0, max_eq_right (le_of_lt h0)]
      · simp [not_lt.mpr h0, max_eq_left h0]
    · simp only [not_lt.mpr h, decide_False, fmax, flt, min_eq_left h]
      rcases lt_or_le 0 mx with h0 | h0
      · simp [h0, max_eq_right (le_of_lt h0)]
      · simp [not_lt.mpr h0, max_eq_left h0]
  · simp [_blend_difference, fsub, fneg, fadd, fabs, sub_eq_add_neg]
  · simp [_blend_screen, fsub, fneg, fadd, fmul, sub_eq_add_neg]

/-- C5, counterexample: a `float` argument cannot hold `6/10`; the literal
`0.6f` is the `float` `10066330 * 2^-24`, which is within half a unit in the
last place of `6/10`.  With `max = 1`, `a = 0.6f` and `b = 0.5` the sum
`a + b` and the difference `(b + a) - max` are values of `float`, so that no
operation rounds, and the operator returns `838861 * 2^-23 = 0.100000024`
(`0x3dccccd0`): this is not `1/10`, and it is not `0.1f` either, the `float`
nearest to `1/10`, from which it is three units in the last place away. -/
theorem blend_substract_reference_counterexample :
    (is_binary32 float_0_6 ∧ |6 / 10 - float_0_6| < 2 ^ (-25 : Int))
    ∧ (is_binary32 (float_0_6 + 1 / 2) ∧ is_binary32 (1 / 2 + float_0_6 - 1))
    ∧ _blend_substract (fin 1) (fin float_0_6) (fin (1 / 2)) = fin (binary32 838861 (-23))
    ∧ _blend_substract (fin 1) (fin float_0_6) (fin (1 / 2)) ≠ fin (1 / 10)
    ∧ (is_binary32 float_0_1 ∧ |1 / 10 - float_0_1| < 2 ^ (-28 : Int))
    ∧ _blend_substract (fin 1) (fin float_0_6) (fin (1 / 2)) ≠ fin float_0_1
    ∧ binary32 838861 (-23) - float_0_1 = 3 * 2 ^ (-27 : Int) := by
  have hval : _blend_substract (fin 1) (fin float_0_6) (fin (1 / 2))
      = fin (binary32 838861 (-23)) := by
    norm_num [_blend_substract, fadd, flt, fsub, fneg, float_0_6, binary32]
  refine ⟨⟨⟨10066330, -24, by norm_num, by norm_num, by norm_num, rfl⟩, ?_⟩,
    ⟨⟨9227469, -23, by norm_num, by norm_num, by norm_num, ?_⟩,
     ⟨838861, -23, by norm_num, by norm_num, by norm_num, ?_⟩⟩,
    hval, ?_, ⟨⟨13421773, -27, by norm_num, by norm_num, by norm_num, rfl⟩, ?_⟩, ?_, ?_⟩
  · norm_num [float_0_6, binary32, abs_lt]
  · norm_num [float_0_6, binary32]
  · norm_num [float_0_6, binary32]
  · rw [hval]
    norm_num [binary32]
  · norm_num [float_0_1, binary32, abs_lt]
  · rw [hval]
    norm_num [float_0_1, binary32]
  · norm_num [float_0_1, binary32]

/-- C5, amended: for all finite `max`, `a` and `b`, the operator substract
returns `0` when `a+b < max` and `a+b-max` otherwise, in exact arithmetic.  On
the `float` arguments `max = 1`, `a = 0.6f`, `b = 0.3f` the sum is a `float`
less than `1` and the operator returns `0`; on `max = 1`, `a = 0.6f`,
`b = 0.5` the sum and the difference are values of `float`, and the operator
returns `838861 * 2^-23 = 0.100000024`, which is within `2^-25` of `1/10`. -/
theorem blend_substract_reference :
    (∀ mx a b : ℚ, _blend_substract (fin mx) (fin a) (fin b) = fin (subtract_ref mx a b))
    ∧ (is_binary32 float_0_6 ∧ is_binary32 float_0_3 ∧ is_binary32 (float_0_6 + float_0_3)
      ∧ _blend_substract (fin 1) (fin float_0_6) (fin float_0_3) = fin 0)
    ∧ (is_binary32 (1 / 2) ∧ is_binary32 (float_0_6 + 1 / 2)
      ∧ is_binary32 (1 / 2 + float_0_6 - 1)
      ∧ _blend_substract (fin 1) (fin float_0_6) (fin (1 / 2)) = fin (binary32 838861 (-23))
      ∧ |binary32 838861 (-23) - 1 / 10| < 2 ^ (-25 : Int)) := by
  refine ⟨?_, ⟨⟨10066330, -24, by norm_num, by norm_num, by norm_num, rfl⟩,
    ⟨10066330, -25, by norm_num, by norm_num, by norm_num, rfl⟩,
    ⟨15099495, -24, by norm_num, by norm_num, by norm_num, ?_⟩, ?_⟩,
    ⟨⟨1, -1, by norm_num, by norm_num, by norm_num, ?_⟩,
     ⟨9227469, -23, by norm_num, by norm_num, by norm_num, ?_⟩,
     ⟨838861, -23, by norm_num, by norm_num, by norm_num, ?_⟩, ?_, ?_⟩⟩
  · intro mx a b
    simp only [_blend_substract, fadd, flt, subtract_ref]
    by_cases h : a + b < mx
    · simp [h]
    · simp [h, fsub, fneg, fadd, sub_eq_add_neg, add_comm b a]
  · norm_num [float_0_6, float_0_3, binary32]
  · norm_num [_blend_substract, fadd, flt, float_0_6, float_0_3, binary32]
  · norm_num [binary32]
  · norm_num [float_0_6, binary32]
  · norm_num [float_0_6, binary32]
  · norm_num [_blend_substract, fadd, flt, fsub, fneg, float_0_6, binary32]
  · norm_num [binary32, abs_lt]

/-! ## Disabled blending and the mask flag -/

/-- C6: when the stage has no blend parameters, or its blend mode is `0`, the
call changes nothing: the output buffer, the input buffer and the blend
parameters are as they were, and nothing is logged. -/
theorem blend_process_disabled (H : BlendH) (cst : dt_iop_colorspace_type_t) (ch : Int)
    (blendop_data : Option dt_develop_blend_params_t) (inb out : Buf) (roi_out : dt_iop_roi_t)
    (hdis : blendop_data = none ∨ ∃ d, blendop_data = some d ∧ d.mode = 0) :
    (dt_develop_blend_process H cst ch blendop_data inb out roi_out).out = out
    ∧ (dt_develop_blend_process H cst ch blendop_data inb out roi_out).inb = inb
    ∧ (dt_develop_blend_process H cst ch blendop_data inb out roi_out).blendop_data
        = blendop_data
    ∧ (dt_develop_blend_process H cst ch blendop_data inb out roi_out).log = [] := by
  rcases hdis with hnone | ⟨d, hsome, hmode⟩
  · subst hnone
    simp [dt_develop_blend_process]
  · subst hsome
    simp [dt_develop_blend_process, hmode]

/-- Witness of C6: blend parameters with mode `0` and opacity `50`. -/
theorem blend_process_disabled_witness :
    (∃ d : dt_develop_blend_params_t, some (⟨0, fin 50⟩ : dt_develop_blend_params_t) = some d
        ∧ d.mode = 0) ∧
    (dt_develop_blend_process blendH iop_cs_rgb 4 (some ⟨0, fin 50⟩)
        (fun _ => fin (1 / 4)) (fun _ => fin (3 / 4)) ⟨2, 2⟩).out = (fun _ => fin (3 / 4)) :=
  ⟨⟨⟨0, fin 50⟩, rfl, rfl⟩,
   (blend_process_disabled blendH iop_cs_rgb 4 (some ⟨0, fin 50⟩)
     (fun _ => fin (1 / 4)) (fun _ => fin (3 / 4)) ⟨2, 2⟩
     (Or.inr ⟨⟨0, fin 50⟩, rfl, rfl⟩)).1⟩

/-- C7, the code at the failing input: with the mode `0x81` (mask flag and
normal) at opacity `0`, an RGB stage logs nothing and composites, overwriting
the output element `1/2` by the input element `1/4`; the message is logged, and
the output left alone, only for the mode `0x80`, the bare mask flag. -/
theorem blend_process_mask_flag_composites :
    (dt_develop_blend_process blendH iop_cs_rgb 4 (some ⟨0x81, fin 0⟩)
        (fun _ => fin (1 / 4)) (fun _ => fin (1 / 2)) ⟨1, 1⟩).log = []
    ∧ (dt_develop_blend_process blendH iop_cs_rgb 4 (some ⟨0x81, fin 0⟩)
        (fun _ => fin (1 / 4)) (fun _ => fin (1 / 2)) ⟨1, 1⟩).out 0 = fin (1 / 4)
    ∧ (dt_develop_blend_process blendH iop_cs_rgb 4 (some ⟨0x81, fin 0⟩)
        (fun _ => fin (1 / 4)) (fun _ => fin (1 / 2)) ⟨1, 1⟩).out 0
      ≠ (fun _ => fin (1 / 2) : Buf) 0
    ∧ (dt_develop_blend_process blendH iop_cs_rgb 4 (some ⟨0x80, fin 0⟩)
        (fun _ => fin (1 / 4)) (fun _ => fin (1 / 2)) ⟨1, 1⟩).log
      = ["blending using masks is not yet implemented."]
    ∧ (dt_develop_blend_process blendH iop_cs_rgb 4 (some ⟨0x80, fin 0⟩)
        (fun _ => fin (1 / 4)) (fun _ => fin (1 / 2)) ⟨1, 1⟩).out
      = (fun _ => fin (1 / 2)) := by
  have h81 : andNot 0x81 blendH.DEVELOP_BLEND_MASK_FLAG = 1 := by decide
  have h80 : andNot 0x80 blendH.DEVELOP_BLEND_MASK_FLAG = 0 := by decide
  have hen : andNot (⟨0x81, fin 0⟩ : dt_develop_blend_params_t).mode
      blendH.DEVELOP_BLEND_MASK_FLAG ≠ 0 := by decide
  have hat := process_at blendH iop_cs_rgb 4 ⟨0x81, fin 0⟩
    (fun _ => fin (1 / 4)) (fun _ => fin (1 / 2)) ⟨1, 1⟩ 0 0 0
    hen (by intro _; decide) (by decide) (by decide) (by decide) (by decide)
    (by simp [footprint])
  have hv : (dt_develop_blend_process blendH iop_cs_rgb 4 (some ⟨0x81, fin 0⟩)
        (fun _ => fin (1 / 4)) (fun _ => fin (1 / 2)) ⟨1, 1⟩).out 0 = fin (1 / 4) := by
    rw [hat]
    simp only [h81, written, clipped_opacity_zero]
    exact composite_zero _ _ _ _ (by simp [select_blend, blendH, _blend_normal, isFinite])
  refine ⟨?_, hv, ?_, ?_, ?_⟩
  · rw [process_enabled blendH iop_cs_rgb 4 ⟨0x81, fin 0⟩ _ _ _ hen]
  · rw [hv]
    norm_num
  · simp [dt_develop_blend_process, h80]
  · simp [dt_develop_blend_process, h80]

/-- C8, the code at the failing input: with the mode `0x81` (mask flag and
normal) at opacity `100`, input element `0`, raw output element `1` and mask
alpha `1/2` (element `4*0+3` of the output buffer), an RGB stage writes `1`,
the composite at the global opacity, where the composite at the global opacity
times the mask alpha is `1/2`. -/
theorem blend_process_mask_alpha_ignored :
    (dt_develop_blend_process blendH iop_cs_rgb 4 (some ⟨0x81, fin 100⟩)
        (fun _ => fin 0) (fun j => if j = 3 then fin (1 / 2) else fin 1) ⟨1, 1⟩).out 0 = fin 1
    ∧ composite _blend_normal (fin 1)
        (fmul (clipped_opacity (fin 100))
          ((fun j => if j = 3 then fin (1 / 2) else fin 1 : Buf) (4 * 0 + 3)))
        (fin 0) (fin 1) = fin (1 / 2) := by
  have h81 : andNot 0x81 blendH.DEVELOP_BLEND_MASK_FLAG = 1 := by decide
  have hen : andNot (⟨0x81, fin 100⟩ : dt_develop_blend_params_t).mode
      blendH.DEVELOP_BLEND_MASK_FLAG ≠ 0 := by decide
  have hat := process_at blendH iop_cs_rgb 4 ⟨0x81, fin 100⟩
    (fun _ => fin 0) (fun j => if j = 3 then fin (1 / 2) else fin 1) ⟨1, 1⟩ 0 0 0
    hen (by intro _; decide) (by decide) (by decide) (by decide) (by decide)
    (by simp [footprint])
  constructor
  · rw [hat]
    simp only [h81, written, clipped_opacity_hundred, composite_one]
    simp [select_blend, blendH, _blend_normal]
  · simp only [clipped_opacity_hundred]
    norm_num [composite, _blend_normal, fmul, fsub, fneg, fadd]

/-! ## The clipped opacity -/

/-- C9: for every stored opacity percentage `p`, the opacity the call uses is
a finite value of `[0,1]`; for a finite `p` it is `p/100` when `0 <= p <= 100`,
`0` when `p < 0` and `1` when `p > 100`. -/
theorem clipped_opacity_range :
    (∀ p : FVal, ∃ q : ℚ, clipped_opacity p = fin q ∧ 0 ≤ q ∧ q ≤ 1)
    ∧ ∀ x : ℚ, clipped_opacity (fin x) = fin (opacity_ref x) := by
  have hfin : ∀ x : ℚ, clipped_opacity (fin x) = fin (opacity_ref x) := by
    intro x
    have h100 : fdiv (fin x) (fin 100) = fin (x / 100) := by norm_num [fdiv]
    simp only [clipped_opacity, h100, opacity_ref]
    by_cases h0 : x < 0
    · have : ¬ (0 : ℚ) < x / 100 := by
        rw [not_lt]
        exact div_nonpos_of_nonpos_of_nonneg (le_of_lt h0) (by norm_num)
      simp [fmax, fmin, flt, h0, this]
    · have hx0 : 0 ≤ x := not_lt.mp h0
      by_cases h1 : 100 < x
      · have hpos : (0 : ℚ) < x / 100 := by positivity
        have hgt : (1 : ℚ) < x / 100 := by
          rw [lt_div_iff₀ (by norm_num)]
          linarith
        simp [fmax, fmin, flt, h0, h1, hpos, hgt]
      · have hle : ¬ (1 : ℚ) < x / 100 := by
          rw [not_lt, div_le_iff₀ (by norm_num)]
          linarith [not_lt.mp h1]
        by_cases hpos : (0 : ℚ) < x / 100
        · simp [fmax, fmin, flt, h0, h1, hpos, hle]
        · have hz : x / 100 = 0 := le_antisymm (not_lt.mp hpos) (by positivity)
          simp [fmax, fmin, flt, h0, h1, hz]
  refine ⟨?_, hfin⟩
  intro p
  cases p with
  | fin x =>
    refine ⟨opacity_ref x, hfin x, ?_, ?_⟩
    · unfold opacity_ref
      split_ifs with h0 h1
      · exact le_refl 0
      · exact zero_le_one
      · exact div_nonneg (not_lt.mp h0) (by norm_num)
    · unfold opacity_ref
      split_ifs with h0 h1
      · exact zero_le_one
      · exact le_refl 1
      · rw [div_le_iff₀ (by norm_num)]
        linarith [not_lt.mp h1]
  | pinf =>
    exact ⟨1, by norm_num [clipped_opacity, fdiv, fmax, fmin, flt, signedInf], by norm_num,
      le_refl 1⟩
  | ninf =>
    exact ⟨0, by norm_num [clipped_opacity, fdiv, fmax, fmin, flt, signedInf], le_refl 0,
      by norm_num⟩
  | nan =>
    exact ⟨0, by norm_num [clipped_opacity, fdiv, fmax, fmin, flt], le_refl 0, by norm_num⟩

/-! ## Channel selection in an RGB stage -/

/-- C11, counterexample: an RGB stage of four channels per pixel, mode normal
(`1`) at opacity `0`, input elements `1/4` and raw output elements `3/4`.
Channel 3 of the pixel keeps the raw output element `3/4`, where the
compositing rule gives `1/4`. -/
theorem blend_process_rgb_channels_counterexample :
    (dt_develop_blend_process blendH iop_cs_rgb 4 (some ⟨1, fin 0⟩)
        (fun _ => fin (1 / 4)) (fun _ => fin (3 / 4)) ⟨1, 1⟩).out 3 = fin (3 / 4)
    ∧ composite (select_blend blendH (andNot 1 blendH.DEVELOP_BLEND_MASK_FLAG)) (fin 1)
        (clipped_opacity (fin 0)) (fin (1 / 4)) (fin (3 / 4)) = fin (1 / 4)
    ∧ (dt_develop_blend_process blendH iop_cs_rgb 4 (some ⟨1, fin 0⟩)
        (fun _ => fin (1 / 4)) (fun _ => fin (3 / 4)) ⟨1, 1⟩).out 3
      ≠ composite (select_blend blendH (andNot 1 blendH.DEVELOP_BLEND_MASK_FLAG)) (fin 1)
          (clipped_opacity (fin 0)) (fin (1 / 4)) (fin (3 / 4)) := by
  have hen : andNot (⟨1, fin 0⟩ : dt_develop_blend_params_t).mode
      blendH.DEVELOP_BLEND_MASK_FLAG ≠ 0 := by decide
  have hv : (dt_develop_blend_process blendH iop_cs_rgb 4 (some ⟨1, fin 0⟩)
        (fun _ => fin (1 / 4)) (fun _ => fin (3 / 4)) ⟨1, 1⟩).out 3 = fin (3 / 4) := by
    rw [process_enabled blendH iop_cs_rgb 4 ⟨1, fin 0⟩ _ _ _ hen]
    apply blend_loops_frame
    intro y2 x2 _ _
    have h := footprint_beyond iop_cs_rgb 4 0 ((y2 : Int) * 1 + (x2 : Int)) 3 (by decide)
      (by decide) (by decide)
    simpa using h
  have hc : composite (select_blend blendH (andNot 1 blendH.DEVELOP_BLEND_MASK_FLAG)) (fin 1)
        (clipped_opacity (fin 0)) (fin (1 / 4)) (fin (3 / 4)) = fin (1 / 4) := by
    rw [clipped_opacity_zero]
    have h1 : andNot 1 blendH.DEVELOP_BLEND_MASK_FLAG = 1 := by decide
    rw [h1]
    exact composite_zero _ _ _ _ (by simp [select_blend, blendH, _blend_normal, isFinite])
  refine ⟨hv, hc, ?_⟩
  rw [hv, hc]
  norm_num

/-- C11, amended: in an RGB stage of at least three channels per pixel, with
blending enabled, for every pixel of the region the channels 0, 1 and 2 are
each blended by the compositing rule, from the input and raw output elements
of that channel alone, with `max = 1` and one and the same opacity; every
further channel of the pixel is left as it was. -/
theorem blend_process_rgb_channels (H : BlendH) (ch : Int)
    (d : dt_develop_blend_params_t) (inb out : Buf) (roi_out : dt_iop_roi_t) (y x : Int)
    (hen : andNot d.mode H.DEVELOP_BLEND_MASK_FLAG ≠ 0) (hch : 3 ≤ ch)
    (hy0 : 0 ≤ y) (hy : y < roi_out.height) (hx0 : 0 ≤ x) (hx : x < roi_out.width) :
    let blend := select_blend H (andNot d.mode H.DEVELOP_BLEND_MASK_FLAG)
    let o := clipped_opacity d.opacity
    let res := (dt_develop_blend_process H iop_cs_rgb ch (some d) inb out roi_out).out
    let index := (y * roi_out.width + x) * ch
    (∀ c : Int, 0 ≤ c → c < 3 →
        res (index + c) = composite blend (fin 1) o (inb (index + c)) (out (index + c)))
      ∧ ∀ c : Int, 3 ≤ c → c < ch → res (index + c) = out (index + c) := by
  intro blend o res index
  constructor
  · intro c hc0 hc3
    have h := process_at H iop_cs_rgb ch d inb out roi_out y x (index + c) hen (fun _ => hch)
      hy0 hy hx0 hx (by simp only [footprint, index]; omega)
    simp only [res, h, written, blend, o]
  · intro c hc3 hcc
    simp only [res, process_enabled H iop_cs_rgb ch d inb out roi_out hen]
    apply blend_loops_frame
    intro y2 x2 _ _
    exact footprint_beyond iop_cs_rgb ch _ _ c (by decide) hc3 hcc

/-- Witness of the amended C11: an RGB stage of four channels per pixel, mode
screen (`9`), opacity 40, on a region of 2 by 2, at the pixel `x = 1`, `y = 0`,
whose channel 3 has offset `7`. -/
theorem blend_process_rgb_channels_witness :
    (andNot 9 blendH.DEVELOP_BLEND_MASK_FLAG ≠ 0 ∧ (3 : Int) ≤ 4 ∧ (1 : Int) < 2) ∧
    (dt_develop_blend_process blendH iop_cs_rgb 4 (some ⟨9, fin 40⟩)
        (fun _ => fin (1 / 4)) (fun _ => fin (3 / 4)) ⟨2, 2⟩).out 7 = fin (3 / 4) :=
  ⟨⟨by decide, by decide, by decide⟩,
   (blend_process_rgb_channels blendH 4 ⟨9, fin 40⟩ (fun _ => fin (1 / 4))
     (fun _ => fin (3 / 4)) ⟨2, 2⟩ 0 1 (by decide) (by decide) (by decide) (by decide)
     (by decide) (by decide)).2 3 (by decide) (by decide)⟩

/-! ## Raw stage, mode normal at full opacity -/

/-- C12: for well-formed constants, every width and height, every finite
raw-sensor input and every raw module output, a raw stage in mode normal at an
opacity percentage of `100` leaves the output buffer identical, element for
element, to the raw output of the module. -/
theorem blend_process_raw_normal_full (H : BlendH) (ch : Int) (inq : Int → ℚ) (out : Buf)
    (roi_out : dt_iop_roi_t) (hwf : H.WF) :
    (dt_develop_blend_process H iop_cs_RAW ch (some ⟨H.DEVELOP_BLEND_NORMAL, fin 100⟩)
        (fun i => fin (inq i)) out roi_out).out = out := by
  obtain ⟨hclear, hnz⟩ := normal_enabled H hwf
  have hen : andNot (⟨H.DEVELOP_BLEND_NORMAL, fin 100⟩ : dt_develop_blend_params_t).mode
      H.DEVELOP_BLEND_MASK_FLAG ≠ 0 := by simpa only [hclear] using hnz
  simp only [process_enabled H iop_cs_RAW ch ⟨H.DEVELOP_BLEND_NORMAL, fin 100⟩ _ out roi_out hen]
  funext j
  by_cases hj : ∃ y x : Nat, y < roi_out.height.toNat ∧ x < roi_out.width.toNat
      ∧ j = (y : Int) * roi_out.width + (x : Int)
  · obtain ⟨y, x, hy, hx, hjx⟩ := hj
    rw [blend_loops_at iop_cs_RAW ch _ _ roi_out _ out y x j (fun h => absurd rfl h) hy hx
      (by simp [footprint, hjx])]
    simp only [hclear, select_blend_normal H hwf, clipped_opacity_hundred, written,
      composite_one, _blend_normal]
  · apply blend_loops_frame
    intro y x hy hx hfp
    exact hj ⟨y, x, hy, hx, by simpa [footprint] using hfp⟩

/-- Witness of C12: a region of 2 by 2. -/
theorem blend_process_raw_normal_full_witness :
    blendH.WF ∧
    (dt_develop_blend_process blendH iop_cs_RAW 1 (some ⟨blendH.DEVELOP_BLEND_NORMAL, fin 100⟩)
        (fun i => fin ((fun _ => 1 / 4 : Int → ℚ) i))
        (fun j => if j = 3 then fin (1 / 2) else fin (3 / 4)) ⟨2, 2⟩).out
      = (fun j => if j = 3 then fin (1 / 2) else fin (3 / 4)) :=
  ⟨blendH_WF,
   blend_process_raw_normal_full blendH 1 (fun _ => 1 / 4)
     (fun j => if j = 3 then fin (1 / 2) else fin (3 / 4)) ⟨2, 2⟩ blendH_WF⟩

/-! ## The division of vivid-light -/

/-- The operator `_blend_vividlight`, written with its dividend and divisor. -/
theorem vividlight_eq (max a b : FVal) :
    _blend_vividlight max a b
      = if fgt a (fdiv max (fin 2)) then
          fsub max (fdiv (vividlight_dividend max a) (vividlight_divisor max a b))
        else fdiv (vividlight_dividend max a) (vividlight_divisor max a b) := by
  unfold _blend_vividlight vividlight_dividend vividlight_divisor
  by_cases h : fgt a (fdiv max (fin 2)) = true <;> simp [h]

/-- C13, counterexample: with `max = 100` (the lightness channel of a Lab
stage), `a = 25` and `b = max/2 = 50`, the divisor of vivid-light is
`100 - 200*50 = -9900`, not zero, and the operator returns `-1/396`. -/
theorem vividlight_half_counterexample :
    vividlight_divisor (fin 100) (fin 25) (fin (100 / 2)) = fin (-9900)
    ∧ vividlight_divisor (fin 100) (fin 25) (fin (100 / 2)) ≠ fin 0
    ∧ _blend_vividlight (fin 100) (fin 25) (fin (100 / 2)) = fin (-1 / 396) := by
  have h : vividlight_divisor (fin 100) (fin 25) (fin (100 / 2)) = fin (-9900) := by
    norm_num [vividlight_divisor, fdiv, fmul, fsub, fadd, fneg, fgt, flt]
  refine ⟨h, ?_, ?_⟩
  · rw [h]
    norm_num
  · norm_num [_blend_vividlight, fdiv, fmul, fsub, fadd, fneg, fgt, flt]

/-- C13, amended: for every finite channel ceiling `max > 0` and every finite
`a`, at `b = max/2` the vivid-light operator divides by a term that is exactly
zero when `a > max/2`, and by `max - max*max` when `a <= max/2`, which is zero
exactly when `max = 1`; where the divisor is zero the division is performed
all the same and the value returned is an infinity or `NaN`. -/
theorem vividlight_half (mx a : ℚ) (hmx : 0 < mx) :
    (mx / 2 < a →
        vividlight_divisor (fin mx) (fin a) (fin (mx / 2)) = fin 0
        ∧ (_blend_vividlight (fin mx) (fin a) (fin (mx / 2))).isFinite = false)
    ∧ (¬ mx / 2 < a →
        vividlight_divisor (fin mx) (fin a) (fin (mx / 2)) = fin (mx - mx * mx)
        ∧ (mx - mx * mx = 0 ↔ mx = 1)
        ∧ (mx = 1 → (_blend_vividlight (fin mx) (fin a) (fin (mx / 2))).isFinite = false)) := by
  have h2 : fdiv (fin mx) (fin 2) = fin (mx / 2) := by norm_num [fdiv]
  constructor
  · intro ha
    have hd : vividlight_divisor (fin mx) (fin a) (fin (mx / 2)) = fin 0 := by
      simp [vividlight_divisor, h2, fgt, flt, ha, fsub, fneg, fadd, fmul]
    refine ⟨hd, ?_⟩
    have hdv : vividlight_dividend (fin mx) (fin a) = fin (mx + -a) := by
      simp [vividlight_dividend, h2, fgt, flt, ha, fsub, fneg, fadd]
    have hv : _blend_vividlight (fin mx) (fin a) (fin (mx / 2))
        = fsub (fin mx) (fdiv (fin (mx + -a)) (fin 0)) := by
      rw [vividlight_eq, hd, h2, hdv]
      simp [fgt, flt, ha]
    rw [hv]
    exact fsub_not_finite mx _ (fdiv_zero_not_finite _)
  · intro ha
    have hd : vividlight_divisor (fin mx) (fin a) (fin (mx / 2)) = fin (mx - mx * mx) := by
      simp only [vividlight_divisor, h2, fgt, flt, ha, decide_False, fsub, fneg, fadd, fmul]
      simp only [Bool.false_eq_true, if_false]
      congr 1
      ring
    have hiff : mx - mx * mx = 0 ↔ mx = 1 := by
      constructor
      · intro h
        have h1 : mx * (1 - mx) = 0 := by linarith
        rcases mul_eq_zero.mp h1 with h0 | h0
        · exact absurd h0 (ne_of_gt hmx)
        · linarith
      · intro h
        rw [h]
        norm_num
    refine ⟨hd, hiff, ?_⟩
    intro h1
    have hdv : vividlight_dividend (fin mx) (fin a) = fin a := by
      simp [vividlight_dividend, h2, fgt, flt, ha]
    have hv : _blend_vividlight (fin mx) (fin a) (fin (mx / 2)) = fdiv (fin a) (fin 0) := by
      rw [vividlight_eq, hd, h2, hdv, hiff.mpr h1]
      simp [fgt, flt, ha]
    rw [hv]
    exact fdiv_zero_not_finite a

/-- Witness of the amended C13: the channel ceiling `1`. -/
theorem vividlight_half_witness :
    (0 : ℚ) < 1 ∧ (1 / 2 : ℚ) < 3 / 4 ∧
    vividlight_divisor (fin 1) (fin (3 / 4)) (fin (1 / 2)) = fin 0 :=
  ⟨by norm_num, by norm_num, ((vividlight_half 1 (3 / 4) (by norm_num)).1 (by norm_num)).1⟩

/-! ## No cross-pixel state -/

/-- C14: for all blend parameters (none, disabled or enabled), every
colourspace, every region and every pixel `(x, y)` of it, two calls whose
input buffers and whose raw output buffers agree on the elements of the pixel
leave output buffers that agree on the elements of the pixel, whatever the
buffers hold elsewhere.  A Lab or RGB pixel has at least three channels. -/
theorem blend_process_no_cross_pixel_state (H : BlendH) (cst : dt_iop_colorspace_type_t)
    (ch : Int) (blendop_data : Option dt_develop_blend_params_t)
    (inb1 out1 inb2 out2 : Buf) (roi_out : dt_iop_roi_t) (y x : Int)
    (hch : cst ≠ iop_cs_RAW → 3 ≤ ch)
    (hy0 : 0 ≤ y) (hy : y < roi_out.height) (hx0 : 0 ≤ x) (hx : x < roi_out.width)
    (hagree : ∀ j, pixel_element cst ch (y * roi_out.width + x) j →
      inb1 j = inb2 j ∧ out1 j = out2 j) :
    ∀ j, pixel_element cst ch (y * roi_out.width + x) j →
      (dt_develop_blend_process H cst ch blendop_data inb1 out1 roi_out).out j
        = (dt_develop_blend_process H cst ch blendop_data inb2 out2 roi_out).out j := by
  intro j hj
  obtain ⟨hin, hout⟩ := hagree j hj
  cases blendop_data with
  | none => simpa [dt_develop_blend_process] using hout
  | some d =>
    by_cases hen : andNot d.mode H.DEVELOP_BLEND_MASK_FLAG = 0
    · by_cases hm : d.mode = 0
      · simpa [dt_develop_blend_process, hm] using hout
      · simpa [dt_develop_blend_process, hm, hen] using hout
    · by_cases hfp : footprint cst ch (y * roi_out.width + x) j
      · rw [process_at H cst ch d inb1 out1 roi_out y x j hen hch hy0 hy hx0 hx hfp,
          process_at H cst ch d inb2 out2 roi_out y x j hen hch hy0 hy hx0 hx hfp]
        cases cst <;> simp [written, hin, hout]
      · simp only [process_enabled H cst ch d _ _ roi_out hen]
        have hbeyond : ∀ y2 x2 : Nat,
            ¬ footprint cst ch ((y2 : Int) * roi_out.width + (x2 : Int)) j := by
          intro y2 x2
          cases cst
          · exact absurd (by simpa [pixel_element, footprint] using hj) hfp
          · simp only [pixel_element] at hj
            simp only [footprint, not_and, not_lt] at hfp
            have hc3 := hfp hj.1
            have h := footprint_beyond iop_cs_Lab ch (y * roi_out.width + x)
              ((y2 : Int) * roi_out.width + (x2 : Int)) (j - (y * roi_out.width + x) * ch)
              (by decide) (by omega) (by omega)
            simpa using h
          · simp only [pixel_element] at hj
            simp only [footprint, not_and, not_lt] at hfp
            have hc3 := hfp hj.1
            have h := footprint_beyond iop_cs_rgb ch (y * roi_out.width + x)
              ((y2 : Int) * roi_out.width + (x2 : Int)) (j - (y * roi_out.width + x) * ch)
              (by decide) (by omega) (by omega)
            simpa using h
        rw [blend_loops_frame cst ch _ _ roi_out inb1 out1 j (fun y2 x2 _ _ => hbeyond y2 x2),
          blend_loops_frame cst ch _ _ roi_out inb2 out2 j (fun y2 x2 _ _ => hbeyond y2 x2)]
        exact hout

/-- Witness of C14: an RGB stage of four channels per pixel in mode multiply
(`4`), on a region of 2 by 1; the two runs agree on the pixel `x = 0` (the
elements 0 to 3) and differ on the other pixel. -/
theorem blend_process_no_cross_pixel_state_witness :
    ((0 : Int) < 2 ∧ ∀ j, pixel_element iop_cs_rgb 4 (0 * 2 + 0) j →
      (fun _ => fin (1 / 4) : Buf) j = (fun i => if i < 4 then fin (1 / 4) else fin 1 : Buf) j
      ∧ (fun _ => fin (1 / 2) : Buf) j
          = (fun i => if i < 4 then fin (1 / 2) else fin 0 : Buf) j) ∧
    ∀ j, pixel_element iop_cs_rgb 4 (0 * 2 + 0) j →
      (dt_develop_blend_process blendH iop_cs_rgb 4 (some ⟨4, fin 50⟩)
          (fun _ => fin (1 / 4)) (fun _ => fin (1 / 2)) ⟨2, 1⟩).out j
        = (dt_develop_blend_process blendH iop_cs_rgb 4 (some ⟨4, fin 50⟩)
          (fun i => if i < 4 then fin (1 / 4) else fin 1)
          (fun i => if i < 4 then fin (1 / 2) else fin 0) ⟨2, 1⟩).out j := by
  have hag : ∀ j, pixel_element iop_cs_rgb 4 (0 * 2 + 0) j →
      (fun _ => fin (1 / 4) : Buf) j = (fun i => if i < 4 then fin (1 / 4) else fin 1 : Buf) j
      ∧ (fun _ => fin (1 / 2) : Buf) j
          = (fun i => if i < 4 then fin (1 / 2) else fin 0 : Buf) j := by
    intro j hj
    simp only [pixel_element] at hj
    have h4 : j < 4 := by omega
    simp [h4]
  exact ⟨⟨by decide, hag⟩,
    blend_process_no_cross_pixel_state blendH iop_cs_rgb 4 (some ⟨4, fin 50⟩)
      (fun _ => fin (1 / 4)) (fun _ => fin (1 / 2))
      (fun i => if i < 4 then fin (1 / 4) else fin 1)
      (fun i => if i < 4 then fin (1 / 2) else fin 0) ⟨2, 1⟩ 0 0
      (by intro _; decide) (by decide) (by decide) (by decide) (by decide) hag⟩

/-! ## Traces -/

theorem actions_call (ext : Ext) (a : Action) (r : Run) :
    (r.call ext a).actions = r.actions ++ [a] := by
  simp [Run.call, Run.actions]

theorem actions_access (a : Action) (r : Run) : (r.access a).actions = r.actions ++ [a] := by
  simp [Run.access, Run.actions]

theorem actions_assign_gui_reset (v : Int) (r : Run) :
    (r.assign_gui_reset v).actions = r.actions ++ [Action.assign_gui_reset v] := by
  simp [Run.assign_gui_reset, Run.actions]

theorem actions_assign_dev (f : dt_develop_t → dt_develop_t) (r : Run) :
    (r.assign_dev f).actions = r.actions := rfl

theorem actions_calls (ext : Ext) (as : List Action) :
    ∀ r : Run, (r.calls ext as).actions = r.actions ++ as := by
  induction as with
  | nil => intro r; simp [Run.calls]
  | cons a as ih =>
    intro r
    have h := ih (r.call ext a)
    simp only [Run.calls, List.foldl_cons] at h ⊢
    rw [h, actions_call]
    simp

/-- A property of the state that no callee changes holds after a sequence of
calls as before. -/
theorem world_calls_frame {α : Type} (ext : Ext) (g : World → α)
    (hframe : ∀ a w, g (ext a w) = g w) (as : List Action) :
    ∀ r : Run, g (r.calls ext as).world = g r.world := by
  induction as with
  | nil => intro r; rfl
  | cons a as ih =>
    intro r
    have h := ih (r.call ext a)
    simp only [Run.calls, List.foldl_cons] at h ⊢
    rw [h]
    exact hframe a r.world

/-! ## The recompute triggers of `expose` -/

/-- The synchronisation of the module guis calls `dt_iop_gui_update` only. -/
theorem mem_expose_gui_synch (ext : Ext) (r : Run) (fn : Fn) :
    Action.call fn ∈ (expose_gui_synch ext r).actions ↔ Action.call fn ∈ r.actions := by
  unfold expose_gui_synch
  split_ifs
  · simp [actions_assign_dev, actions_assign_gui_reset, actions_calls]
  · rfl

/-- Callees that leave the dirty flags and the timestamps alone: so does the
synchronisation of the module guis. -/
theorem dirty_state_expose_gui_synch (ext : Ext) (r : Run)
    (hframe : ∀ a w, dirty_state (ext a w) = dirty_state w) :
    dirty_state (expose_gui_synch ext r).world = dirty_state r.world := by
  unfold expose_gui_synch
  split_ifs
  · have h := world_calls_frame ext dirty_state hframe
      ((r.assign_gui_reset 1).world.dev.iop.map
        fun m => Action.module_call Fn.dt_iop_gui_update m.op) (r.assign_gui_reset 1)
    simp only [dirty_state, Run.assign_dev, Run.assign_gui_reset] at h ⊢
    exact h
  · rfl

/-- What follows the triggers in `expose` calls neither `dt_dev_process_image`
nor `dt_dev_process_preview`. -/
theorem mem_expose_rest (ext : Ext) (closeup : Int) (r : Run) (fn : Fn)
    (hfn : fn = Fn.dt_dev_process_image ∨ fn = Fn.dt_dev_process_preview) :
    Action.call fn ∈ (expose_module_hook ext (expose_samples ext
        (expose_draw ext closeup (expose_scrollbars ext r)))).actions
      ↔ Action.call fn ∈ r.actions := by
  have h1 : ∀ r : Run, Action.call fn ∈ (expose_scrollbars ext r).actions
      ↔ Action.call fn ∈ r.actions := by
    intro r
    rcases hfn with h | h <;> subst h <;> simp [expose_scrollbars, actions_calls]
  have h2 : ∀ r : Run, Action.call fn ∈ (expose_draw ext closeup r).actions
      ↔ Action.call fn ∈ r.actions := by
    intro r
    unfold expose_draw
    rcases hfn with h | h <;> subst h <;> split_ifs <;>
      simp [actions_calls, actions_call, actions_access]
  have h3 : ∀ r : Run, Action.call fn ∈ (expose_samples ext r).actions
      ↔ Action.call fn ∈ r.actions := by
    intro r
    unfold expose_samples
    rcases hfn with h | h <;> subst h <;> split_ifs <;> simp [actions_call, actions_access]
  have h4 : ∀ r : Run, Action.call fn ∈ (expose_module_hook ext r).actions
      ↔ Action.call fn ∈ r.actions := by
    intro r
    unfold expose_module_hook
    rcases hfn with h | h <;> subst h <;> split <;> (try split_ifs) <;>
      simp [actions_call, actions_access]
  rw [h4, h3, h2, h1]

/-- The full pipeline is run exactly when the condition of line 127 holds in
the state in which that line is reached; the preview pipeline is run exactly
when `preview_dirty` is set in the state in which line 128 is reached. -/
theorem mem_expose_process (ext : Ext) (r : Run) :
    (Action.call Fn.dt_dev_process_image ∈ (expose_process ext r).actions
      ↔ Action.call Fn.dt_dev_process_image ∈ r.actions
        ∨ (r.world.dev.image_dirty ≠ 0
          ∨ r.world.dev.pipe.input_timestamp < r.world.dev.preview_pipe.input_timestamp))
    ∧ (Action.call Fn.dt_dev_process_preview ∈ (expose_process ext r).actions
      ↔ Action.call Fn.dt_dev_process_preview ∈ r.actions
        ∨ (if r.world.dev.image_dirty ≠ 0
              ∨ r.world.dev.pipe.input_timestamp < r.world.dev.preview_pipe.input_timestamp
            then ext (Action.call Fn.dt_dev_process_image) r.world
            else r.world).dev.preview_dirty ≠ 0) := by
  unfold expose_process
  by_cases h1 : r.world.dev.image_dirty ≠ 0
      ∨ r.world.dev.pipe.input_timestamp < r.world.dev.preview_pipe.input_timestamp
  · simp only [if_pos h1]
    by_cases h2 : (r.call ext (Action.call Fn.dt_dev_process_image)).world.dev.preview_dirty ≠ 0
    · rw [if_pos h2]
      have h2b : (ext (Action.call Fn.dt_dev_process_image) r.world).dev.preview_dirty ≠ 0 := h2
      simp [actions_call, h1, h2b]
    · rw [if_neg h2]
      have h2b : ¬ (ext (Action.call Fn.dt_dev_process_image) r.world).dev.preview_dirty ≠ 0 := h2
      simp only [actions_call, List.mem_append, List.mem_singleton, h1, h2b, or_true, or_false,
        true_and, iff_true]
      simp
  · simp only [if_neg h1]
    by_cases h2 : r.world.dev.preview_dirty ≠ 0
    · rw [if_pos h2]
      simp [actions_call, h1, h2]
    · rw [if_neg h2]
      simp [h1, h2]

/-- C15: with callees that leave the dirty flags and the input timestamps of
the pipelines alone, a call of `expose` calls `dt_dev_process_image` if and
only if, on entry, `image_dirty` is set or the input timestamp of the full
pipeline is less than that of the preview pipeline, and it calls
`dt_dev_process_preview` if and only if, on entry, `preview_dirty` is set. -/
theorem expose_recompute_triggers (ext : Ext) (w : World)
    (hframe : ∀ a w, dirty_state (ext a w) = dirty_state w) :
    (Action.call Fn.dt_dev_process_image ∈ (expose ext ⟨w, []⟩).actions
      ↔ (w.dev.image_dirty ≠ 0
          ∨ w.dev.pipe.input_timestamp < w.dev.preview_pipe.input_timestamp))
    ∧ (Action.call Fn.dt_dev_process_preview ∈ (expose ext ⟨w, []⟩).actions
      ↔ w.dev.preview_dirty ≠ 0) := by
  have hs := dirty_state_expose_gui_synch ext ⟨w, []⟩ hframe
  have hsyn : ∀ fn, Action.call fn ∉ (expose_gui_synch ext ⟨w, []⟩).actions := by
    intro fn
    rw [mem_expose_gui_synch]
    simp [Run.actions]
  have hp := mem_expose_process ext (expose_gui_synch ext ⟨w, []⟩)
  simp only [dirty_state, Prod.mk.injEq] at hs
  obtain ⟨hid, hpd, hts, hpts⟩ := hs
  unfold expose
  constructor
  · rw [mem_expose_rest ext _ _ _ (Or.inl rfl), hp.1, hid, hts, hpts]
    simp [hsyn]
  · rw [mem_expose_rest ext _ _ _ (Or.inr rfl), hp.2]
    have hfr := hframe (Action.call Fn.dt_dev_process_image) (expose_gui_synch ext ⟨w, []⟩).world
    simp only [dirty_state, Prod.mk.injEq] at hfr
    have hpd2 : (if (expose_gui_synch ext ⟨w, []⟩).world.dev.image_dirty ≠ 0
              ∨ (expose_gui_synch ext ⟨w, []⟩).world.dev.pipe.input_timestamp
                < (expose_gui_synch ext ⟨w, []⟩).world.dev.preview_pipe.input_timestamp
            then ext (Action.call Fn.dt_dev_process_image) (expose_gui_synch ext ⟨w, []⟩).world
            else (expose_gui_synch ext ⟨w, []⟩).world).dev.preview_dirty = w.dev.preview_dirty := by
      split_ifs
      · rw [hfr.2.1, hpd]
      · exact hpd
    rw [hpd2]
    simp [hsyn]

/-- Witness of C15: callees that leave the state alone, and a session whose
image is dirty and whose preview is not. -/
theorem expose_recompute_triggers_witness :
    (∀ a w, dirty_state (ext_none a w) = dirty_state w) ∧
    (Action.call Fn.dt_dev_process_image
      ∈ (expose ext_none ⟨⟨0, { example_dev with image_dirty := 1 }, 0, 0, 0⟩, []⟩).actions) :=
  ⟨fun _ _ => rfl,
   (expose_recompute_triggers ext_none ⟨0, { example_dev with image_dirty := 1 }, 0, 0, 0⟩
     (fun _ _ => rfl)).1.mpr (Or.inl (by decide))⟩

/-! ## The back-buffer locks in `expose` -/

/-- C16, the code at the failing input: a session with nothing dirty, equal
timestamps, one live sample of the colour picker and `display_samples` set.
`expose` draws from the back buffer of the full pipeline with its mutex held,
and then reads the width and the height of the back buffer of the preview
pipeline (lines 256-257) with no mutex held. -/
theorem expose_reads_without_lock :
    (expose ext_none ⟨⟨0, example_dev, 0, 1, 1⟩, []⟩).actions
      = [Action.call Fn.dt_dev_check_zoom_bounds, Action.call Fn.dt_view_set_scrollbar,
         Action.mutex_lock Pipe.pipe, Action.read_backbuf_width Pipe.pipe,
         Action.read_backbuf_height Pipe.pipe, Action.read_backbuf Pipe.pipe,
         Action.mutex_unlock Pipe.pipe,
         Action.read_backbuf_width Pipe.preview_pipe,
         Action.read_backbuf_height Pipe.preview_pipe,
         Action.call Fn.dt_dev_get_zoom_scale]
    ∧ reads_under_lock [] (expose ext_none ⟨⟨0, example_dev, 0, 1, 1⟩, []⟩).actions = false
    ∧ reads_under_lock []
        (expose_draw ext_none 0 ⟨⟨0, example_dev, 0, 1, 1⟩, []⟩).actions = true := by
  refine ⟨by decide, by decide, by decide⟩

/-! ## Steps that keep a property -/

theorem keeps_calls (ext : Ext) (I : World → Prop) (P : Action × World → Prop)
    (as : List Action) (h : ∀ a ∈ as, ∀ w, I w → I (ext a w) ∧ P (a, w)) :
    Keeps I P (Run.calls ext as) := by
  induction as with
  | nil => intro r hI hP; exact ⟨hI, hP⟩
  | cons a as ih =>
    intro r hI hP
    have ha := h a (List.mem_cons_self _ _) r.world hI
    have hstep : I (r.call ext a).world ∧ ∀ e ∈ (r.call ext a).trace, P e := by
      refine ⟨ha.1, ?_⟩
      intro e he
      simp only [Run.call, List.mem_append, List.mem_singleton] at he
      rcases he with he | he
      · exact hP e he
      · rw [he]; exact ha.2
    exact ih (fun a2 h2 => h a2 (List.mem_cons_of_mem _ h2)) (r.call ext a) hstep.1 hstep.2

theorem keeps_call (ext : Ext) (I : World → Prop) (P : Action × World → Prop) (a : Action)
    (h : ∀ w, I w → I (ext a w) ∧ P (a, w)) : Keeps I P (Run.call ext a) := by
  have hk := keeps_calls ext I P [a] (by
    intro a2 h2 w hw
    rw [List.mem_singleton.mp h2]
    exact h w hw)
  exact hk

theorem keeps_assign_dev (I : World → Prop) (P : Action × World → Prop)
    (f : dt_develop_t → dt_develop_t) (h : ∀ w : World, I w → I { w with dev := f w.dev }) :
    Keeps I P (Run.assign_dev f) := by
  intro r hI hP
  exact ⟨h r.world hI, hP⟩

theorem keeps_foldl {α : Type} (I : World → Prop) (P : Action × World → Prop)
    (step : Run → α → Run) (h : ∀ m, Keeps I P (fun r => step r m)) (l : List α) :
    Keeps I P (fun r => l.foldl step r) := by
  induction l with
  | nil => intro r hI hP; exact ⟨hI, hP⟩
  | cons m ms ih =>
    intro r hI hP
    have hm := h m r hI hP
    exact ih (step r m) hm.1 hm.2

/-! ## The guard `darktable.gui->reset` on an image switch -/

/-- With the guard at `v`, calls keep it there and keep the guard set at the
guarded calls of the trace, provided `v = 1` or none of the calls is guarded. -/
theorem keeps_guard_calls (ext : Ext) (hframe : ∀ a w, (ext a w).gui_reset = w.gui_reset)
    (v : Int) (as : List Action) (h : v = 1 ∨ ∀ a ∈ as, guarded_call a = false) :
    Keeps (fun w => w.gui_reset = v) guard_set_at (Run.calls ext as) := by
  apply keeps_calls
  intro a ha w hw
  refine ⟨by rw [hframe]; exact hw, ?_⟩
  intro hg
  rcases h with h1 | hn
  · simp only
    rw [← h1]
    exact hw
  · rw [hn a ha] at hg
    exact absurd hg (by decide)

theorem keeps_guard_call (ext : Ext) (hframe : ∀ a w, (ext a w).gui_reset = w.gui_reset)
    (v : Int) (a : Action) (h : v = 1 ∨ guarded_call a = false) :
    Keeps (fun w => w.gui_reset = v) guard_set_at (Run.call ext a) := by
  have hk := keeps_guard_calls ext hframe v [a] (by
    rcases h with h | h
    · exact Or.inl h
    · refine Or.inr ?_
      intro a2 h2
      rw [List.mem_singleton.mp h2]
      exact h)
  exact hk

theorem keeps_guard_store (ext : Ext) (hframe : ∀ a w, (ext a w).gui_reset = w.gui_reset)
    (v : Int) : Keeps (fun w => w.gui_reset = v) guard_set_at (change_image_store ext) := by
  have h1 : Keeps (fun w => w.gui_reset = v) guard_set_at (change_image_commit ext) :=
    keeps_guard_calls ext hframe v _ (Or.inr (by decide))
  have h2 : Keeps (fun w => w.gui_reset = v) guard_set_at (change_image_thumbnail ext) := by
    intro r hI hP
    unfold change_image_thumbnail
    split
    · exact keeps_guard_call ext hframe v (Action.image_call Fn.dt_dev_get_processed_size _)
        (Or.inr rfl) r hI hP
    · exact ⟨hI, hP⟩
  have h3 : Keeps (fun w => w.gui_reset = v) guard_set_at (change_image_release ext) := by
    intro r hI hP
    unfold change_image_release
    split
    · split_ifs
      · exact keeps_guard_call ext hframe v (Action.image_call Fn.dt_image_release _)
          (Or.inr rfl) r hI hP
      · exact ⟨hI, hP⟩
    · exact ⟨hI, hP⟩
  have h4 : Keeps (fun w => w.gui_reset = v) guard_set_at (change_image_flush ext) := by
    intro r hI hP
    unfold change_image_flush
    split
    · exact keeps_guard_call ext hframe v (Action.image_call Fn.dt_image_cache_flush _)
        (Or.inr rfl) r hI hP
    · exact keeps_guard_call ext hframe v (Action.call Fn.dt_image_cache_flush)
        (Or.inr rfl) r hI hP
  intro r hI hP
  have a1 := h1 r hI hP
  have a2 := h2 _ a1.1 a1.2
  have a3 := h3 _ a2.1 a2.2
  exact h4 _ a3.1 a3.2

theorem keeps_guard_reinit (ext : Ext) (hframe : ∀ a w, (ext a w).gui_reset = w.gui_reset)
    (m : dt_iop_module_t) :
    Keeps (fun w => w.gui_reset = 1) guard_set_at
      (fun r => change_image_reinit_module ext r m) := by
  intro r hI hP
  simp only [change_image_reinit_module]
  split_ifs
  · have a1 := keeps_guard_calls ext hframe 1
      [Action.module_call Fn.gtk_expander_get_expanded m.op,
        Action.call Fn.dt_conf_set_bool, Action.module_call Fn.g_object_get m.op,
        Action.module_call Fn.gui_cleanup m.op,
        Action.module_call Fn.dt_dev_cleanup_module_accels m.op,
        Action.module_call Fn.gtk_widget_destroy m.op,
        Action.module_call Fn.dt_iop_reload_defaults m.op,
        Action.module_call Fn.gui_init m.op] (Or.inl rfl) r hI hP
    have a2 := keeps_guard_call ext hframe 1 (Action.module_call Fn.connect_key_accels m.op)
      (Or.inl rfl) _ a1.1 a1.2
    exact keeps_guard_calls ext hframe 1 _ (Or.inl rfl) _ a2.1 a2.2
  · have a1 := keeps_guard_calls ext hframe 1
      [Action.module_call Fn.gtk_expander_get_expanded m.op,
        Action.call Fn.dt_conf_set_bool, Action.module_call Fn.g_object_get m.op,
        Action.module_call Fn.gui_cleanup m.op,
        Action.module_call Fn.dt_dev_cleanup_module_accels m.op,
        Action.module_call Fn.gtk_widget_destroy m.op,
        Action.module_call Fn.dt_iop_reload_defaults m.op,
        Action.module_call Fn.gui_init m.op] (Or.inl rfl) r hI hP
    exact keeps_guard_calls ext hframe 1 _ (Or.inl rfl) _ a1.1 a1.2
  · exact ⟨hI, hP⟩

theorem keeps_guard_hide (ext : Ext) (hframe : ∀ a w, (ext a w).gui_reset = w.gui_reset)
    (m : dt_iop_module_t) :
    Keeps (fun w => w.gui_reset = 1) guard_set_at
      (fun r => change_image_hide_module ext r m) := by
  intro r hI hP
  simp only [change_image_hide_module]
  split_ifs
  · have a1 := keeps_guard_calls ext hframe 1
      [Action.call Fn.dt_conf_get_bool, Action.call Fn.dt_conf_get_bool] (Or.inl rfl) r hI hP
    have a2 := keeps_guard_call ext hframe 1
      (Action.module_call Fn.dtgtk_tristatebutton_set_state m.op) (Or.inl rfl) _ a1.1 a1.2
    exact keeps_guard_calls ext hframe 1 _ (Or.inl rfl) _ a2.1 a2.2
  · have a1 := keeps_guard_calls ext hframe 1
      [Action.call Fn.dt_conf_get_bool, Action.call Fn.dt_conf_get_bool] (Or.inl rfl) r hI hP
    exact keeps_guard_calls ext hframe 1 _ (Or.inl rfl) _ a1.1 a1.2
  · exact keeps_guard_call ext hframe 1 _ (Or.inl rfl) r hI hP

theorem keeps_guard_reload (ext : Ext) (hframe : ∀ a w, (ext a w).gui_reset = w.gui_reset) :
    Keeps (fun w => w.gui_reset = 1) guard_set_at (change_image_reload ext) := by
  intro r hI hP
  unfold change_image_reload
  have a1 := keeps_foldl _ _ (change_image_reinit_module ext)
    (fun m => keeps_guard_reinit ext hframe m) r.world.dev.iop.reverse r hI hP
  have a2 := keeps_foldl _ _ (change_image_hide_module ext)
    (fun m => keeps_guard_hide ext hframe m)
    (r.world.dev.iop.reverse.foldl (change_image_reinit_module ext) r).world.dev.iop _
    a1.1 a1.2
  exact keeps_guard_calls ext hframe 1 _ (Or.inl rfl) _ a2.1 a2.2

theorem keeps_guard_focus (ext : Ext) (hframe : ∀ a w, (ext a w).gui_reset = w.gui_reset)
    (v : Int) (active_plugin : Option String) :
    Keeps (fun w => w.gui_reset = v) guard_set_at (request_focus_active ext active_plugin) := by
  intro r hI hP
  unfold request_focus_active
  have a1 := keeps_guard_call ext hframe v (Action.call Fn.dt_conf_get_string) (Or.inr rfl)
    r hI hP
  cases active_plugin with
  | none => exact a1
  | some name =>
    refine keeps_guard_calls ext hframe v _ (Or.inr ?_) _ a1.1 a1.2
    intro a ha
    simp only [List.mem_map] at ha
    obtain ⟨m, _, hm⟩ := ha
    rw [← hm]
    rfl

theorem keeps_guard_assign (v : Int) (r : Run) (hP : ∀ e ∈ r.trace, guard_set_at e) :
    (r.assign_gui_reset v).world.gui_reset = v
      ∧ ∀ e ∈ (r.assign_gui_reset v).trace, guard_set_at e := by
  refine ⟨rfl, ?_⟩
  intro e he
  simp only [Run.assign_gui_reset, List.mem_append, List.mem_singleton] at he
  rcases he with he | he
  · exact hP e he
  · rw [he]
    intro hg
    simp [guarded_call] at hg

/-- The actions of a run are kept by every step that only appends. -/
theorem actions_foldl_subset {α : Type} (step : Run → α → Run)
    (h : ∀ r m a, a ∈ r.actions → a ∈ (step r m).actions) (l : List α) :
    ∀ (r : Run) (a : Action), a ∈ r.actions → a ∈ (l.foldl step r).actions := by
  induction l with
  | nil => intro r a ha; exact ha
  | cons m ms ih =>
    intro r a ha
    exact ih (step r m) a (h r m a ha)

theorem actions_reinit_subset (ext : Ext) (r : Run) (m : dt_iop_module_t) (a : Action)
    (h : a ∈ r.actions) : a ∈ (change_image_reinit_module ext r m).actions := by
  simp only [change_image_reinit_module]
  split_ifs <;> simp [actions_calls, actions_call, h]

theorem actions_hide_subset (ext : Ext) (r : Run) (m : dt_iop_module_t) (a : Action)
    (h : a ∈ r.actions) : a ∈ (change_image_hide_module ext r m).actions := by
  simp only [change_image_hide_module]
  split_ifs <;> simp [actions_calls, actions_call, h]

theorem actions_reload_subset (ext : Ext) (r : Run) (a : Action) (h : a ∈ r.actions) :
    a ∈ (change_image_reload ext r).actions := by
  unfold change_image_reload
  rw [actions_calls]
  apply List.mem_append_left
  apply actions_foldl_subset _ (actions_hide_subset ext)
  exact actions_foldl_subset _ (actions_reinit_subset ext) _ r a h

theorem actions_store_commit (ext : Ext) (r : Run) :
    Action.call Fn.dt_dev_write_history ∈ (change_image_store ext r).actions := by
  have h1 : Action.call Fn.dt_dev_write_history ∈ (change_image_commit ext r).actions := by
    simp [change_image_commit, actions_calls]
  have h2 : ∀ r : Run, Action.call Fn.dt_dev_write_history ∈ r.actions →
      Action.call Fn.dt_dev_write_history ∈ (change_image_thumbnail ext r).actions := by
    intro r h
    unfold change_image_thumbnail
    split <;> simp [actions_call, h]
  have h3 : ∀ r : Run, Action.call Fn.dt_dev_write_history ∈ r.actions →
      Action.call Fn.dt_dev_write_history ∈ (change_image_release ext r).actions := by
    intro r h
    unfold change_image_release
    split
    · split_ifs <;> simp [actions_call, h]
    · exact h
  have h4 : ∀ r : Run, Action.call Fn.dt_dev_write_history ∈ r.actions →
      Action.call Fn.dt_dev_write_history ∈ (change_image_flush ext r).actions := by
    intro r h
    unfold change_image_flush
    split <;> simp [actions_call, h]
  exact h4 _ (h3 _ (h2 _ h1))

theorem actions_focus_subset (ext : Ext) (active_plugin : Option String) (r : Run)
    (a : Action) (h : a ∈ r.actions) : a ∈ (request_focus_active ext active_plugin r).actions := by
  unfold request_focus_active
  cases active_plugin with
  | none => simp [actions_call, h]
  | some name => simp [actions_calls, actions_call, h]

/-- C17: with callees that return with the guard as they found it, in a call of
`dt_dev_change_image` the guard `darktable.gui->reset` is `1` at every call
that re-initialises a module and at the calls of `dt_dev_read_history`,
`dt_dev_pop_history_items` and `dt_dev_raw_reload` (which do take place), and
it is `0` when the function returns. -/
theorem change_image_guard (ext : Ext) (image : dt_image_t) (active_plugin : Option String)
    (w : World) (hframe : ∀ a w, (ext a w).gui_reset = w.gui_reset) :
    (∀ e ∈ (dt_dev_change_image ext image active_plugin ⟨w, []⟩).trace,
        guarded_call e.1 = true → e.2.gui_reset = 1)
    ∧ (dt_dev_change_image ext image active_plugin ⟨w, []⟩).world.gui_reset = 0
    ∧ Action.call Fn.dt_dev_read_history
        ∈ (dt_dev_change_image ext image active_plugin ⟨w, []⟩).actions
    ∧ Action.call Fn.dt_dev_pop_history_items
        ∈ (dt_dev_change_image ext image active_plugin ⟨w, []⟩).actions
    ∧ Action.call Fn.dt_dev_raw_reload
        ∈ (dt_dev_change_image ext image active_plugin ⟨w, []⟩).actions := by
  have a1 := keeps_guard_store ext hframe w.gui_reset ⟨w, []⟩ rfl (by simp)
  have a2 := keeps_assign_dev (fun w2 => w2.gui_reset = w.gui_reset) guard_set_at
    (fun d => { d with image := some image }) (fun _ h => h) _ a1.1 a1.2
  have a3 := keeps_assign_dev (fun w2 => w2.gui_reset = w.gui_reset) guard_set_at
    (fun d => { d with history := clear_history d.history }) (fun _ h => h) _ a2.1 a2.2
  have a4 := keeps_guard_assign 1 _ a3.2
  have a5 := keeps_guard_reload ext hframe _ a4.1 a4.2
  have a6 := keeps_guard_assign 0 _ a5.2
  have a7 := keeps_guard_focus ext hframe 0 active_plugin _ a6.1 a6.2
  have hmem : ∀ fn, fn ∈ [Fn.dt_dev_read_history, Fn.dt_dev_pop_history_items,
      Fn.dt_dev_raw_reload] →
      Action.call fn ∈ (dt_dev_change_image ext image active_plugin ⟨w, []⟩).actions := by
    intro fn hfn
    unfold dt_dev_change_image
    apply actions_focus_subset
    rw [actions_assign_gui_reset]
    apply List.mem_append_left
    unfold change_image_reload
    rw [actions_calls]
    apply List.mem_append_right
    simp only [List.mem_cons, List.mem_singleton, List.not_mem_nil, or_false] at hfn
    rcases hfn with h | h | h <;> subst h <;> simp
  exact ⟨a7.2, a7.1, hmem _ (by simp), hmem _ (by simp), hmem _ (by simp)⟩

/-- Witness of C17: callees that leave the state alone, and a session with one
module. -/
theorem change_image_guard_witness :
    (∀ a w, (ext_none a w).gui_reset = w.gui_reset) ∧
    (dt_dev_change_image ext_none ⟨2, false⟩ none ⟨⟨0, example_dev, 0, 0, 0⟩, []⟩).world.gui_reset
      = 0 :=
  ⟨fun _ _ => rfl,
   (change_image_guard ext_none ⟨2, false⟩ none ⟨0, example_dev, 0, 0, 0⟩ (fun _ _ => rfl)).2.1⟩

/-! ## The guard `darktable.gui->reset` on session entry -/

/-- C18, the code at the failing input: a session with one module, callees that
leave the state alone.  `enter` sets the guard, sets up the module, clears the
guard (line 803), and only then calls `dt_dev_pop_history_items`, with the
guard at `0`; the assignment at "make signals work again" (line 820) is a
second clearing. -/
theorem enter_pop_history_unguarded :
    (enter ext_none none ⟨⟨0, example_dev, 0, 0, 0⟩, []⟩).actions
      = [Action.call Fn.dt_control_signal_connect, Action.call Fn.dt_print,
         Action.image_call Fn.select_this_image 1, Action.image_call Fn.dt_dev_load_image 1,
         Action.assign_gui_reset 1,
         Action.module_call Fn.gui_init "exposure",
         Action.module_call Fn.dt_iop_gui_get_expander "exposure",
         Action.module_call Fn.dt_iop_connect_common_accels "exposure",
         Action.module_call Fn.dt_ui_container_add_widget "exposure",
         Action.assign_gui_reset 0,
         Action.call Fn.dt_control_signal_raise, Action.call Fn.dt_dev_pop_history_items,
         Action.image_call Fn.dt_view_filmstrip_scroll_to_image 1,
         Action.call Fn.dt_conf_get_int, Action.call Fn.dt_dev_modulegroups_set,
         Action.assign_gui_reset 0,
         Action.call Fn.dt_conf_get_string,
         Action.call Fn.dt_dev_check_zoom_bounds, Action.call Fn.dt_control_signal_connect]
    ∧ ((enter ext_none none ⟨⟨0, example_dev, 0, 0, 0⟩, []⟩).trace.filter
          fun e => decide (e.1 = Action.call Fn.dt_dev_pop_history_items)).map
        (fun e => e.2.gui_reset) = [0] := by
  refine ⟨by decide, by decide⟩

/-! ## The history on an image switch -/

theorem clear_history_eq (l : List dt_dev_history_item_t) : clear_history l = [] := by
  induction l with
  | nil => rfl
  | cons _ _ ih => simpa [clear_history] using ih

theorem trace_calls_single (ext : Ext) (a : Action) (r : Run) :
    (Run.calls ext [a] r).trace = r.trace ++ [(a, r.world)] := rfl

theorem calls_append (ext : Ext) (as bs : List Action) (r : Run) :
    r.calls ext (as ++ bs) = (r.calls ext as).calls ext bs := by
  simp [Run.calls, List.foldl_append]

/-- With the history at `v`, calls other than `dt_dev_read_history` keep it
there and keep `history_at`, provided `v` is `h0` or none of the calls is
`dt_dev_write_history`. -/
theorem keeps_history_calls (ext : Ext) (h0 v : List dt_dev_history_item_t)
    (hframe : ∀ a w, a ≠ Action.call Fn.dt_dev_read_history →
      (ext a w).dev.history = w.dev.history)
    (as : List Action)
    (h : ∀ a ∈ as, a ≠ Action.call Fn.dt_dev_read_history
      ∧ (a ≠ Action.call Fn.dt_dev_write_history ∨ v = h0)) :
    Keeps (fun w => w.dev.history = v) (history_at h0) (Run.calls ext as) := by
  apply keeps_calls
  intro a ha w hw
  obtain ⟨hr, hwr⟩ := h a ha
  refine ⟨by rw [hframe a w hr]; exact hw, ?_, ?_⟩
  · intro he
    rcases hwr with h1 | h1
    · exact absurd he h1
    · simp only
      rw [← h1]
      exact hw
  · intro he
    exact absurd he hr

theorem keeps_history_call (ext : Ext) (h0 v : List dt_dev_history_item_t)
    (hframe : ∀ a w, a ≠ Action.call Fn.dt_dev_read_history →
      (ext a w).dev.history = w.dev.history)
    (a : Action)
    (h : a ≠ Action.call Fn.dt_dev_read_history
      ∧ (a ≠ Action.call Fn.dt_dev_write_history ∨ v = h0)) :
    Keeps (fun w => w.dev.history = v) (history_at h0) (Run.call ext a) := by
  have hk := keeps_history_calls ext h0 v hframe [a] (by
    intro a2 h2
    rw [List.mem_singleton.mp h2]
    exact h)
  exact hk

/-- Calls that neither commit nor read the history keep `history_at`, whatever
they do to the state. -/
theorem keeps_history_free (ext : Ext) (h0 : List dt_dev_history_item_t) (as : List Action)
    (h : ∀ a ∈ as, a ≠ Action.call Fn.dt_dev_read_history
      ∧ a ≠ Action.call Fn.dt_dev_write_history) :
    Keeps (fun _ => True) (history_at h0) (Run.calls ext as) := by
  apply keeps_calls
  intro a ha w _
  obtain ⟨hr, hwr⟩ := h a ha
  exact ⟨trivial, fun he => absurd he hwr, fun he => absurd he hr⟩

theorem keeps_history_store (ext : Ext) (h0 : List dt_dev_history_item_t)
    (hframe : ∀ a w, a ≠ Action.call Fn.dt_dev_read_history →
      (ext a w).dev.history = w.dev.history) :
    Keeps (fun w => w.dev.history = h0) (history_at h0) (change_image_store ext) := by
  have h1 : Keeps (fun w => w.dev.history = h0) (history_at h0) (change_image_commit ext) :=
    keeps_history_calls ext h0 h0 hframe _ (by simp)
  have h2 : Keeps (fun w => w.dev.history = h0) (history_at h0)
      (change_image_thumbnail ext) := by
    intro r hI hP
    unfold change_image_thumbnail
    split
    · exact keeps_history_call ext h0 h0 hframe
        (Action.image_call Fn.dt_dev_get_processed_size _) (by simp) r hI hP
    · exact ⟨hI, hP⟩
  have h3 : Keeps (fun w => w.dev.history = h0) (history_at h0) (change_image_release ext) := by
    intro r hI hP
    unfold change_image_release
    split
    · split_ifs
      · exact keeps_history_call ext h0 h0 hframe (Action.image_call Fn.dt_image_release _)
          (by simp) r hI hP
      · exact ⟨hI, hP⟩
    · exact ⟨hI, hP⟩
  have h4 : Keeps (fun w => w.dev.history = h0) (history_at h0) (change_image_flush ext) := by
    intro r hI hP
    unfold change_image_flush
    split
    · exact keeps_history_call ext h0 h0 hframe (Action.image_call Fn.dt_image_cache_flush _)
        (by simp) r hI hP
    · exact keeps_history_call ext h0 h0 hframe (Action.call Fn.dt_image_cache_flush)
        (by simp) r hI hP
  intro r hI hP
  have a1 := h1 r hI hP
  have a2 := h2 _ a1.1 a1.2
  have a3 := h3 _ a2.1 a2.2
  exact h4 _ a3.1 a3.2

theorem keeps_history_reinit (ext : Ext) (h0 : List dt_dev_history_item_t)
    (hframe : ∀ a w, a ≠ Action.call Fn.dt_dev_read_history →
      (ext a w).dev.history = w.dev.history) (m : dt_iop_module_t) :
    Keeps (fun w => w.dev.history = []) (history_at h0)
      (fun r => change_image_reinit_module ext r m) := by
  intro r hI hP
  simp only [change_image_reinit_module]
  have a1 := keeps_history_calls ext h0 [] hframe
      [Action.module_call Fn.gtk_expander_get_expanded m.op,
        Action.call Fn.dt_conf_set_bool, Action.module_call Fn.g_object_get m.op,
        Action.module_call Fn.gui_cleanup m.op,
        Action.module_call Fn.dt_dev_cleanup_module_accels m.op,
        Action.module_call Fn.gtk_widget_destroy m.op,
        Action.module_call Fn.dt_iop_reload_defaults m.op,
        Action.module_call Fn.gui_init m.op] (by simp) r hI hP
  split_ifs
  · have a2 := keeps_history_call ext h0 [] hframe
      (Action.module_call Fn.connect_key_accels m.op) (by simp) _ a1.1 a1.2
    exact keeps_history_calls ext h0 [] hframe _ (by simp) _ a2.1 a2.2
  · exact keeps_history_calls ext h0 [] hframe _ (by simp) _ a1.1 a1.2
  · exact ⟨hI, hP⟩

theorem keeps_history_hide (ext : Ext) (h0 : List dt_dev_history_item_t)
    (hframe : ∀ a w, a ≠ Action.call Fn.dt_dev_read_history →
      (ext a w).dev.history = w.dev.history) (m : dt_iop_module_t) :
    Keeps (fun w => w.dev.history = []) (history_at h0)
      (fun r => change_image_hide_module ext r m) := by
  intro r hI hP
  simp only [change_image_hide_module]
  have a1 := keeps_history_calls ext h0 [] hframe
      [Action.call Fn.dt_conf_get_bool, Action.call Fn.dt_conf_get_bool] (by simp) r hI hP
  split_ifs
  · have a2 := keeps_history_call ext h0 [] hframe
      (Action.module_call Fn.dtgtk_tristatebutton_set_state m.op) (by simp) _ a1.1 a1.2
    exact keeps_history_calls ext h0 [] hframe _ (by simp) _ a2.1 a2.2
  · exact keeps_history_calls ext h0 [] hframe _ (by simp) _ a1.1 a1.2
  · exact keeps_history_call ext h0 [] hframe _ (by simp) r hI hP

/-- The guarded part of `dt_dev_change_image`, entered with an empty history,
keeps `history_at`. -/
theorem history_reload (ext : Ext) (h0 : List dt_dev_history_item_t)
    (hframe : ∀ a w, a ≠ Action.call Fn.dt_dev_read_history →
      (ext a w).dev.history = w.dev.history)
    (r : Run) (hI : r.world.dev.history = []) (hP : ∀ e ∈ r.trace, history_at h0 e) :
    ∀ e ∈ (change_image_reload ext r).trace, history_at h0 e := by
  unfold change_image_reload
  have a1 := keeps_foldl _ _ (change_image_reinit_module ext)
    (fun m => keeps_history_reinit ext h0 hframe m) r.world.dev.iop.reverse r hI hP
  have a2 := keeps_foldl _ _ (change_image_hide_module ext)
    (fun m => keeps_history_hide ext h0 hframe m)
    (r.world.dev.iop.reverse.foldl (change_image_reinit_module ext) r).world.dev.iop _
    a1.1 a1.2
  have hsplit : [Action.call Fn.dt_conf_get_int, Action.call Fn.dt_dev_modulegroups_set,
      Action.call Fn.dt_dev_read_history, Action.call Fn.dt_dev_pop_history_items,
      Action.call Fn.dt_dev_raw_reload]
      = [Action.call Fn.dt_conf_get_int, Action.call Fn.dt_dev_modulegroups_set]
        ++ ([Action.call Fn.dt_dev_read_history]
        ++ [Action.call Fn.dt_dev_pop_history_items, Action.call Fn.dt_dev_raw_reload]) := rfl
  simp only []
  rw [hsplit, calls_append, calls_append]
  have a3 := keeps_history_calls ext h0 [] hframe
    [Action.call Fn.dt_conf_get_int, Action.call Fn.dt_dev_modulegroups_set] (by simp) _
    a2.1 a2.2
  have a4 : ∀ e ∈ (Run.calls ext [Action.call Fn.dt_dev_read_history]
      (Run.calls ext [Action.call Fn.dt_conf_get_int, Action.call Fn.dt_dev_modulegroups_set]
        (List.foldl (change_image_hide_module ext)
          (List.foldl (change_image_reinit_module ext) r r.world.dev.iop.reverse)
          (List.foldl (change_image_reinit_module ext) r
            r.world.dev.iop.reverse).world.dev.iop))).trace, history_at h0 e := by
    intro e he
    rw [trace_calls_single] at he
    rcases List.mem_append.mp he with he | he
    · exact a3.2 e he
    · rw [List.mem_singleton.mp he]
      exact ⟨by simp, fun _ => a3.1⟩
  exact (keeps_history_free ext h0 _ (by simp) _ trivial a4).2

/-- C19: with callees other than `dt_dev_read_history` that leave the history
alone, in a call of `dt_dev_change_image` the history is whole, as on entry,
when it is handed to `dt_dev_write_history`, and it is empty when
`dt_dev_read_history` is called for the new image; both calls take place. -/
theorem change_image_history (ext : Ext) (image : dt_image_t) (active_plugin : Option String)
    (w : World)
    (hframe : ∀ a w, a ≠ Action.call Fn.dt_dev_read_history →
      (ext a w).dev.history = w.dev.history) :
    (∀ e ∈ (dt_dev_change_image ext image active_plugin ⟨w, []⟩).trace,
        e.1 = Action.call Fn.dt_dev_write_history → e.2.dev.history = w.dev.history)
    ∧ (∀ e ∈ (dt_dev_change_image ext image active_plugin ⟨w, []⟩).trace,
        e.1 = Action.call Fn.dt_dev_read_history → e.2.dev.history = [])
    ∧ Action.call Fn.dt_dev_write_history
        ∈ (dt_dev_change_image ext image active_plugin ⟨w, []⟩).actions
    ∧ Action.call Fn.dt_dev_read_history
        ∈ (dt_dev_change_image ext image active_plugin ⟨w, []⟩).actions := by
  have a1 := keeps_history_store ext w.dev.history hframe ⟨w, []⟩ rfl (by simp)
  have a2 := keeps_assign_dev (fun w2 => w2.dev.history = w.dev.history)
    (history_at w.dev.history) (fun d => { d with image := some image }) (fun _ h => h) _
    a1.1 a1.2
  have a3 : ∀ e ∈ (Run.assign_gui_reset 1
      (Run.assign_dev (fun d => { d with history := clear_history d.history })
        (Run.assign_dev (fun d => { d with image := some image })
          (change_image_store ext ⟨w, []⟩)))).trace, history_at w.dev.history e := by
    intro e he
    simp only [Run.assign_gui_reset, Run.assign_dev, List.mem_append, List.mem_singleton] at he
    rcases he with he | he
    · exact a2.2 e he
    · rw [he]
      exact ⟨by simp, by simp⟩
  have a4 := history_reload ext w.dev.history hframe _
    (by simp [Run.assign_gui_reset, Run.assign_dev, clear_history_eq]) a3
  have a5 : ∀ e ∈ (Run.assign_gui_reset 0 (change_image_reload ext (Run.assign_gui_reset 1
      (Run.assign_dev (fun d => { d with history := clear_history d.history })
        (Run.assign_dev (fun d => { d with image := some image })
          (change_image_store ext ⟨w, []⟩)))))).trace, history_at w.dev.history e := by
    intro e he
    simp only [Run.assign_gui_reset, List.mem_append, List.mem_singleton] at he
    rcases he with he | he
    · exact a4 e he
    · rw [he]
      exact ⟨by simp, by simp⟩
  have a6 : ∀ e ∈ (dt_dev_change_image ext image active_plugin ⟨w, []⟩).trace,
      history_at w.dev.history e := by
    unfold dt_dev_change_image request_focus_active
    have b1 := keeps_history_free ext w.dev.history [Action.call Fn.dt_conf_get_string]
      (by simp) _ trivial a5
    cases active_plugin with
    | none => exact b1.2
    | some name =>
      refine (keeps_history_free ext w.dev.history _ ?_ _ trivial b1.2).2
      intro a ha
      simp only [List.mem_map] at ha
      obtain ⟨m, _, hm⟩ := ha
      rw [← hm]
      simp
  have hwrite : Action.call Fn.dt_dev_write_history
      ∈ (dt_dev_change_image ext image active_plugin ⟨w, []⟩).actions := by
    unfold dt_dev_change_image
    apply actions_focus_subset
    rw [actions_assign_gui_reset]
    apply List.mem_append_left
    apply actions_reload_subset
    rw [actions_assign_gui_reset]
    apply List.mem_append_left
    rw [actions_assign_dev, actions_assign_dev]
    apply actions_store_commit
  have hread : Action.call Fn.dt_dev_read_history
      ∈ (dt_dev_change_image ext image active_plugin ⟨w, []⟩).actions := by
    unfold dt_dev_change_image
    apply actions_focus_subset
    rw [actions_assign_gui_reset]
    apply List.mem_append_left
    unfold change_image_reload
    rw [actions_calls]
    apply List.mem_append_right
    simp
  exact ⟨fun e he => (a6 e he).1, fun e he => (a6 e he).2, hwrite, hread⟩

/-- Witness of C19: callees that leave the state alone, and a session whose
history has one entry. -/
theorem change_image_history_witness :
    (∀ a w, a ≠ Action.call Fn.dt_dev_read_history →
      (ext_none a w).dev.history = w.dev.history) ∧
    ∀ e ∈ (dt_dev_change_image ext_none ⟨2, false⟩ none
        ⟨⟨0, { example_dev with history := [⟨"exposure", 7⟩] }, 0, 0, 0⟩, []⟩).trace,
      e.1 = Action.call Fn.dt_dev_read_history → e.2.dev.history = [] :=
  ⟨fun _ _ _ => rfl,
   (change_image_history ext_none ⟨2, false⟩ none
     ⟨0, { example_dev with history := [⟨"exposure", 7⟩] }, 0, 0, 0⟩ (fun _ _ _ => rfl)).2.1⟩

/-! ## Cancellation of the export job -/

theorem images_taken_append (xs ys : List ExportAction) :
    images_taken (xs ++ ys) = images_taken xs ++ images_taken ys := by
  induction xs with
  | nil => rfl
  | cons a xs ih => cases a <;> simp [images_taken, ih]

theorem images_stored_append (xs ys : List ExportAction) :
    images_stored (xs ++ ys) = images_stored xs ++ images_stored ys := by
  induction xs with
  | nil => rfl
  | cons a xs ih => cases a <;> simp [images_stored, ih]

/-- One turn of the loop that is not cancelled takes the first image of the
list, and stores it if it exists and has a regular file. -/
theorem export_loop_turn (env : ExportEnv) (total : Int) (n : Nat) (imgid : Int)
    (t : List Int) (fraction : FVal) (hc : env.cancelled n = false) :
    images_taken (export_loop env total n (imgid :: t) fraction)
      = imgid :: images_taken (export_loop env total (n + 1) t
          (fadd fraction (fdiv (fin 1) (fin total))))
    ∧ images_stored (export_loop env total n (imgid :: t) fraction)
      = (if env.image_exists imgid && env.is_regular imgid then [imgid] else [])
        ++ images_stored (export_loop env total (n + 1) t
          (fadd fraction (fdiv (fin 1) (fin total)))) := by
  cases he : env.image_exists imgid <;> cases hr : env.is_regular imgid <;>
    simp [export_loop, hc, he, hr, images_taken, images_stored, images_taken_append,
      images_stored_append]

theorem export_loop_cancelled (env : ExportEnv) (total : Int) (n : Nat) (imgid : Int)
    (t : List Int) (fraction : FVal) (hc : env.cancelled n = true) :
    export_loop env total n (imgid :: t) fraction = [ExportAction.get_state] := by
  simp [export_loop, hc]

theorem export_taken_prefix (env : ExportEnv) (total : Int) :
    ∀ (t : List Int) (n : Nat) (fraction : FVal),
      images_taken (export_loop env total n t fraction) <+: t := by
  intro t
  induction t with
  | nil => intro n f; simp [export_loop, images_taken]
  | cons imgid t ih =>
    intro n f
    cases hc : env.cancelled n
    · rw [(export_loop_turn env total n imgid t f hc).1]
      exact (List.prefix_cons_inj imgid).mpr (ih (n + 1) _)
    · rw [export_loop_cancelled env total n imgid t f hc]
      simp [images_taken]

theorem export_stored_filter (env : ExportEnv) (total : Int) :
    ∀ (t : List Int) (n : Nat) (fraction : FVal),
      images_stored (export_loop env total n t fraction)
        = (images_taken (export_loop env total n t fraction)).filter
            (fun imgid => env.image_exists imgid && env.is_regular imgid) := by
  intro t
  induction t with
  | nil => intro n f; simp [export_loop, images_taken, images_stored]
  | cons imgid t ih =>
    intro n f
    cases hc : env.cancelled n
    · rw [(export_loop_turn env total n imgid t f hc).1,
        (export_loop_turn env total n imgid t f hc).2, ih (n + 1) _]
      cases hav : (env.image_exists imgid && env.is_regular imgid) <;>
        simp [List.filter_cons, hav]
    · rw [export_loop_cancelled env total n imgid t f hc]
      simp [images_taken, images_stored]

/-- The loop takes exactly the images that come before the first test of the
job state that finds it cancelled. -/
theorem export_taken_take (env : ExportEnv) (total : Int) :
    ∀ (t : List Int) (n : Nat) (fraction : FVal) (k : Nat),
      (∀ j, j < k → env.cancelled (n + j) = false) →
      (env.cancelled (n + k) = true ∨ t.length ≤ k) →
      images_taken (export_loop env total n t fraction) = t.take k := by
  intro t
  induction t with
  | nil => intro n f k _ _; simp [export_loop, images_taken]
  | cons imgid t ih =>
    intro n f k hlt hk
    cases k with
    | zero =>
      have hc : env.cancelled n = true := by
        rcases hk with h | h
        · simpa using h
        · simp at h
      rw [export_loop_cancelled env total n imgid t f hc]
      simp [images_taken]
    | succ k =>
      have hc : env.cancelled n = false := by simpa using hlt 0 (Nat.succ_pos k)
      rw [(export_loop_turn env total n imgid t f hc).1, List.take_succ_cons]
      congr 1
      apply ih (n + 1) _ k
      · intro j hj
        have h := hlt (j + 1) (Nat.succ_lt_succ hj)
        rw [← h]
        congr 1
        omega
      · rcases hk with h | h
        · left
          rw [← h]
          congr 1
          omega
        · right
          simp only [List.length_cons] at h
          omega

theorem export_taken_after_test (env : ExportEnv) (total : Int) :
    ∀ (t : List Int) (n : Nat) (fraction : FVal) (prev : ExportAction),
      taken_after_test prev (export_loop env total n t fraction) = true := by
  intro t
  induction t with
  | nil => intro n f prev; simp [export_loop, taken_after_test]
  | cons imgid t ih =>
    intro n f prev
    cases hc : env.cancelled n
    · have h := ih (n + 1) (fadd f (fdiv (fin 1) (fin total)))
        (ExportAction.set_progress (fadd f (fdiv (fin 1) (fin total))))
      cases he : env.image_exists imgid <;> cases hr : env.is_regular imgid <;>
        simp [export_loop, hc, he, hr, taken_after_test, h]
    · simp [export_loop, hc, taken_after_test]

/-- C20, counterexample: the list of the images `1` and `2`, no cancellation,
and the image `1` without a regular file.  The job skips the image `1` and
stores the image `2`: the stored images are not a prefix of the list. -/
theorem export_job_stored_counterexample :
    images_stored (dt_control_export_job_run example_env true [1, 2]).2 = [2]
    ∧ ¬ (images_stored (dt_control_export_job_run example_env true [1, 2]).2 <+: [1, 2]) := by
  have h : images_stored (dt_control_export_job_run example_env true [1, 2]).2 = [2] := by
    decide
  refine ⟨h, ?_⟩
  rw [h]
  decide

/-- C20, amended: run in sequence, the export job tests the job state before
it takes each image; the images it takes are a prefix of the selected list, in
list order, namely the images that come before the first test that finds the
job cancelled; the images it stores are, in the same order, those of the
images taken that exist and have a regular file, so that they are a prefix of
the selected list when every selected image is available. -/
theorem export_job_cancellation (env : ExportEnv) (sdata : Bool) (index : List Int) :
    images_taken (dt_control_export_job_run env sdata index).2 <+: index
    ∧ (∀ prev, taken_after_test prev (dt_control_export_job_run env sdata index).2 = true)
    ∧ (∀ k, (∀ j, j < k → env.cancelled j = false) →
        (env.cancelled k = true ∨ index.length ≤ k) →
        images_taken (dt_control_export_job_run env true index).2 = index.take k)
    ∧ images_stored (dt_control_export_job_run env sdata index).2
      = (images_taken (dt_control_export_job_run env sdata index).2).filter
          (fun imgid => env.image_exists imgid && env.is_regular imgid)
    ∧ ((∀ imgid ∈ index, env.image_exists imgid = true ∧ env.is_regular imgid = true) →
        images_stored (dt_control_export_job_run env sdata index).2 <+: index) := by
  have hpre : images_taken (dt_control_export_job_run env sdata index).2 <+: index := by
    cases sdata
    · simp [dt_control_export_job_run, images_taken]
    · exact export_taken_prefix env _ index 0 _
  have hfil : images_stored (dt_control_export_job_run env sdata index).2
      = (images_taken (dt_control_export_job_run env sdata index).2).filter
          (fun imgid => env.image_exists imgid && env.is_regular imgid) := by
    cases sdata
    · simp [dt_control_export_job_run, images_taken, images_stored]
    · exact export_stored_filter env _ index 0 _
  refine ⟨hpre, ?_, ?_, hfil, ?_⟩
  · intro prev
    cases sdata
    · simp [dt_control_export_job_run, taken_after_test]
    · exact export_taken_after_test env _ index 0 _ prev
  · intro k hlt hk
    have h := export_taken_take env (index.length : Int) index 0 (fin 0) k
      (by intro j hj; simpa using hlt j hj) (by simpa using hk)
    simpa [dt_control_export_job_run] using h
  · intro hav
    rw [hfil]
    have hall : (images_taken (dt_control_export_job_run env sdata index).2).filter
        (fun imgid => env.image_exists imgid && env.is_regular imgid)
        = images_taken (dt_control_export_job_run env sdata index).2 := by
      apply List.filter_eq_self.mpr
      intro imgid hmem
      have hin := hpre.subset hmem
      simp [(hav imgid hin).1, (hav imgid hin).2]
    rw [hall]
    exact hpre

/-! ## The stored blend parameters -/

theorem andNot_testBit (m f i : Nat) :
    (andNot m f).testBit i = (m.testBit i && !f.testBit i) := by
  simp only [andNot, Nat.testBit_xor, Nat.testBit_land]
  cases m.testBit i <;> cases f.testBit i <;> rfl

theorem andNot_idem (m f : Nat) : andNot (andNot m f) f = andNot m f :=
  andNot_of_land_eq_zero _ _ (andNot_land m f)

/-- C25: a call with a non-zero mode stores the mode without the bits of the
mask flag, all other bits of the mode and the opacity as they were; the stored
mode has no bit in common with the flag, so that the mask test of the same
call finds the flag clear, and a second call on the stored parameters finds no
mask flag and leaves them as they are. -/
theorem blend_process_clears_mask_flag (H : BlendH) (cst : dt_iop_colorspace_type_t)
    (ch : Int) (d : dt_develop_blend_params_t) (inb out : Buf) (roi_out : dt_iop_roi_t)
    (hm : d.mode ≠ 0) :
    (dt_develop_blend_process H cst ch (some d) inb out roi_out).blendop_data
      = some ⟨andNot d.mode H.DEVELOP_BLEND_MASK_FLAG, d.opacity⟩
    ∧ (∀ i, H.DEVELOP_BLEND_MASK_FLAG.testBit i = true →
        (andNot d.mode H.DEVELOP_BLEND_MASK_FLAG).testBit i = false)
    ∧ (∀ i, H.DEVELOP_BLEND_MASK_FLAG.testBit i = false →
        (andNot d.mode H.DEVELOP_BLEND_MASK_FLAG).testBit i = d.mode.testBit i)
    ∧ decide (andNot d.mode H.DEVELOP_BLEND_MASK_FLAG &&& H.DEVELOP_BLEND_MASK_FLAG ≠ 0) = false
    ∧ ∀ (cst2 : dt_iop_colorspace_type_t) (ch2 : Int) (inb2 out2 : Buf) (roi2 : dt_iop_roi_t),
        (dt_develop_blend_process H cst2 ch2
            (dt_develop_blend_process H cst ch (some d) inb out roi_out).blendop_data
            inb2 out2 roi2).blendop_data
          = some ⟨andNot d.mode H.DEVELOP_BLEND_MASK_FLAG, d.opacity⟩ := by
  have hstored : ∀ (cst : dt_iop_colorspace_type_t) (ch : Int) (m : Nat) (o : FVal)
      (inb out : Buf) (roi_out : dt_iop_roi_t), m ≠ 0 →
      (dt_develop_blend_process H cst ch (some ⟨m, o⟩) inb out roi_out).blendop_data
        = some ⟨andNot m H.DEVELOP_BLEND_MASK_FLAG, o⟩ := by
    intro cst ch m o inb out roi_out hm
    by_cases hen : andNot m H.DEVELOP_BLEND_MASK_FLAG = 0
    · simp [dt_develop_blend_process, hm, hen]
    · simp [dt_develop_blend_process, hm, hen]
  have h1 := hstored cst ch d.mode d.opacity inb out roi_out hm
  refine ⟨h1, ?_, ?_, ?_, ?_⟩
  · intro i hi
    rw [andNot_testBit, hi]
    simp
  · intro i hi
    rw [andNot_testBit, hi]
    simp
  · simp [andNot_land]
  · intro cst2 ch2 inb2 out2 roi2
    rw [h1]
    by_cases hz : andNot d.mode H.DEVELOP_BLEND_MASK_FLAG = 0
    · simp [dt_develop_blend_process, hz]
    · rw [hstored cst2 ch2 _ _ inb2 out2 roi2 hz, andNot_idem]

/-- Witness of C25: the mode `0x81`, mask flag and normal, at opacity 50. -/
theorem blend_process_clears_mask_flag_witness :
    (0x81 : Nat) ≠ 0 ∧
    (dt_develop_blend_process blendH iop_cs_rgb 4 (some ⟨0x81, fin 50⟩)
        (fun _ => fin (1 / 4)) (fun _ => fin (3 / 4)) ⟨1, 1⟩).blendop_data
      = some ⟨andNot 0x81 blendH.DEVELOP_BLEND_MASK_FLAG, fin 50⟩ :=
  ⟨by decide,
   (blend_process_clears_mask_flag blendH iop_cs_rgb 4 ⟨0x81, fin 50⟩ (fun _ => fin (1 / 4))
     (fun _ => fin (3 / 4)) ⟨1, 1⟩ (by decide)).1⟩

/-! ## Modes that the `switch` does not name -/

/-- The `switch` selects `_blend_normal` for a mode that is none of the
enumerators. -/
theorem select_blend_default (H : BlendH) (m : Nat) (h : m ∉ H.modes) :
    select_blend H m = _blend_normal := by
  simp only [BlendH.modes, List.mem_cons, List.mem_singleton, not_or, List.not_mem_nil,
    not_false_eq_true, and_true] at h
  obtain ⟨_, h2, h3, h4, h5, h6, h7, h8, h9, h10, h11, h12, h13, h14, h15⟩ := h
  simp only [select_blend, h2, h3, h4, h5, h6, h7, h8, h9, h10, h11, h12, h13, h14, h15,
    if_false]

/-- C26, counterexample: the mode `0x80`, the bare mask flag, is non-zero and
without the flag it is `0`, none of the enumerators of the `switch`.  The call
logs the message and leaves the output element `1/2` alone, where the mode
normal at the same opacity `0` overwrites it by the input element `1/4`. -/
theorem blend_process_unnamed_mode_counterexample :
    (0x80 : Nat) ≠ 0
    ∧ andNot 0x80 blendH.DEVELOP_BLEND_MASK_FLAG ∉ blendH.modes
    ∧ (dt_develop_blend_process blendH iop_cs_rgb 4 (some ⟨0x80, fin 0⟩)
        (fun _ => fin (1 / 4)) (fun _ => fin (1 / 2)) ⟨1, 1⟩).out 0 = fin (1 / 2)
    ∧ (dt_develop_blend_process blendH iop_cs_rgb 4
        (some ⟨blendH.DEVELOP_BLEND_NORMAL, fin 0⟩)
        (fun _ => fin (1 / 4)) (fun _ => fin (1 / 2)) ⟨1, 1⟩).out 0 = fin (1 / 4) := by
  have h80 : andNot 0x80 blendH.DEVELOP_BLEND_MASK_FLAG = 0 := by decide
  have hen : andNot (⟨blendH.DEVELOP_BLEND_NORMAL, fin 0⟩ : dt_develop_blend_params_t).mode
      blendH.DEVELOP_BLEND_MASK_FLAG ≠ 0 := by decide
  have hat := process_at blendH iop_cs_rgb 4 ⟨blendH.DEVELOP_BLEND_NORMAL, fin 0⟩
    (fun _ => fin (1 / 4)) (fun _ => fin (1 / 2)) ⟨1, 1⟩ 0 0 0
    hen (by intro _; decide) (by decide) (by decide) (by decide) (by decide)
    (by simp [footprint])
  refine ⟨by decide, by decide, ?_, ?_⟩
  · simp [dt_develop_blend_process, h80]
  · rw [hat]
    simp only [written, clipped_opacity_zero]
    exact composite_zero _ _ _ _ (by
      rw [(normal_enabled blendH blendH_WF).1, select_blend_normal blendH blendH_WF]
      simp [_blend_normal, isFinite])

/-- C26, amended: for well-formed constants and a non-zero mode value that
without the mask flag is none of the enumerators of the `switch`: if the mode
is non-zero without the flag, the call composites exactly as the mode normal
does, the output buffers being equal; if the mode is the bare mask flag, zero
without the flag, the call composites nothing: it leaves the output and the
input as they are and only logs the message of the `else` branch. -/
theorem blend_process_unnamed_mode (H : BlendH) (cst : dt_iop_colorspace_type_t) (ch : Int)
    (mode : Nat) (opacity : FVal) (inb out : Buf) (roi_out : dt_iop_roi_t)
    (hwf : H.WF) (hm : mode ≠ 0)
    (hdef : andNot mode H.DEVELOP_BLEND_MASK_FLAG ∉ H.modes) :
    (andNot mode H.DEVELOP_BLEND_MASK_FLAG ≠ 0 →
      (dt_develop_blend_process H cst ch (some ⟨mode, opacity⟩) inb out roi_out).out
        = (dt_develop_blend_process H cst ch (some ⟨H.DEVELOP_BLEND_NORMAL, opacity⟩)
            inb out roi_out).out)
    ∧ (andNot mode H.DEVELOP_BLEND_MASK_FLAG = 0 →
      dt_develop_blend_process H cst ch (some ⟨mode, opacity⟩) inb out roi_out
        = ⟨inb, out, some ⟨0, opacity⟩, ["blending using masks is not yet implemented."]⟩) := by
  constructor
  · intro hen
    obtain ⟨hclear, hnz⟩ := normal_enabled H hwf
    have hen2 : andNot (⟨H.DEVELOP_BLEND_NORMAL, opacity⟩ : dt_develop_blend_params_t).mode
        H.DEVELOP_BLEND_MASK_FLAG ≠ 0 := by simpa only [hclear] using hnz
    simp only [process_enabled H cst ch ⟨mode, opacity⟩ inb out roi_out hen,
      process_enabled H cst ch ⟨H.DEVELOP_BLEND_NORMAL, opacity⟩ inb out roi_out hen2,
      select_blend_default H _ hdef, hclear, select_blend_normal H hwf]
  · intro hz
    exact process_bare_flag H cst ch ⟨mode, opacity⟩ inb out roi_out hm hz

/-- Witness of the amended C26: the mode `0x90`, which without the flag is
`0x10`, past the last enumerator. -/
theorem blend_process_unnamed_mode_witness :
    (blendH.WF ∧ (0x90 : Nat) ≠ 0 ∧ andNot 0x90 blendH.DEVELOP_BLEND_MASK_FLAG ∉ blendH.modes
      ∧ andNot 0x90 blendH.DEVELOP_BLEND_MASK_FLAG ≠ 0) ∧
    (dt_develop_blend_process blendH iop_cs_rgb 4 (some ⟨0x90, fin 50⟩)
        (fun _ => fin (1 / 4)) (fun _ => fin (3 / 4)) ⟨2, 2⟩).out
      = (dt_develop_blend_process blendH iop_cs_rgb 4
          (some ⟨blendH.DEVELOP_BLEND_NORMAL, fin 50⟩)
          (fun _ => fin (1 / 4)) (fun _ => fin (3 / 4)) ⟨2, 2⟩).out :=
  ⟨⟨blendH_WF, by decide, by decide, by decide⟩,
   (blend_process_unnamed_mode blendH iop_cs_rgb 4 0x90 (fin 50) (fun _ => fin (1 / 4))
     (fun _ => fin (3 / 4)) ⟨2, 2⟩ blendH_WF (by decide) (by decide)).1 (by decide)⟩

/-! ## Soft-light and hard-light -/

/-- C27: for all finite `max`, `a` and `b` with `a <= max/2`, the operators
soft-light and hard-light return one and the same value, `a*(b + max/2)`; on
the other branch they differ, as for `max = 1`, `a = 3/4`, `b = 0`, where
soft-light returns `5/8` and hard-light `1/2`. -/
theorem softlight_hardlight_lower_branch (mx a b : ℚ) (ha : a ≤ mx / 2) :
    _blend_softlight (fin mx) (fin a) (fin b) = fin (a * (b + mx / 2))
    ∧ _blend_hardlight (fin mx) (fin a) (fin b) = fin (a * (b + mx / 2))
    ∧ _blend_softlight (fin 1) (fin (3 / 4)) (fin 0) = fin (5 / 8)
    ∧ _blend_hardlight (fin 1) (fin (3 / 4)) (fin 0) = fin (1 / 2) := by
  have h2 : fdiv (fin mx) (fin 2) = fin (mx / 2) := by norm_num [fdiv]
  have hna : ¬ mx / 2 < a := not_lt.mpr ha
  refine ⟨?_, ?_, ?_, ?_⟩
  · simp [_blend_softlight, h2, fgt, flt, hna, fadd, fmul]
  · simp [_blend_hardlight, h2, fgt, flt, hna, fadd, fmul]
  · norm_num [_blend_softlight, fdiv, fgt, flt, fsub, fneg, fadd, fmul]
  · norm_num [_blend_hardlight, fdiv, fgt, flt, fsub, fneg, fadd, fmul]

/-- Witness of C27: `max = 1`, `a = 1/4`, `b = 1/2`. -/
theorem softlight_hardlight_lower_branch_witness :
    (1 / 4 : ℚ) ≤ 1 / 2 ∧
    _blend_softlight (fin 1) (fin (1 / 4)) (fin (1 / 2)) = fin (1 / 4 * (1 / 2 + 1 / 2)) :=
  ⟨by norm_num, (softlight_hardlight_lower_branch 1 (1 / 4) (1 / 2) (by norm_num)).1⟩

/-! ## The size limit of the export job -/

/-- C29: the size limit that the export job computes from the limit `s` of the
storage and the limit `f` of the format, `0` meaning no limit, is `0` when
both are `0`, the other one when one of them is `0`, and the smaller one when
neither is `0`; it is symmetric in `s` and `f`, and it is never larger than a
limit that is not `0`. -/
theorem export_size_limit_spec (s f : Nat) :
    export_size_limit 0 0 = 0
    ∧ export_size_limit s 0 = s
    ∧ export_size_limit 0 f = f
    ∧ export_size_limit s f = (if s = 0 then f else if f = 0 then s else min s f)
    ∧ export_size_limit s f = export_size_limit f s
    ∧ (s = 0 ∨ export_size_limit s f ≤ s)
    ∧ (f = 0 ∨ export_size_limit s f ≤ f) := by
  unfold export_size_limit
  refine ⟨by simp, ?_, ?_, ?_, ?_, ?_, ?_⟩
  · split_ifs <;> omega
  · simp
  · rcases Nat.lt_or_ge s f with h | h
    · rw [min_eq_left (le_of_lt h)]
      split_ifs <;> omega
    · rw [min_eq_right h]
      split_ifs <;> omega
  · split_ifs <;> omega
  · split_ifs <;> omega
  · split_ifs <;> omega

/-! ## The range of the operators at `max = 1` -/

theorem in_unit_range_fin (q : ℚ) : in_unit_range (fin q) ↔ 0 ≤ q ∧ q ≤ 1 := by
  constructor
  · rintro ⟨v, hv, h0, h1⟩
    have : q = v := by simpa using hv
    rw [this]
    exact ⟨h0, h1⟩
  · rintro ⟨h0, h1⟩
    exact ⟨q, rfl, h0, h1⟩

theorem fmax_fin (a b : ℚ) : fmax (fin a) (fin b) = fin (max a b) := by
  simp only [fmax, flt]
  rcases lt_or_le a b with h | h
  · simp [h, max_eq_right (le_of_lt h)]
  · simp [not_lt.mpr h, max_eq_left h]

theorem fmin_fin (a b : ℚ) : fmin (fin a) (fin b) = fin (min a b) := by
  simp only [fmin, flt]
  rcases lt_or_le b a with h | h
  · simp [h, min_eq_right (le_of_lt h)]
  · simp [not_lt.mpr h, min_eq_left h]

theorem half_one : fdiv (fin 1) (fin 2) = fin (1 / 2) := by norm_num [fdiv]

theorem double_one : fmul (fin 1) (fin 2) = fin 2 := by norm_num [fmul]

/-- The clipped opacity is a finite number of `[0,1]`, whatever the stored
percentage. -/
theorem clipped_opacity_unit (p : FVal) : in_unit_range (clipped_opacity p) := by
  cases p with
  | fin x =>
    have h100 : fdiv (fin x) (fin 100) = fin (x / 100) := by norm_num [fdiv]
    simp only [clipped_opacity, h100, fmax_fin, fmin_fin, in_unit_range_fin]
    exact ⟨le_min (le_max_left _ _) zero_le_one, min_le_right _ _⟩
  | pinf =>
    exact ⟨1, by norm_num [clipped_opacity, fdiv, fmax, fmin, flt, signedInf], by norm_num,
      le_refl 1⟩
  | ninf =>
    exact ⟨0, by norm_num [clipped_opacity, fdiv, fmax, fmin, flt, signedInf], le_refl 0,
      by norm_num⟩
  | nan =>
    exact ⟨0, by norm_num [clipped_opacity, fdiv, fmax, fmin, flt], le_refl 0, by norm_num⟩

/-- The composite of an input and a blend value of `[0,1]` at an opacity of
`[0,1]` is in `[0,1]`. -/
theorem composite_unit (blend : blend_func) (o : FVal) (a : ℚ) (b : FVal)
    (ho : in_unit_range o) (ha0 : 0 ≤ a) (ha1 : a ≤ 1)
    (hv : in_unit_range (blend (fin 1) (fin a) b)) :
    in_unit_range (composite blend (fin 1) o (fin a) b) := by
  obtain ⟨q, hq, hq0, hq1⟩ := ho
  obtain ⟨v, hv, hv0, hv1⟩ := hv
  simp only [composite, hq, hv, fsub, fneg, fadd, fmul, in_unit_range_fin]
  constructor
  · have h1 : 0 ≤ a * (1 + -q) := mul_nonneg ha0 (by linarith)
    have h2 : 0 ≤ v * q := mul_nonneg hv0 hq0
    linarith
  · have h1 : a * (1 + -q) ≤ 1 * (1 + -q) := mul_le_mul_of_nonneg_right ha1 (by linarith)
    have h2 : v * q ≤ 1 * q := mul_le_mul_of_nonneg_right hv1 hq0
    linarith

theorem unit_lighten (a b : ℚ) (ha0 : 0 ≤ a) (ha1 : a ≤ 1) (hb1 : b ≤ 1) :
    in_unit_range (_blend_lighten (fin 1) (fin a) (fin b)) := by
  simp only [_blend_lighten, fmax_fin, in_unit_range_fin]
  exact ⟨le_trans ha0 (le_max_left _ _), max_le ha1 hb1⟩

theorem unit_darken (a b : ℚ) (ha0 : 0 ≤ a) (ha1 : a ≤ 1) (hb0 : 0 ≤ b) :
    in_unit_range (_blend_darken (fin 1) (fin a) (fin b)) := by
  simp only [_blend_darken, fmin_fin, in_unit_range_fin]
  exact ⟨le_min ha0 hb0, le_trans (min_le_left _ _) ha1⟩

theorem unit_multiply (a b : ℚ) (ha0 : 0 ≤ a) (ha1 : a ≤ 1) (hb0 : 0 ≤ b) (hb1 : b ≤ 1) :
    in_unit_range (_blend_multiply (fin 1) (fin a) (fin b)) := by
  simp only [_blend_multiply, fmul, in_unit_range_fin]
  exact ⟨mul_nonneg ha0 hb0, by nlinarith⟩

theorem unit_average (a b : ℚ) (ha0 : 0 ≤ a) (ha1 : a ≤ 1) (hb0 : 0 ≤ b) (hb1 : b ≤ 1) :
    in_unit_range (_blend_average (fin 1) (fin a) (fin b)) := by
  have h : _blend_average (fin 1) (fin a) (fin b) = fin ((a + b) / 2) := by
    simp [_blend_average, fadd, fdiv]
  rw [h, in_unit_range_fin]
  constructor <;> linarith

theorem unit_add (a b : ℚ) : in_unit_range (_blend_add (fin 1) (fin a) (fin b)) := by
  simp only [_blend_add, CLIP_MAX, fadd, fmax_fin, fmin_fin, in_unit_range_fin]
  exact ⟨le_max_left _ _, max_le zero_le_one (min_le_left _ _)⟩

theorem unit_substract (a b : ℚ) (ha1 : a ≤ 1) (hb1 : b ≤ 1) :
    in_unit_range (_blend_substract (fin 1) (fin a) (fin b)) := by
  simp only [_blend_substract, fadd, flt]
  by_cases h : a + b < 1
  · simp only [h, decide_True, if_true, in_unit_range_fin]
    exact ⟨le_refl 0, zero_le_one⟩
  · simp only [h, decide_False, fsub, fneg, fadd, in_unit_range_fin]
    simp only [Bool.false_eq_true, if_false, in_unit_range_fin]
    constructor <;> linarith [not_lt.mp h]

theorem unit_difference (a b : ℚ) (ha0 : 0 ≤ a) (ha1 : a ≤ 1) (hb0 : 0 ≤ b) (hb1 : b ≤ 1) :
    in_unit_range (_blend_difference (fin 1) (fin a) (fin b)) := by
  simp only [_blend_difference, fsub, fneg, fadd, fabs, in_unit_range_fin]
  exact ⟨abs_nonneg _, abs_le.mpr ⟨by linarith, by linarith⟩⟩

theorem unit_screen (a b : ℚ) (ha0 : 0 ≤ a) (ha1 : a ≤ 1) (hb0 : 0 ≤ b) (hb1 : b ≤ 1) :
    in_unit_range (_blend_screen (fin 1) (fin a) (fin b)) := by
  simp only [_blend_screen, fsub, fneg, fadd, fmul, in_unit_range_fin]
  constructor <;> nlinarith [mul_nonneg (sub_nonneg.mpr ha1) (sub_nonneg.mpr hb1)]

theorem unit_overlay (a b : ℚ) (ha0 : 0 ≤ a) (ha1 : a ≤ 1) (hb0 : 0 ≤ b) (hb1 : b ≤ 1) :
    in_unit_range (_blend_overlay (fin 1) (fin a) (fin b)) := by
  simp only [_blend_overlay, half_one, double_one, fgt, flt]
  by_cases h : (1 : ℚ) / 2 < a
  · simp only [h, decide_True, if_true, fsub, fneg, fadd, fmul, in_unit_range_fin]
    have hu0 : 0 ≤ 1 + -(2 * (a + -(1 / 2))) := by linarith
    have hu1 : 1 + -(2 * (a + -(1 / 2))) ≤ 1 := by linarith
    have hv0 : 0 ≤ 1 + -b := by linarith
    have hv1 : 1 + -b ≤ 1 := by linarith
    have hp0 := mul_nonneg hu0 hv0
    have hp1 : (1 + -(2 * (a + -(1 / 2)))) * (1 + -b) ≤ 1 * 1 :=
      mul_le_mul hu1 hv1 hv0 zero_le_one
    constructor <;> linarith
  · simp only [h, decide_False, fmul]
    simp only [Bool.false_eq_true, if_false, in_unit_range_fin]
    have hu0 : 0 ≤ 2 * a := by linarith
    have hu1 : 2 * a ≤ 1 := by linarith [not_lt.mp h]
    have hp1 : 2 * a * b ≤ 1 * 1 := mul_le_mul hu1 hb1 hb0 zero_le_one
    exact ⟨mul_nonneg hu0 hb0, by linarith⟩

theorem unit_softlight (a b : ℚ) (ha0 : 0 ≤ a) (ha1 : a ≤ 1) (hb0 : 0 ≤ b) (hb1 : b ≤ 1) :
    in_unit_range (_blend_softlight (fin 1) (fin a) (fin b)) := by
  simp only [_blend_softlight, half_one, fgt, flt]
  by_cases h : (1 : ℚ) / 2 < a
  · simp only [h, decide_True, if_true, fsub, fneg, fadd, fmul, in_unit_range_fin]
    have hu0 : 0 ≤ 1 + -a := by linarith
    have hu1 : 1 + -a ≤ 1 / 2 := by linarith
    have hv0 : 0 ≤ 1 + -(b + -(1 / 2)) := by linarith
    have hv1 : 1 + -(b + -(1 / 2)) ≤ 3 / 2 := by linarith
    have hp0 := mul_nonneg hu0 hv0
    have hp1 : (1 + -a) * (1 + -(b + -(1 / 2))) ≤ 1 / 2 * (3 / 2) :=
      mul_le_mul hu1 hv1 hv0 (by norm_num)
    constructor <;> linarith
  · simp only [h, decide_False, fadd, fmul]
    simp only [Bool.false_eq_true, if_false, in_unit_range_fin]
    have hu1 : a ≤ 1 / 2 := not_lt.mp h
    have hv0 : 0 ≤ b + 1 / 2 := by linarith
    have hv1 : b + 1 / 2 ≤ 3 / 2 := by linarith
    have hp1 : a * (b + 1 / 2) ≤ 1 / 2 * (3 / 2) := mul_le_mul hu1 hv1 hv0 (by norm_num)
    exact ⟨mul_nonneg ha0 hv0, by linarith⟩

theorem unit_hardlight (a b : ℚ) (ha0 : 0 ≤ a) (ha1 : a ≤ 1) (hb0 : 0 ≤ b) (hb1 : b ≤ 1) :
    in_unit_range (_blend_hardlight (fin 1) (fin a) (fin b)) := by
  simp only [_blend_hardlight, half_one, double_one, fgt, flt]
  by_cases h : (1 : ℚ) / 2 < a
  · simp only [h, decide_True, if_true, fsub, fneg, fadd, fmul, in_unit_range_fin]
    have hu0 : 0 ≤ 1 + -a := by linarith
    have hu1 : 1 + -a ≤ 1 / 2 := by linarith
    have hv0 : 0 ≤ 1 + -(2 * (b + -(1 / 2))) := by linarith
    have hv1 : 1 + -(2 * (b + -(1 / 2))) ≤ 2 := by linarith
    have hp0 := mul_nonneg hu0 hv0
    have hp1 : (1 + -a) * (1 + -(2 * (b + -(1 / 2)))) ≤ 1 / 2 * 2 :=
      mul_le_mul hu1 hv1 hv0 (by norm_num)
    constructor <;> linarith
  · simp only [h, decide_False, fadd, fmul]
    simp only [Bool.false_eq_true, if_false, in_unit_range_fin]
    have hu1 : a ≤ 1 / 2 := not_lt.mp h
    have hv0 : 0 ≤ b + 1 / 2 := by linarith
    have hv1 : b + 1 / 2 ≤ 3 / 2 := by linarith
    have hp1 : a * (b + 1 / 2) ≤ 1 / 2 * (3 / 2) := mul_le_mul hu1 hv1 hv0 (by norm_num)
    exact ⟨mul_nonneg ha0 hv0, by linarith⟩

theorem unit_pinlight (a b : ℚ) (ha0 : 0 ≤ a) (ha1 : a ≤ 1) (hb0 : 0 ≤ b) (hb1 : b ≤ 1) :
    in_unit_range (_blend_pinlight (fin 1) (fin a) (fin b)) := by
  simp only [_blend_pinlight, half_one, double_one, fgt, flt]
  by_cases h : (1 : ℚ) / 2 < a
  · simp only [h, decide_True, if_true, fsub, fneg, fadd, fmul, fmax_fin, in_unit_range_fin]
    exact ⟨le_trans ha0 (le_max_left _ _), max_le ha1 (by linarith)⟩
  · simp only [h, decide_False, fmul, fmin_fin]
    simp only [Bool.false_eq_true, if_false, fmin_fin, in_unit_range_fin]
    exact ⟨le_min ha0 (by linarith), le_trans (min_le_left _ _) ha1⟩

/-- A property of the thirteen operators other than vivid-light and
linear-light holds of the operator that the `switch` selects for a mode that
is neither of the two. -/
theorem select_blend_cases (H : BlendH) (mode : Nat) (P : blend_func → Prop)
    (hv : mode ≠ H.DEVELOP_BLEND_VIVIDLIGHT) (hl : mode ≠ H.DEVELOP_BLEND_LINEARLIGHT)
    (h1 : P _blend_lighten) (h2 : P _blend_darken) (h3 : P _blend_multiply)
    (h4 : P _blend_average) (h5 : P _blend_add) (h6 : P _blend_substract)
    (h7 : P _blend_difference) (h8 : P _blend_screen) (h9 : P _blend_overlay)
    (h10 : P _blend_softlight) (h11 : P _blend_hardlight) (h12 : P _blend_pinlight)
    (h13 : P _blend_normal) : P (select_blend H mode) := by
  unfold select_blend
  by_cases c1 : mode = H.DEVELOP_BLEND_LIGHTEN
  · rw [if_pos c1]; exact h1
  rw [if_neg c1]
  by_cases c2 : mode = H.DEVELOP_BLEND_DARKEN
  · rw [if_pos c2]; exact h2
  rw [if_neg c2]
  by_cases c3 : mode = H.DEVELOP_BLEND_MULTIPLY
  · rw [if_pos c3]; exact h3
  rw [if_neg c3]
  by_cases c4 : mode = H.DEVELOP_BLEND_AVERAGE
  · rw [if_pos c4]; exact h4
  rw [if_neg c4]
  by_cases c5 : mode = H.DEVELOP_BLEND_ADD
  · rw [if_pos c5]; exact h5
  rw [if_neg c5]
  by_cases c6 : mode = H.DEVELOP_BLEND_SUBSTRACT
  · rw [if_pos c6]; exact h6
  rw [if_neg c6]
  by_cases c7 : mode = H.DEVELOP_BLEND_DIFFERENCE
  · rw [if_pos c7]; exact h7
  rw [if_neg c7]
  by_cases c8 : mode = H.DEVELOP_BLEND_SCREEN
  · rw [if_pos c8]; exact h8
  rw [if_neg c8]
  by_cases c9 : mode = H.DEVELOP_BLEND_OVERLAY
  · rw [if_pos c9]; exact h9
  rw [if_neg c9]
  by_cases c10 : mode = H.DEVELOP_BLEND_SOFTLIGHT
  · rw [if_pos c10]; exact h10
  rw [if_neg c10]
  by_cases c11 : mode = H.DEVELOP_BLEND_HARDLIGHT
  · rw [if_pos c11]; exact h11
  rw [if_neg c11, if_neg hv, if_neg hl]
  by_cases c12 : mode = H.DEVELOP_BLEND_PINLIGHT
  · rw [if_pos c12]; exact h12
  rw [if_neg c12]
  exact h13

/-- C28: with the channel ceiling `1`, finite `a` and `b` of `[0,1]` and a
mode that is neither vivid-light nor linear-light, the operator that the
`switch` selects returns a finite value of `[0,1]`, and for every stored
opacity percentage the composite `in*(1-o) + blend*o` is a finite value of
`[0,1]` too. -/
theorem blend_unit_range (H : BlendH) (mode : Nat) (a b : ℚ) (p : FVal)
    (hv : mode ≠ H.DEVELOP_BLEND_VIVIDLIGHT) (hl : mode ≠ H.DEVELOP_BLEND_LINEARLIGHT)
    (ha0 : 0 ≤ a) (ha1 : a ≤ 1) (hb0 : 0 ≤ b) (hb1 : b ≤ 1) :
    in_unit_range (select_blend H mode (fin 1) (fin a) (fin b))
    ∧ in_unit_range
        (composite (select_blend H mode) (fin 1) (clipped_opacity p) (fin a) (fin b)) := by
  have hop : in_unit_range (select_blend H mode (fin 1) (fin a) (fin b)) := by
    apply select_blend_cases H mode (fun f => in_unit_range (f (fin 1) (fin a) (fin b))) hv hl
    · exact unit_lighten a b ha0 ha1 hb1
    · exact unit_darken a b ha0 ha1 hb0
    · exact unit_multiply a b ha0 ha1 hb0 hb1
    · exact unit_average a b ha0 ha1 hb0 hb1
    · exact unit_add a b
    · exact unit_substract a b ha1 hb1
    · exact unit_difference a b ha0 ha1 hb0 hb1
    · exact unit_screen a b ha0 ha1 hb0 hb1
    · exact unit_overlay a b ha0 ha1 hb0 hb1
    · exact unit_softlight a b ha0 ha1 hb0 hb1
    · exact unit_hardlight a b ha0 ha1 hb0 hb1
    · exact unit_pinlight a b ha0 ha1 hb0 hb1
    · exact (in_unit_range_fin b).mpr ⟨hb0, hb1⟩
  exact ⟨hop, composite_unit _ _ a _ (clipped_opacity_unit p) ha0 ha1 hop⟩

/-- Witness of C28: the mode overlay (`10`) at `a = 3/4`, `b = 1/4` and the
opacity percentage 50. -/
theorem blend_unit_range_witness :
    ((10 : Nat) ≠ blendH.DEVELOP_BLEND_VIVIDLIGHT ∧ (10 : Nat) ≠ blendH.DEVELOP_BLEND_LINEARLIGHT
      ∧ (0 : ℚ) ≤ 3 / 4 ∧ (3 / 4 : ℚ) ≤ 1 ∧ (0 : ℚ) ≤ 1 / 4 ∧ (1 / 4 : ℚ) ≤ 1) ∧
    in_unit_range (select_blend blendH 10 (fin 1) (fin (3 / 4)) (fin (1 / 4))) :=
  ⟨⟨by decide, by decide, by norm_num, by norm_num, by norm_num, by norm_num⟩,
   (blend_unit_range blendH 10 (3 / 4) (1 / 4) (fin 50) (by decide) (by decide)
     (by norm_num) (by norm_num) (by norm_num) (by norm_num)).1⟩

/-! ## The batch jobs -/

theorem images_processed_append (xs ys : List BatchAction) :
    images_processed (xs ++ ys) = images_processed xs ++ images_processed ys := by
  induction xs with
  | nil => rfl
  | cons a xs ih => cases a <;> simp [images_processed, ih]

theorem progress_values_append (xs ys : List BatchAction) :
    progress_values (xs ++ ys) = progress_values xs ++ progress_values ys := by
  induction xs with
  | nil => rfl
  | cons a xs ih => cases a <;> simp [progress_values, ih]

theorem export_progress_append (xs ys : List ExportAction) :
    export_progress (xs ++ ys) = export_progress xs ++ export_progress ys := by
  induction xs with
  | nil => rfl
  | cons a xs ih => cases a <;> simp [export_progress, ih]

theorem synch_loop_processed (benv : BatchEnv) :
    images_processed (synch_loop benv) = []
    ∧ progress_values (synch_loop benv) = []
    ∧ BatchAction.get_state ∉ synch_loop benv := by
  cases h : benv.names_row <;> simp [synch_loop, h, images_processed, progress_values]

/-- The loop of the duplicate job works on every image of the list, reports
`1.0/total` after each, and never asks for the state of the job. -/
theorem duplicate_loop_spec (total : Int) (t : List Int) :
    images_processed (duplicate_loop total t) = t
    ∧ progress_values (duplicate_loop total t)
        = List.replicate t.length (fdiv (fin 1) (fin total))
    ∧ BatchAction.get_state ∉ duplicate_loop total t := by
  induction t with
  | nil => simp [duplicate_loop, images_processed, progress_values]
  | cons imgid t ih =>
    obtain ⟨h1, h2, h3⟩ := ih
    simp [duplicate_loop, images_processed, progress_values, h1, h2, h3,
      List.replicate_succ]

/-- The loop of the flip job works on every image of the list, reports
`1.0/total` after each, and never asks for the state of the job. -/
theorem flip_loop_spec (cw total : Int) (t : List Int) :
    images_processed (flip_loop cw total t) = t
    ∧ progress_values (flip_loop cw total t)
        = List.replicate t.length (fdiv (fin 1) (fin total))
    ∧ BatchAction.get_state ∉ flip_loop cw total t := by
  induction t with
  | nil => simp [flip_loop, images_processed, progress_values]
  | cons imgid t ih =>
    obtain ⟨h1, h2, h3⟩ := ih
    simp [flip_loop, images_processed, progress_values, h1, h2, h3, List.replicate_succ]

/-- The loop of the remove job works on every image of the list, reports
`1.0/total` after each, and never asks for the state of the job. -/
theorem remove_loop_spec (total : Int) (t : List Int) :
    images_processed (remove_loop total t) = t
    ∧ progress_values (remove_loop total t)
        = List.replicate t.length (fdiv (fin 1) (fin total))
    ∧ BatchAction.get_state ∉ remove_loop total t := by
  induction t with
  | nil => simp [remove_loop, images_processed, progress_values]
  | cons imgid t ih =>
    obtain ⟨h1, h2, h3⟩ := ih
    simp [remove_loop, images_processed, progress_values, h1, h2, h3, List.replicate_succ]

/-- The loop of the delete job works on every image of the list, reports
`1.0/total` after each, and never asks for the state of the job. -/
theorem delete_loop_spec (benv : BatchEnv) (total : Int) (t : List Int) :
    images_processed (delete_loop benv total t) = t
    ∧ progress_values (delete_loop benv total t)
        = List.replicate t.length (fdiv (fin 1) (fin total))
    ∧ BatchAction.get_state ∉ delete_loop benv total t := by
  induction t with
  | nil => simp [delete_loop, images_processed, progress_values]
  | cons imgid t ih =>
    obtain ⟨h1, h2, h3⟩ := ih
    cases hd : benv.duplicates imgid with
    | none =>
      simp [delete_loop, hd, images_processed, progress_values, h1, h2, h3,
        List.replicate_succ]
    | some n =>
      by_cases hn : n = 1
      · simp [delete_loop, hd, hn, images_processed, progress_values, h1, h2, h3,
          List.replicate_succ]
      · simp [delete_loop, hd, hn, images_processed, progress_values, h1, h2, h3,
          List.replicate_succ]

/-- The loop of the merge job works on a prefix of the list and never asks for
the state of the job. -/
theorem merge_loop_spec (benv : BatchEnv) (total : Int) :
    ∀ (t : List Int) (size : Option (Int × Int)) (first_imgid : Int) (fraction : FVal),
      images_processed (merge_loop benv total size first_imgid t fraction).1 <+: t
      ∧ BatchAction.get_state ∉ (merge_loop benv total size first_imgid t fraction).1 := by
  intro t
  induction t with
  | nil => intro size first_imgid fraction; simp [merge_loop, images_processed]
  | cons imgid t ih =>
    intro size first_imgid fraction
    cases hr : benv.is_raw imgid
    · simp [merge_loop, hr, images_processed]
    cases hf : benv.full_buffer imgid
    · simp [merge_loop, hr, hf, images_processed]
    cases size with
    | none =>
      have h := ih (some (benv.width imgid, benv.height imgid)) imgid
        (fadd fraction (fdiv (fin 1) (fin total)))
      simp only [merge_loop, hr, hf, Bool.not_true, Bool.false_eq_true, if_false]
      refine ⟨?_, ?_⟩
      · simp only [List.cons_append, List.nil_append, images_processed]
        exact (List.prefix_cons_inj imgid).mpr h.1
      · simpa using h.2
    | some wh =>
      obtain ⟨wd, ht⟩ := wh
      have h := ih (some (wd, ht)) first_imgid (fadd fraction (fdiv (fin 1) (fin total)))
      by_cases hs : benv.width imgid ≠ wd ∨ benv.height imgid ≠ ht
      · simp [merge_loop, hr, hf, hs, images_processed]
      · simp only [merge_loop, hr, hf, Bool.not_true, Bool.false_eq_true, if_false, hs]
        refine ⟨?_, ?_⟩
        · simp only [List.cons_append, List.nil_append, images_processed]
          exact (List.prefix_cons_inj imgid).mpr h.1
        · simpa using h.2

/-- The loop of the merge job works on every image of the list when all of
them are raw images of one size whose full buffer is to be had. -/
theorem merge_loop_all (benv : BatchEnv) (total w h : Int) :
    ∀ (t : List Int) (size : Option (Int × Int)) (first_imgid : Int) (fraction : FVal),
      (size = none ∨ size = some (w, h)) →
      (∀ imgid ∈ t, benv.is_raw imgid = true ∧ benv.full_buffer imgid = true
        ∧ benv.width imgid = w ∧ benv.height imgid = h) →
      images_processed (merge_loop benv total size first_imgid t fraction).1 = t := by
  intro t
  induction t with
  | nil => intro size first_imgid fraction _ _; simp [merge_loop, images_processed]
  | cons imgid t ih =>
    intro size first_imgid fraction hsize hall
    obtain ⟨hr, hf, hw, hh⟩ := hall imgid (List.mem_cons_self _ _)
    have hrest : ∀ i ∈ t, benv.is_raw i = true ∧ benv.full_buffer i = true
        ∧ benv.width i = w ∧ benv.height i = h :=
      fun i hi => hall i (List.mem_cons_of_mem _ hi)
    rcases hsize with hsize | hsize
    · subst hsize
      have h1 := ih (some (benv.width imgid, benv.height imgid)) imgid
        (fadd fraction (fdiv (fin 1) (fin total))) (Or.inr (by rw [hw, hh])) hrest
      simp only [merge_loop, hr, hf, Bool.not_true, Bool.false_eq_true, if_false]
      simp only [List.cons_append, List.nil_append, images_processed]
      rw [show ∀ l : List BatchAction, ([] : List BatchAction).append l = l from
        fun _ => rfl, h1]
    · subst hsize
      have h1 := ih (some (w, h)) first_imgid
        (fadd fraction (fdiv (fin 1) (fin total))) (Or.inr rfl) hrest
      have hs : ¬ (benv.width imgid ≠ w ∨ benv.height imgid ≠ h) := by
        simp [hw, hh]
      simp only [merge_loop, hr, hf, Bool.not_true, Bool.false_eq_true, if_false, hs]
      simp only [List.cons_append, List.nil_append, images_processed]
      rw [show ∀ l : List BatchAction, ([] : List BatchAction).append l = l from
        fun _ => rfl, h1]

/-- C21, counterexample: the duplicate job whose state is cancelled from the
start still duplicates both images of the list `[1, 2]`, and so do the flip,
remove and delete jobs with theirs. -/
theorem batch_jobs_cancellation_counterexample :
    cancelled_env.cancelled 0 = true
    ∧ images_processed (dt_control_duplicate_images_job_run cancelled_env [1, 2]).2 = [1, 2]
    ∧ images_processed (dt_control_flip_images_job_run cancelled_env 1 [1, 2]).2 = [1, 2]
    ∧ images_processed
        (dt_control_remove_images_job_run cancelled_env example_benv [1, 2]).2 = [1, 2]
    ∧ images_processed
        (dt_control_delete_images_job_run cancelled_env example_benv [1, 2]).2 = [1, 2]
    ∧ images_processed
        (dt_control_merge_hdr_job_run cancelled_env example_benv [1, 2]).2 = [1, 2]
    ∧ images_taken (dt_control_export_job_run cancelled_env true [1, 2]).2 = [] := by
  refine ⟨rfl, ?_, ?_, ?_, ?_, ?_, ?_⟩
  · simp [dt_control_duplicate_images_job_run, duplicate_loop, images_processed]
  · simp [dt_control_flip_images_job_run, flip_loop, images_processed]
  · simp [dt_control_remove_images_job_run, remove_loop, synch_loop, example_benv,
      images_processed]
  · simp [dt_control_delete_images_job_run, delete_loop, synch_loop, example_benv,
      images_processed]
  · simp [dt_control_merge_hdr_job_run, merge_loop, example_benv, images_processed]
  · simp [dt_control_export_job_run, export_loop, cancelled_env, images_taken]

/-- C21, amended: of the batch jobs over the selected images only the export
supports cooperative cancellation: it takes no further image of its list once
a test of the job state finds it cancelled.  The duplicate, flip, remove and
delete jobs never ask for the state of the job and work on every image of the
list, whatever that state is; the merge job never asks for it either, works on
a prefix of the list, and on the whole list when all images are raw images of
one size whose full buffer is to be had. -/
theorem batch_jobs_cancellation (env : ExportEnv) (benv : BatchEnv) (flag : Int)
    (index : List Int) :
    (images_processed (dt_control_duplicate_images_job_run env index).2 = index
      ∧ BatchAction.get_state ∉ (dt_control_duplicate_images_job_run env index).2)
    ∧ (images_processed (dt_control_flip_images_job_run env flag index).2 = index
      ∧ BatchAction.get_state ∉ (dt_control_flip_images_job_run env flag index).2)
    ∧ (images_processed (dt_control_remove_images_job_run env benv index).2 = index
      ∧ BatchAction.get_state ∉ (dt_control_remove_images_job_run env benv index).2)
    ∧ (images_processed (dt_control_delete_images_job_run env benv index).2 = index
      ∧ BatchAction.get_state ∉ (dt_control_delete_images_job_run env benv index).2)
    ∧ (images_processed (dt_control_merge_hdr_job_run env benv index).2 <+: index
      ∧ BatchAction.get_state ∉ (dt_control_merge_hdr_job_run env benv index).2
      ∧ ∀ w h : Int,
          (∀ imgid ∈ index, benv.is_raw imgid = true ∧ benv.full_buffer imgid = true
            ∧ benv.width imgid = w ∧ benv.height imgid = h) →
          images_processed (dt_control_merge_hdr_job_run env benv index).2 = index)
    ∧ (∀ k, (∀ j, j < k → env.cancelled j = false) → env.cancelled k = true →
        images_taken (dt_control_export_job_run env true index).2 = index.take k) := by
  have hd := duplicate_loop_spec (index.length : Int) index
  have hf := flip_loop_spec flag (index.length : Int) index
  have hr := remove_loop_spec (index.length : Int) index
  have hx := delete_loop_spec benv (index.length : Int) index
  have hs := synch_loop_processed benv
  have hm := merge_loop_spec benv ((index.length : Int) + 1) index none (-1) (fin 0)
  have htail : ∀ b : Bool, ∀ i : Int,
      images_processed (if b = true then ([] : List BatchAction)
        else [BatchAction.write_dng i, BatchAction.set_progress (fin 1),
              BatchAction.log "wrote merged hdr", BatchAction.image_import]) = []
      ∧ BatchAction.get_state ∉ (if b = true then ([] : List BatchAction)
        else [BatchAction.write_dng i, BatchAction.set_progress (fin 1),
              BatchAction.log "wrote merged hdr", BatchAction.image_import]) := by
    intro b i
    cases b <;> simp [images_processed]
  refine ⟨⟨?_, ?_⟩, ⟨?_, ?_⟩, ⟨?_, ?_⟩, ⟨?_, ?_⟩, ⟨?_, ?_, ?_⟩, ?_⟩
  · simp [dt_control_duplicate_images_job_run, images_processed_append, images_processed,
      hd.1]
  · simpa [dt_control_duplicate_images_job_run] using hd.2.2
  · simp [dt_control_flip_images_job_run, images_processed_append, images_processed, hf.1]
  · simpa [dt_control_flip_images_job_run] using hf.2.2
  · simp [dt_control_remove_images_job_run, images_processed_append, images_processed,
      hr.1, hs.1]
  · simpa [dt_control_remove_images_job_run, hs.2.2] using hr.2.2
  · simp [dt_control_delete_images_job_run, images_processed_append, images_processed,
      hx.1, hs.1]
  · simpa [dt_control_delete_images_job_run, hs.2.2] using hx.2.2
  · simpa [dt_control_merge_hdr_job_run, images_processed_append, images_processed,
      (htail _ _).1] using hm.1
  · simpa [dt_control_merge_hdr_job_run, (htail _ _).2] using hm.2
  · intro w h hall
    have ha := merge_loop_all benv ((index.length : Int) + 1) w h index none (-1) (fin 0)
      (Or.inl rfl) hall
    simpa [dt_control_merge_hdr_job_run, images_processed_append, images_processed,
      (htail _ _).1] using ha
  · intro k hlt hk
    have h := export_taken_take env (index.length : Int) index 0 (fin 0) k
      (by intro j hj; simpa using hlt j hj) (Or.inl (by simpa using hk))
    simpa [dt_control_export_job_run] using h

/-- One turn of the loop of the export job that is not cancelled reports the
progress so far plus `1.0/total`. -/
theorem export_progress_turn (env : ExportEnv) (total : Int) (n : Nat) (imgid : Int)
    (t : List Int) (fraction : FVal) (hc : env.cancelled n = false) :
    export_progress (export_loop env total n (imgid :: t) fraction)
      = fadd fraction (fdiv (fin 1) (fin total))
        :: export_progress (export_loop env total (n + 1) t
            (fadd fraction (fdiv (fin 1) (fin total)))) := by
  cases he : env.image_exists imgid <;> cases hr : env.is_regular imgid <;>
    simp [export_loop, hc, he, hr, export_progress, export_progress_append]

/-- The loop of the export job, entered with the progress `q`, reports
`q + k/total` after the `k`-th image it takes. -/
theorem export_progress_loop (env : ExportEnv) (total : Int) (ht : (total : ℚ) ≠ 0) :
    ∀ (t : List Int) (n : Nat) (q : ℚ),
      export_progress (export_loop env total n t (fin q))
        = (List.range (images_taken (export_loop env total n t (fin q))).length).map
            (fun (k : Nat) => fin (q + ((k : ℚ) + 1) / total)) := by
  intro t
  induction t with
  | nil => intro n q; simp [export_loop, export_progress, images_taken]
  | cons imgid t ih =>
    intro n q
    cases hc : env.cancelled n
    · have hstep : fadd (fin q) (fdiv (fin 1) (fin (total : ℚ))) = fin (q + 1 / total) := by
        simp [fadd, fdiv, ht]
      rw [export_progress_turn env total n imgid t _ hc,
        (export_loop_turn env total n imgid t _ hc).1, hstep, ih (n + 1) (q + 1 / total)]
      rw [List.length_cons, List.range_succ_eq_map, List.map_cons, List.map_map]
      congr 1
      · simp
      · apply List.map_congr_left
        intro k _
        simp only [Function.comp, Nat.cast_succ]
        congr 1
        ring
    · rw [export_loop_cancelled env total n imgid t _ hc]
      simp [export_progress, images_taken]

/-- The quotient `1.0/total` is the number `1/total` for a list that is not
empty, and it is `1` for a list of one image only. -/
theorem progress_quotient (total : Nat) :
    (1 ≤ total → fdiv (fin 1) (fin ((total : Int) : ℚ)) = fin (1 / (total : ℚ)))
    ∧ (fdiv (fin 1) (fin ((total : Int) : ℚ)) = fin 1 ↔ total = 1) := by
  rcases Nat.eq_zero_or_pos total with h0 | hpos
  · subst h0
    have hinf : fdiv (fin 1) (fin (((0 : Nat) : Int) : ℚ)) = pinf := by
      norm_num [fdiv, signedInf]
    rw [hinf]
    exact ⟨fun h => absurd h (by decide), by simp⟩
  · have hne : (total : ℚ) ≠ 0 := by exact_mod_cast (Nat.pos_iff_ne_zero.mp hpos)
    refine ⟨fun _ => by simp [fdiv, hne], ?_⟩
    simp only [fdiv, Int.cast_natCast, hne, if_false, FVal.fin.injEq]
    constructor
    · intro h
      have h1 : (total : ℚ) = 1 := by
        field_simp at h
        exact h.symm
      exact_mod_cast h1
    · intro h
      subst h
      norm_num

/-- C30: the duplicate, flip, remove and delete jobs report the same value
`1.0/total` after each image they work on, as many times as there are images;
for a list of at least one image this value is the number `1/total`, and it is
`1` only when the list has one image; for the empty list they report nothing,
the loop with the division not being entered.  The export job reports
`k/total` after the `k`-th image it takes, and so after each image of the list
when it is never cancelled. -/
theorem batch_jobs_progress (env : ExportEnv) (benv : BatchEnv) (flag : Int) (sdata : Bool)
    (index : List Int) :
    progress_values (dt_control_duplicate_images_job_run env index).2
      = List.replicate index.length (fdiv (fin 1) (fin ((index.length : Int) : ℚ)))
    ∧ progress_values (dt_control_flip_images_job_run env flag index).2
      = List.replicate index.length (fdiv (fin 1) (fin ((index.length : Int) : ℚ)))
    ∧ progress_values (dt_control_remove_images_job_run env benv index).2
      = List.replicate index.length (fdiv (fin 1) (fin ((index.length : Int) : ℚ)))
    ∧ progress_values (dt_control_delete_images_job_run env benv index).2
      = List.replicate index.length (fdiv (fin 1) (fin ((index.length : Int) : ℚ)))
    ∧ (1 ≤ index.length →
        fdiv (fin 1) (fin ((index.length : Int) : ℚ)) = fin (1 / (index.length : ℚ)))
    ∧ (fdiv (fin 1) (fin ((index.length : Int) : ℚ)) = fin 1 ↔ index.length = 1)
    ∧ (progress_values (dt_control_duplicate_images_job_run env []).2 = []
      ∧ progress_values (dt_control_flip_images_job_run env flag []).2 = []
      ∧ progress_values (dt_control_remove_images_job_run env benv []).2 = []
      ∧ progress_values (dt_control_delete_images_job_run env benv []).2 = [])
    ∧ export_progress (dt_control_export_job_run env sdata index).2
      = (List.range (images_taken (dt_control_export_job_run env sdata index).2).length).map
          (fun (k : Nat) => fin (((k : ℚ) + 1) / (index.length : ℚ)))
    ∧ ((∀ n, env.cancelled n = false) →
        export_progress (dt_control_export_job_run env true index).2
          = (List.range index.length).map
              (fun (k : Nat) => fin (((k : ℚ) + 1) / (index.length : ℚ)))) := by
  have hd := duplicate_loop_spec (index.length : Int) index
  have hf := flip_loop_spec flag (index.length : Int) index
  have hr := remove_loop_spec (index.length : Int) index
  have hx := delete_loop_spec benv (index.length : Int) index
  have hs := synch_loop_processed benv
  have hq := progress_quotient index.length
  have hexp : ∀ sd : Bool, export_progress (dt_control_export_job_run env sd index).2
      = (List.range (images_taken (dt_control_export_job_run env sd index).2).length).map
          (fun (k : Nat) => fin (((k : ℚ) + 1) / (index.length : ℚ))) := by
    intro sd
    cases sd
    · simp [dt_control_export_job_run, export_progress, images_taken]
    · cases hi : index with
      | nil => simp [dt_control_export_job_run, export_loop, export_progress, images_taken]
      | cons imgid t =>
        have hne : (((imgid :: t).length : Int) : ℚ) ≠ 0 := by
          have hpos : (0 : ℚ) < ((t.length : ℚ) + 1) := by positivity
          have : (((imgid :: t).length : Int) : ℚ) = (t.length : ℚ) + 1 := by
            simp
          rw [this]
          exact ne_of_gt hpos
        have h := export_progress_loop env ((imgid :: t).length : Int) hne (imgid :: t) 0 0
        simpa [dt_control_export_job_run] using h
  refine ⟨?_, ?_, ?_, ?_, hq.1, hq.2, ⟨?_, ?_, ?_, ?_⟩, hexp sdata, ?_⟩
  · simp [dt_control_duplicate_images_job_run, progress_values_append, progress_values,
      hd.2.1]
  · simp [dt_control_flip_images_job_run, progress_values_append, progress_values, hf.2.1]
  · simp [dt_control_remove_images_job_run, progress_values_append, progress_values,
      hr.2.1, hs.2.1]
  · simp [dt_control_delete_images_job_run, progress_values_append, progress_values,
      hx.2.1, hs.2.1]
  · simp [dt_control_duplicate_images_job_run, duplicate_loop, progress_values]
  · simp [dt_control_flip_images_job_run, flip_loop, progress_values]
  · simp [dt_control_remove_images_job_run, remove_loop, progress_values_append,
      progress_values, hs.2.1]
  · simp [dt_control_delete_images_job_run, delete_loop, progress_values_append,
      progress_values, hs.2.1]
  · intro hnc
    have htake := export_taken_take env (index.length : Int) index 0 (fin 0) index.length
      (by intro j _; exact hnc _) (Or.inr (le_refl _))
    have hlen : (images_taken (dt_control_export_job_run env true index).2).length
        = index.length := by
      have : images_taken (dt_control_export_job_run env true index).2 = index := by
        simpa [dt_control_export_job_run] using htake
      rw [this]
    rw [hexp true, hlen]

/-! ## The source of the picture in `expose` -/

/-- Callees that leave the dirty flags and the timestamps alone: so do the
recompute triggers and the adjustment of the scroll bars. -/
theorem dirty_state_expose_process (ext : Ext) (r : Run)
    (hframe : ∀ a w, dirty_state (ext a w) = dirty_state w) :
    dirty_state (expose_scrollbars ext (expose_process ext r)).world = dirty_state r.world := by
  have hcall : ∀ (a : Action) (r : Run),
      dirty_state (r.call ext a).world = dirty_state r.world := fun a r => hframe a r.world
  have hproc : dirty_state (expose_process ext r).world = dirty_state r.world := by
    unfold expose_process
    by_cases h1 : r.world.dev.image_dirty ≠ 0
        ∨ r.world.dev.pipe.input_timestamp < r.world.dev.preview_pipe.input_timestamp
    · simp only [if_pos h1]
      split_ifs
      · rw [hcall, hcall]
      · rw [hcall]
    · simp only [if_neg h1]
      split_ifs
      · rw [hcall]
      · rfl
  rw [← hproc]
  exact world_calls_frame ext dirty_state hframe _ _

/-- Nothing before the drawing in `expose` reads a back buffer. -/
theorem mem_read_backbuf_before (ext : Ext) (r : Run) (p : Pipe) :
    Action.read_backbuf p
        ∈ (expose_scrollbars ext (expose_process ext (expose_gui_synch ext r))).actions
      ↔ Action.read_backbuf p ∈ r.actions := by
  have h1 : ∀ r : Run, Action.read_backbuf p ∈ (expose_gui_synch ext r).actions
      ↔ Action.read_backbuf p ∈ r.actions := by
    intro r
    unfold expose_gui_synch
    split_ifs
    · simp [actions_assign_dev, actions_assign_gui_reset, actions_calls]
    · rfl
  have h2 : ∀ r : Run, Action.read_backbuf p ∈ (expose_process ext r).actions
      ↔ Action.read_backbuf p ∈ r.actions := by
    intro r
    unfold expose_process
    by_cases h : r.world.dev.image_dirty ≠ 0
        ∨ r.world.dev.pipe.input_timestamp < r.world.dev.preview_pipe.input_timestamp
    · simp only [if_pos h]
      split_ifs <;> simp [actions_call]
    · simp only [if_neg h]
      split_ifs <;> simp [actions_call]
  have h3 : ∀ r : Run, Action.read_backbuf p ∈ (expose_scrollbars ext r).actions
      ↔ Action.read_backbuf p ∈ r.actions := by
    intro r
    simp [expose_scrollbars, actions_calls]
  rw [h3, h2, h1]

/-- Nothing after the drawing in `expose` reads the pixels of a back buffer. -/
theorem mem_read_backbuf_after (ext : Ext) (r : Run) (p : Pipe) :
    Action.read_backbuf p ∈ (expose_module_hook ext (expose_samples ext r)).actions
      ↔ Action.read_backbuf p ∈ r.actions := by
  have h3 : ∀ r : Run, Action.read_backbuf p ∈ (expose_samples ext r).actions
      ↔ Action.read_backbuf p ∈ r.actions := by
    intro r
    unfold expose_samples
    split_ifs <;> simp [actions_call, actions_access]
  have h4 : ∀ r : Run, Action.read_backbuf p ∈ (expose_module_hook ext r).actions
      ↔ Action.read_backbuf p ∈ r.actions := by
    intro r
    unfold expose_module_hook
    split <;> (try split_ifs) <;> simp [actions_call, actions_access]
  rw [h4, h3]

/-- The drawing reads the back buffer of the full pipeline exactly under the
condition of line 159, the back buffer of the preview pipeline exactly when
that condition fails and `preview_dirty` is clear, and does nothing at all
when both fail. -/
theorem mem_read_backbuf_draw (ext : Ext) (closeup : Int) (r : Run) :
    (Action.read_backbuf Pipe.pipe ∈ (expose_draw ext closeup r).actions
      ↔ Action.read_backbuf Pipe.pipe ∈ r.actions
        ∨ (r.world.dev.image_dirty = 0
          ∧ r.world.dev.pipe.input_timestamp ≥ r.world.dev.preview_pipe.input_timestamp))
    ∧ (Action.read_backbuf Pipe.preview_pipe ∈ (expose_draw ext closeup r).actions
      ↔ Action.read_backbuf Pipe.preview_pipe ∈ r.actions
        ∨ (¬ (r.world.dev.image_dirty = 0
            ∧ r.world.dev.pipe.input_timestamp ≥ r.world.dev.preview_pipe.input_timestamp)
          ∧ r.world.dev.preview_dirty = 0))
    ∧ (¬ (r.world.dev.image_dirty = 0
            ∧ r.world.dev.pipe.input_timestamp ≥ r.world.dev.preview_pipe.input_timestamp)
        → r.world.dev.preview_dirty ≠ 0 → expose_draw ext closeup r = r) := by
  unfold expose_draw
  by_cases h1 : r.world.dev.image_dirty = 0
      ∧ r.world.dev.pipe.input_timestamp ≥ r.world.dev.preview_pipe.input_timestamp
  · simp only [if_pos h1]
    refine ⟨?_, ?_, fun h => absurd h1 h⟩
    · split_ifs <;> simp [actions_calls, actions_access, h1]
    · split_ifs <;> simp [actions_calls, actions_access, h1]
  · simp only [if_neg h1]
    by_cases h2 : r.world.dev.preview_dirty = 0
    · simp only [if_pos h2]
      refine ⟨?_, ?_, fun _ h => absurd h2 h⟩
      · simp [actions_call, actions_access, h1]
      · simp [actions_call, actions_access, h1, h2]
    · simp only [if_neg h2]
      refine ⟨?_, ?_, fun _ _ => trivial⟩
      · simp [h1]
      · simp [h1, h2]

/-- C23: with callees that leave the dirty flags and the input timestamps of
the pipelines alone, a call of `expose` reads the back buffer of the full
pipeline if and only if `image_dirty` is clear and the input timestamp of the
full pipeline is not less than that of the preview pipeline; it reads the back
buffer of the preview pipeline if and only if that fails and `preview_dirty`
is clear; when both fail the drawing step does nothing and `expose` goes on.
The full buffer is painted exactly when `dt_dev_process_image` is not called,
the condition of the one being the negation of the condition of the other. -/
theorem expose_paint_source (ext : Ext) (w : World)
    (hframe : ∀ a w, dirty_state (ext a w) = dirty_state w) :
    (Action.read_backbuf Pipe.pipe ∈ (expose ext ⟨w, []⟩).actions
      ↔ (w.dev.image_dirty = 0
          ∧ w.dev.pipe.input_timestamp ≥ w.dev.preview_pipe.input_timestamp))
    ∧ (Action.read_backbuf Pipe.preview_pipe ∈ (expose ext ⟨w, []⟩).actions
      ↔ (¬ (w.dev.image_dirty = 0
            ∧ w.dev.pipe.input_timestamp ≥ w.dev.preview_pipe.input_timestamp)
          ∧ w.dev.preview_dirty = 0))
    ∧ (∀ (closeup : Int) (r : Run),
        ¬ (r.world.dev.image_dirty = 0
            ∧ r.world.dev.pipe.input_timestamp ≥ r.world.dev.preview_pipe.input_timestamp) →
        r.world.dev.preview_dirty ≠ 0 → expose_draw ext closeup r = r)
    ∧ (Action.read_backbuf Pipe.pipe ∈ (expose ext ⟨w, []⟩).actions
      ↔ Action.call Fn.dt_dev_process_image ∉ (expose ext ⟨w, []⟩).actions)
    ∧ ((w.dev.image_dirty = 0
          ∧ w.dev.pipe.input_timestamp ≥ w.dev.preview_pipe.input_timestamp)
      ↔ ¬ (w.dev.image_dirty ≠ 0
          ∨ w.dev.pipe.input_timestamp < w.dev.preview_pipe.input_timestamp)) := by
  have hs := dirty_state_expose_gui_synch ext ⟨w, []⟩ hframe
  have hs2 := dirty_state_expose_process ext (expose_gui_synch ext ⟨w, []⟩) hframe
  rw [hs] at hs2
  have hnone : ∀ p, Action.read_backbuf p
      ∉ (expose_scrollbars ext (expose_process ext (expose_gui_synch ext ⟨w, []⟩))).actions := by
    intro p
    rw [mem_read_backbuf_before]
    simp [Run.actions]
  have hd := fun c => mem_read_backbuf_draw ext c
    (expose_scrollbars ext (expose_process ext (expose_gui_synch ext ⟨w, []⟩)))
  have hneg : (w.dev.image_dirty = 0
        ∧ w.dev.pipe.input_timestamp ≥ w.dev.preview_pipe.input_timestamp)
      ↔ ¬ (w.dev.image_dirty ≠ 0
        ∨ w.dev.pipe.input_timestamp < w.dev.preview_pipe.input_timestamp) := by
    rw [not_or, not_not, not_lt]
  have hfull : Action.read_backbuf Pipe.pipe ∈ (expose ext ⟨w, []⟩).actions
      ↔ (w.dev.image_dirty = 0
          ∧ w.dev.pipe.input_timestamp ≥ w.dev.preview_pipe.input_timestamp) := by
    simp only [dirty_state, Prod.mk.injEq] at hs2
    obtain ⟨hid, hpd, hts, hpts⟩ := hs2
    unfold expose
    rw [mem_read_backbuf_after, (hd _).1, hid, hts, hpts]
    simp [hnone]
  have hproc : Action.call Fn.dt_dev_process_image ∈ (expose ext ⟨w, []⟩).actions
      ↔ (w.dev.image_dirty ≠ 0
          ∨ w.dev.pipe.input_timestamp < w.dev.preview_pipe.input_timestamp) := by
    have hsyn : Action.call Fn.dt_dev_process_image
        ∉ (expose_gui_synch ext ⟨w, []⟩).actions := by
      rw [mem_expose_gui_synch]
      simp [Run.actions]
    have hp := mem_expose_process ext (expose_gui_synch ext ⟨w, []⟩)
    simp only [dirty_state, Prod.mk.injEq] at hs
    obtain ⟨hid, hpd, hts, hpts⟩ := hs
    unfold expose
    rw [mem_expose_rest ext _ _ _ (Or.inl rfl), hp.1, hid, hts, hpts]
    simp [hsyn]
  refine ⟨hfull, ?_, fun c r => (mem_read_backbuf_draw ext c r).2.2, ?_, hneg⟩
  · simp only [dirty_state, Prod.mk.injEq] at hs2
    obtain ⟨hid, hpd, hts, hpts⟩ := hs2
    unfold expose
    rw [mem_read_backbuf_after, (hd _).2.1, hid, hts, hpts, hpd]
    simp [hnone]
  · rw [hfull, hproc]
    exact hneg

/-- Witness of C23: callees that leave the state alone, and a session with
nothing dirty and equal timestamps, which is painted from the full buffer. -/
theorem expose_paint_source_witness :
    (∀ a w, dirty_state (ext_none a w) = dirty_state w) ∧
    (Action.read_backbuf Pipe.pipe
      ∈ (expose ext_none ⟨⟨0, example_dev, 0, 0, 0⟩, []⟩).actions) :=
  ⟨fun _ _ => rfl,
   (expose_paint_source ext_none ⟨0, example_dev, 0, 0, 0⟩
     (fun _ _ => rfl)).1.mpr (by decide)⟩

/-! ## `try_enter` -/

/-- The image to open that `try_enter` computes is negative exactly when no
image is selected, and is the selected image otherwise; the computation makes
no call of the image cache and leaves `dev->image` alone. -/
theorem try_enter_selected_spec (ext : Ext) (env : ViewEnv) (r : Run)
    (hrow : ∀ v, env.selected_images = some v → 0 ≤ v)
    (hframe : ∀ a w, (ext a w).dev.image = w.dev.image) :
    ((try_enter_selected ext env r).1 < 0 ↔ selected_image env = none)
    ∧ (∀ s, selected_image env = some s → (try_enter_selected ext env r).1 = s)
    ∧ cache_calls (try_enter_selected ext env r).2.actions = cache_calls r.actions
    ∧ (try_enter_selected ext env r).2.world.dev.image = r.world.dev.image := by
  unfold try_enter_selected selected_image
  by_cases hm : env.lib_image_mouse_over_id < 0
  · have hm2 : ¬ 0 ≤ env.lib_image_mouse_over_id := not_le.mpr hm
    simp only [if_pos hm, if_neg hm2]
    cases hs : env.selected_images with
    | none =>
      refine ⟨by simpa using hm, by simp, ?_, hframe _ _⟩
      simp [actions_call, cache_calls]
    | some v =>
      have hv := hrow v hs
      refine ⟨by simpa using hv, by simp, ?_, hframe _ _⟩
      simp [actions_call, cache_calls]
  · have hm2 : 0 ≤ env.lib_image_mouse_over_id := not_lt.mp hm
    simp only [if_neg hm, if_pos hm2]
    exact ⟨by simpa using hm2, by simp, trivial, trivial⟩

/-- What `try_enter` does once it has computed the image to open. -/
theorem try_enter_open_spec (ext : Ext) (env : ViewEnv) (s : Int) (r : Run)
    (hframe : ∀ a w, (ext a w).dev.image = w.dev.image)
    (hid : ∀ id, (env.image_cache id).id = id) :
    (s < 0 → (try_enter_open ext env s r).1 = 1
      ∧ cache_calls (try_enter_open ext env s r).2.actions = cache_calls r.actions)
    ∧ (0 ≤ s → env.is_regular s = false →
        (try_enter_open ext env s r).1 = 1
        ∧ (try_enter_open ext env s r).2.world.dev.image = none
        ∧ cache_calls (try_enter_open ext env s r).2.actions
            = cache_calls r.actions ++ [Action.image_call Fn.dt_image_cache_get s,
                Action.image_call Fn.dt_image_cache_release s])
    ∧ (0 ≤ s → env.is_regular s = true →
        (try_enter_open ext env s r).1 = 0
        ∧ (try_enter_open ext env s r).2.world.dev.image = some (env.image_cache s)
        ∧ cache_calls (try_enter_open ext env s r).2.actions
            = cache_calls r.actions ++ [Action.image_call Fn.dt_image_cache_get s]) := by
  have hidw : ∀ (a : Action) (w : World), image_id (ext a w) = image_id w := by
    intro a w
    simp only [image_id, hframe]
  have himg : ∀ w : World, w.dev.image = some (env.image_cache s) → image_id w = s := by
    intro w hw
    simp only [image_id, hw, hid]
  unfold try_enter_open
  refine ⟨?_, ?_, ?_⟩
  · intro hs
    simp only [if_pos hs]
    exact ⟨trivial, by simp [actions_call, cache_calls]⟩
  · intro hs hreg
    have hs2 : ¬ s < 0 := not_lt.mpr hs
    simp only [if_neg hs2]
    have h1 : image_id ((r.call ext (Action.image_call Fn.dt_image_cache_get s)).assign_dev
        fun d => { d with image := some (env.image_cache s) }).world = s :=
      himg _ rfl
    simp only [h1, hreg, Bool.not_false, if_true]
    refine ⟨trivial, rfl, ?_⟩
    have h2 : image_id (((((r.call ext (Action.image_call Fn.dt_image_cache_get s)).assign_dev
        fun d => { d with image := some (env.image_cache s) }).calls ext
          [Action.image_call Fn.dt_image_full_path s, Action.call Fn.g_file_test]).call ext
            (Action.call Fn.dt_control_log)).world) = s := by
      apply himg
      simp only [Run.calls, List.foldl_cons, List.foldl_nil, Run.call, hframe]
      rfl
    simp only [actions_assign_dev, actions_call, actions_calls, h2]
    simp [cache_calls, List.filter_append]
  · intro hs hreg
    have hs2 : ¬ s < 0 := not_lt.mpr hs
    simp only [if_neg hs2]
    have h1 : image_id ((r.call ext (Action.image_call Fn.dt_image_cache_get s)).assign_dev
        fun d => { d with image := some (env.image_cache s) }).world = s :=
      himg _ rfl
    simp only [h1, hreg, Bool.not_true, Bool.false_eq_true, if_false]
    refine ⟨trivial, ?_, ?_⟩
    · simp only [Run.calls, List.foldl_cons, List.foldl_nil, Run.call, hframe]
      rfl
    · simp only [actions_assign_dev, actions_call, actions_calls]
      simp [cache_calls, List.filter_append]

/-- C22: with a table `selected_images` whose ids are not negative, callees
that leave `dev->image` alone and a cache that returns the image asked for,
`try_enter` returns non-zero exactly when no image is selected (none under the
mouse and no row in `selected_images`) or the file of the selected image is
not regular; in the second case the image checked out is released again and
`dev->image` is `NULL` on return; in every other case `try_enter` returns `0`,
`dev->image` is the image checked out, and it is not released. -/
theorem try_enter_spec (ext : Ext) (env : ViewEnv) (w : World)
    (hrow : ∀ v, env.selected_images = some v → 0 ≤ v)
    (hframe : ∀ a w, (ext a w).dev.image = w.dev.image)
    (hid : ∀ id, (env.image_cache id).id = id) :
    ((try_enter ext env ⟨w, []⟩).1 ≠ 0
      ↔ selected_image env = none
        ∨ ∃ s, selected_image env = some s ∧ env.is_regular s = false)
    ∧ (∀ s, selected_image env = some s → env.is_regular s = false →
        (try_enter ext env ⟨w, []⟩).2.world.dev.image = none
        ∧ cache_calls (try_enter ext env ⟨w, []⟩).2.actions
            = [Action.image_call Fn.dt_image_cache_get s,
               Action.image_call Fn.dt_image_cache_release s])
    ∧ (∀ s, selected_image env = some s → env.is_regular s = true →
        (try_enter ext env ⟨w, []⟩).1 = 0
        ∧ (try_enter ext env ⟨w, []⟩).2.world.dev.image = some (env.image_cache s)
        ∧ cache_calls (try_enter ext env ⟨w, []⟩).2.actions
            = [Action.image_call Fn.dt_image_cache_get s]) := by
  obtain ⟨hneg, hsel, hcalls, _⟩ := try_enter_selected_spec ext env ⟨w, []⟩ hrow hframe
  have hopen := try_enter_open_spec ext env (try_enter_selected ext env ⟨w, []⟩).1
    (try_enter_selected ext env ⟨w, []⟩).2 hframe hid
  have hnil : cache_calls (try_enter_selected ext env ⟨w, []⟩).2.actions = [] := by
    rw [hcalls]
    rfl
  have hpos : ∀ s, selected_image env = some s →
      0 ≤ (try_enter_selected ext env ⟨w, []⟩).1 := by
    intro s hs
    by_contra hlt
    have hnone := hneg.mp (not_le.mp hlt)
    rw [hnone] at hs
    exact absurd hs (by simp)
  have hbad : ∀ s, selected_image env = some s → env.is_regular s = false →
      (try_enter ext env ⟨w, []⟩).1 = 1
      ∧ (try_enter ext env ⟨w, []⟩).2.world.dev.image = none
      ∧ cache_calls (try_enter ext env ⟨w, []⟩).2.actions
          = [Action.image_call Fn.dt_image_cache_get s,
             Action.image_call Fn.dt_image_cache_release s] := by
    intro s hs hreg
    have h := hopen.2.1 (hpos s hs) (by rw [hsel s hs]; exact hreg)
    rw [hnil, hsel s hs] at h
    have heq : try_enter ext env ⟨w, []⟩
        = try_enter_open ext env s (try_enter_selected ext env ⟨w, []⟩).2 := by
      show try_enter_open ext env (try_enter_selected ext env ⟨w, []⟩).1
        (try_enter_selected ext env ⟨w, []⟩).2 = _
      rw [hsel s hs]
    rw [heq]
    simpa using h
  have hgood : ∀ s, selected_image env = some s → env.is_regular s = true →
      (try_enter ext env ⟨w, []⟩).1 = 0
      ∧ (try_enter ext env ⟨w, []⟩).2.world.dev.image = some (env.image_cache s)
      ∧ cache_calls (try_enter ext env ⟨w, []⟩).2.actions
          = [Action.image_call Fn.dt_image_cache_get s] := by
    intro s hs hreg
    have h := hopen.2.2 (hpos s hs) (by rw [hsel s hs]; exact hreg)
    rw [hnil, hsel s hs] at h
    have heq : try_enter ext env ⟨w, []⟩
        = try_enter_open ext env s (try_enter_selected ext env ⟨w, []⟩).2 := by
      show try_enter_open ext env (try_enter_selected ext env ⟨w, []⟩).1
        (try_enter_selected ext env ⟨w, []⟩).2 = _
      rw [hsel s hs]
    rw [heq]
    simpa using h
  refine ⟨?_, fun s hs hreg => (hbad s hs hreg).2, hgood⟩
  constructor
  · intro hret
    cases hs : selected_image env with
    | none => exact Or.inl rfl
    | some s =>
      refine Or.inr ⟨s, rfl, ?_⟩
      cases hreg : env.is_regular s
      · rfl
      · exact absurd (hgood s hs hreg).1 hret
  · intro h
    rcases h with hnone | ⟨s, hs, hreg⟩
    · have h1 := (hopen.1 (hneg.mpr hnone)).1
      have h2 : (try_enter ext env ⟨w, []⟩).1 = 1 := h1
      rw [h2]
      decide
    · rw [(hbad s hs hreg).1]
      decide

/-- Witness of C22: callees that leave the state alone, the image `1` under
the mouse and a regular file for it: `try_enter` returns `0`. -/
theorem try_enter_spec_witness :
    (∀ v, example_view_env.selected_images = some v → 0 ≤ v)
    ∧ (∀ a w, (ext_none a w).dev.image = w.dev.image)
    ∧ (∀ id, (example_view_env.image_cache id).id = id)
    ∧ (try_enter ext_none example_view_env ⟨example_world, []⟩).1 = 0 :=
  ⟨by intro v hv; simp [example_view_env] at hv; omega, fun _ _ => rfl, fun _ => rfl,
   ((try_enter_spec ext_none example_view_env example_world
      (by intro v hv; simp [example_view_env] at hv; omega) (fun _ _ => rfl)
      (fun _ => rfl)).2.2 1 (by decide) rfl).1⟩

/-! ## The image cache over a session -/

/-- C24, the code at the failing input: a session that opens the image `1`
with `try_enter`, switches once to the image `2`, by `film_strip_activated` or
by `dt_dev_jump_image`, and ends with `leave`.  The view checks out the images
`1` and `2` once each and releases the image `2` twice, once after the switch
(line 609 or 667, where `dev->image` already is the new image) and once in
`leave` (line 927): the image `1` is never released, and the image `2` is
released more often than it was checked out. -/
theorem session_cache_unbalanced :
    (try_enter ext_none example_view_env ⟨example_world, []⟩).1 = 0
    ∧ cache_calls (leave ext_none (film_strip_activated ext_none example_view_env none 2
          (try_enter ext_none example_view_env ⟨example_world, []⟩).2)).actions
        = [Action.image_call Fn.dt_image_cache_get 1, Action.image_call Fn.dt_image_cache_get 2,
           Action.image_call Fn.dt_image_cache_release 2,
           Action.image_call Fn.dt_image_cache_release 2]
    ∧ cache_references 1 (leave ext_none (film_strip_activated ext_none example_view_env none 2
          (try_enter ext_none example_view_env ⟨example_world, []⟩).2)).actions = 1
    ∧ cache_references 2 (leave ext_none (film_strip_activated ext_none example_view_env none 2
          (try_enter ext_none example_view_env ⟨example_world, []⟩).2)).actions = -1
    ∧ cache_calls (leave ext_none (dt_dev_jump_image ext_none example_view_env none 1
          (try_enter ext_none example_view_env ⟨example_world, []⟩).2)).actions
        = [Action.image_call Fn.dt_image_cache_get 1, Action.image_call Fn.dt_image_cache_get 2,
           Action.image_call Fn.dt_image_cache_release 2,
           Action.image_call Fn.dt_image_cache_release 2] := by
  refine ⟨by decide, by decide, by decide, by decide, by decide⟩

end Darktable
